import Mathlib

/-!
# GscLabChaincode: a points-transfer ledger (chaincode.go)

Shallow embedding of `chaincode.go`.

* Balances, amounts and discount rates (`float64` in the source) are taken as
  exact numbers: the definitions describe the runs in which every amount, money
  and rate text denotes a finite number and no sum or product rounds or
  overflows.  Outside these runs `strconv.ParseFloat` returns NaN or an infinity
  without an error, `json.Marshal` fails on such a value, and the chaincode drops
  that error and puts nil bytes.  The section *Machine values* gives the float64
  arithmetic and the two contract functions on it.
* Strings are texts (valid UTF-8), which `json.Marshal` stores unchanged; in any
  other byte sequence it replaces every invalid byte by U+FFFD (section *Machine
  values*).
* Go `int` is the 64-bit signed integer; additions are reduced with `wrapInt`.
* The state store is a key/value map together with a schedule of the store
  calls that fail; a key that was never written reads as nil bytes.
* The byte strings kept in the store are the JSON documents the chaincode
  itself marshals.  They are represented by the sum type `Value`; unmarshalling
  a document into a variable of another Go type leaves the freshly declared
  variable at its zero value (no JSON key is shared between `User`, `Contract`
  and `AllTransactions`, and a number or an array does not unmarshal into a
  struct, nor an object into a number or an array).
* `strconv.ParseFloat` and `strconv.Atoi` are library functions and are taken
  as parameters (`Strconv`); the reading of the clock is an input (`Clock`).
-/

namespace GscLab

/-! ## Data model -/

/-- An instant (`time.Time`), in seconds counted from the zero `time.Time`
(January 1, year 1, 00:00 UTC); the zero value is `0`. -/
abbrev Time := Int

/-- Maximum number of transactions to return. -/
def NUM_TX_TO_RETURN : Nat := 27

/-- Smart contract id of the travel contract. -/
def TRAVEL_CONTRACT : String := "Paris"

/-- Smart contract id of the feedback contract. -/
def FEEDBACK_CONTRACT : String := "Feedback"

/-- Blockchain point transaction record. -/
structure Transaction where
  RefNumber : String := ""
  Date : Time := 0
  Description : String := ""
  Type_ : String := ""
  Amount : ℚ := 0
  Money : ℚ := 0
  Activities : Int := 0
  To : String := ""
  From : String := ""
  ToName : String := ""
  FromName : String := ""
  ContractId : String := ""
  StatusCode : Int := 0
  StatusMsg : String := ""
deriving DecidableEq

/-- Smart contract metadata record. -/
structure Contract where
  Id : String := ""
  BusinessId : String := ""
  BusinessName : String := ""
  Title : String := ""
  Description : String := ""
  Conditions : List String := []
  Icon : String := ""
  StartDate : Time := 0
  EndDate : Time := 0
  Method : String := ""
  DiscountRate : ℚ := 0
deriving DecidableEq

/-- Open Points member record. -/
structure User where
  UserId : String := ""
  Name : String := ""
  Balance : ℚ := 0
  NumTxs : Int := 0
  Status : String := ""
  Expiration : String := ""
  Join : String := ""
  Modified : String := ""
deriving DecidableEq

/-- Array for storing all open points transactions. -/
structure AllTransactions where
  Transactions : List Transaction := []
deriving DecidableEq

/-- The JSON documents the chaincode marshals and puts in the store. -/
inductive Value where
  | user (u : User)
  | contract (c : Contract)
  | allTx (txs : AllTransactions)
  | int (n : Int)
  | strings (l : List String)
deriving DecidableEq

/-- Result of `json.Unmarshal` into a fresh `User`. -/
def unmarshalUser : Option Value → User
  | some (.user u) => u
  | _ => {}

/-- Result of `json.Unmarshal` into a fresh `Contract`. -/
def unmarshalContract : Option Value → Contract
  | some (.contract c) => c
  | _ => {}

/-- Result of `json.Unmarshal` into a fresh `AllTransactions`. -/
def unmarshalAllTransactions : Option Value → AllTransactions
  | some (.allTx t) => t
  | _ => {}

/-- Result of `json.Unmarshal` into a fresh `int`. -/
def unmarshalInt : Option Value → Int
  | some (.int n) => n
  | _ => 0

/-- Result of `json.Unmarshal` into a fresh `[]string`. -/
def unmarshalStrings : Option Value → List String
  | some (.strings l) => l
  | _ => []

/-- Reduction of an integer to the range of the 64-bit Go `int`. -/
def wrapInt (n : Int) : Int := (n + 2 ^ 63) % 2 ^ 64 - 2 ^ 63

/-- Decimal text of an integer (`strconv.Itoa`). -/
def Itoa (n : Int) : String := toString n

/-- The `strconv` parsers used by the chaincode.  `ParseFloat s` is `none` when
`strconv.ParseFloat(s, 64)` reports an error and `some q` when it returns the
finite number `q`, taken as exact; the texts for which it returns NaN or an
infinity without an error (`NaN`, `Inf`, `Infinity`) are not covered.  `Atoi s`
is the value returned by `strconv.Atoi(s)`, whose error the chaincode drops. -/
structure Strconv where
  ParseFloat : String → Option ℚ
  Atoi : String → Int

/-- The reading of the clock made at the start of `transferPoints`:
`time.Now().Format(time.RFC822)` and that text parsed back. -/
structure Clock where
  currentDateStr : String
  startDate : Time

/-- Errors: the three kinds of `error` values the chaincode returns, and the
run-time panic of an out-of-range index, after which the call does not return. -/
inductive Error where
  | store
  | strconv
  | new (msg : String)
  | indexOutOfRange
deriving DecidableEq

/-! ## State store -/

/-- The chaincode stub: the key/value state and the schedule of failures,
`faults i = true` meaning that the store call made `i` calls from now fails. -/
structure Stub where
  kv : String → Option Value
  faults : Nat → Bool

namespace Stub

/-- The stub after one store call has been made. -/
def tick (stub : Stub) : Stub :=
  { stub with faults := fun i => stub.faults (i + 1) }

/-- The stub with `value` stored under `key`. -/
def set (stub : Stub) (key : String) (value : Value) : Stub :=
  { stub with kv := fun k => if k = key then some value else stub.kv k }

/-- Model of `stub.GetState(key)`: an error, or the bytes under the key. -/
def GetState (stub : Stub) (key : String) : Except Error (Option Value) × Stub :=
  (if stub.faults 0 then .error .store else .ok (stub.kv key), stub.tick)

/-- Model of `stub.PutState(key, value)`: the error (if any) and the new stub;
a failed put leaves the state as it was. -/
def PutState (stub : Stub) (key : String) (value : Value) : Option Error × Stub :=
  if stub.faults 0 then (some .store, stub.tick) else (none, stub.tick.set key value)

/-- The store never errors from now on. -/
def NoFaults (stub : Stub) : Prop := ∀ i, stub.faults i = false

end Stub

/-- The bytes a call returned, nil when it reported an error. -/
def bytesOf : Except Error (Option Value) → Option Value
  | .ok b => b
  | .error _ => none

/-- The bytes an entry point returns: a stored document (or nil), or the
marshalled array of contracts built by `getAllContracts`. -/
inductive Reply where
  | bytes (b : Option Value)
  | contracts (l : List Contract)
deriving DecidableEq

/-- What an entry point returns, `([]byte, error)`, and the stub it leaves. -/
abbrev Ret := Except Error Reply × Stub

/-! ## Init -/

/-- The `Bank` user created by `Init`. -/
def bank : User :=
  { UserId := "B1928564", Name := "OpenFN", Balance := 1000000, Status := "Originator",
    Expiration := "2099-12-31", Join := "2015-01-01", Modified := "2016-05-06", NumTxs := 0 }

/-- The `Travel Agency` user created by `Init`. -/
def travel : User :=
  { UserId := "T5940872", Name := "Open Travel", Balance := 500000, Status := "Member",
    Expiration := "2099-12-31", Join := "2015-01-01", Modified := "2016-05-06", NumTxs := 0 }

/-- The `Natalie` user created by `Init`. -/
def natalie : User :=
  { UserId := "U2974034", Name := "Natalie", Balance := 1001, Status := "Platinum",
    Expiration := "2017-06-01", Join := "2015-05-31", Modified := "2016-05-06", NumTxs := 0 }

/-- The `Anthony` user created by `Init`. -/
def anthony : User :=
  { UserId := "U3151672", Name := "Anthony", Balance := 50000, Status := "Silver",
    Expiration := "2017-03-15", Join := "2015-08-15", Modified := "2016-04-17", NumTxs := 0 }

/-- The instant `11 May 16 12:00 UTC`. -/
def date_2016_05_11_1200 : Time := 63598564800

/-- The instant `24 May 16 12:00 UTC`. -/
def date_2016_05_24_1200 : Time := 63599688000

/-- The instant `31 Dec 60 11:59 UTC` (year 2060). -/
def date_2060_12_31_1159 : Time := 65007316740

/-- The seed of the reference counter. -/
def refNumberSeed : Int := 2985674978

/-- Contract metadata for double points created by `Init`. -/
def double : Contract :=
  { Id := TRAVEL_CONTRACT, BusinessId := "T5940872", BusinessName := "Open Travel",
    Title := "Paris for Less",
    Description := "All Paris travel activities are half the stated point price",
    Conditions := ([] ++ ["Half off dining and travel activities in Paris"])
      ++ ["Valid from May 11, 2016"],
    Icon := "", Method := "travelContract",
    StartDate := date_2016_05_11_1200, EndDate := date_2060_12_31_1159 }

/-- Contract metadata for feedback points created by `Init`. -/
def feedback : Contract :=
  { Id := FEEDBACK_CONTRACT, BusinessId := "T5940872", BusinessName := "Open Travel",
    Title := "Points for Feedback",
    Description := "Earn points by sharing your thoughts on travel package and activities",
    Conditions := ([] ++ ["1,000 points for travel package "]) ++ ["Valid from May 24, 2016"],
    Icon := "", Method := "feedbackContract",
    StartDate := date_2016_05_24_1200, EndDate := date_2060_12_31_1159 }

/-- Init - reset all the things. -/
def Init (stub : Stub) (_function : String) (args : List String) : Ret :=
  if args.length ≠ 1 then
    (.error (.new "Incorrect number of arguments. Expecting 1"), stub)
  else
  match stub.PutState bank.UserId (.user bank) with
  | (some err, stub) => (.error err, stub)
  | (none, stub) =>
  match stub.PutState travel.UserId (.user travel) with
  | (some err, stub) => (.error err, stub)
  | (none, stub) =>
  match stub.PutState natalie.UserId (.user natalie) with
  | (some err, stub) => (.error err, stub)
  | (none, stub) =>
  match stub.PutState anthony.UserId (.user anthony) with
  | (some err, stub) => (.error err, stub)
  | (none, stub) =>
  match stub.PutState "allTx" (.allTx {}) with
  | (some err, stub) => (.error err, stub)
  | (none, stub) =>
  match stub.PutState "refNumber" (.int refNumberSeed) with
  | (some err, stub) => (.error err, stub)
  | (none, stub) =>
  match stub.PutState TRAVEL_CONTRACT (.contract double) with
  | (some err, stub) => (.error err, stub)
  | (none, stub) =>
  match stub.PutState FEEDBACK_CONTRACT (.contract feedback) with
  | (some err, stub) => (.error err, stub)
  | (none, stub) =>
  let contractIds : List String := ([] ++ [TRAVEL_CONTRACT]) ++ [FEEDBACK_CONTRACT]
  match stub.PutState "contractIds" (.strings contractIds) with
  | (some err, stub) => (.error err, stub)
  | (none, stub) => (.ok (.bytes none), stub)

/-! ## Queries -/

/-- Get Open Points member account from the blockchain. -/
def getUserAccount (stub : Stub) (userId : String) : Ret :=
  match stub.GetState userId with
  | (.error _, stub) => (.error (.new "Failed to get user account from blockchain"), stub)
  | (.ok fdAsBytes, stub) => (.ok (.bytes fdAsBytes), stub)

/-- The loop of `getTxs`: `pending` holds the transactions still to visit, the
one of highest index first, `res` the transactions collected so far. -/
def getTxsLoop (userId : String) : List Transaction → List Transaction → List Transaction
  | [], res => res
  | t :: pending, res =>
    let res := if t.From = userId then res ++ [t] else res
    let res := if t.To = userId then res ++ [t] else res
    if res.length ≥ NUM_TX_TO_RETURN then res else getTxsLoop userId pending res

/-- Get all transactions that involve a particular user. -/
def getTxs (stub : Stub) (userId : String) : Ret :=
  match stub.GetState "allTx" with
  | (.error _, stub) => (.error (.new "Failed to get all Transactions"), stub)
  | (.ok allTxAsBytes, stub) =>
    let txs := unmarshalAllTransactions allTxAsBytes
    let res : AllTransactions := { Transactions := getTxsLoop userId txs.Transactions.reverse [] }
    (.ok (.bytes (some (.allTx res))), stub)

/-- The loop of `getAllContracts` over the contract ids. -/
def getAllContractsLoop : List String → Stub → List Contract → List Contract × Stub
  | [], stub, allContracts => (allContracts, stub)
  | id :: ids, stub, allContracts =>
    match stub.GetState id with
    | (contractAsBytes, stub) =>
      let thisContract := unmarshalContract (bytesOf contractAsBytes)
      getAllContractsLoop ids stub (allContracts ++ [thisContract])

/-- Get the smart contract metadata from the blockchain. -/
def getAllContracts (stub : Stub) : Ret :=
  match stub.GetState "contractIds" with
  | (contractIdsAsBytes, stub) =>
    let contractIds := unmarshalStrings (bytesOf contractIdsAsBytes)
    match getAllContractsLoop contractIds stub [] with
    | (allContracts, stub) => (.ok (.contracts allContracts), stub)

/-- Get the reference counter without changing it. -/
def getReferenceNumber (stub : Stub) : Ret :=
  match stub.GetState "refNumber" with
  | (.error numErr, stub) => (.error numErr, stub)
  | (.ok refNumberBytes, stub) => (.ok (.bytes refNumberBytes), stub)

/-- Add one to the stored reference counter. -/
def incrementReferenceNumber (stub : Stub) (_args : List String) : Ret :=
  match stub.GetState "refNumber" with
  | (.error numErr, stub) => (.error numErr, stub)
  | (.ok refNumberBytes, stub) =>
    let refNumber := unmarshalInt refNumberBytes
    let refNumber := wrapInt (refNumber + 1)
    match stub.PutState "refNumber" (.int refNumber) with
    | (some err, stub) => (.error err, stub)
    | (none, stub) => (.ok (.bytes none), stub)

/-! ## Contract evaluation -/

/-- Smart contract for giving user double points. -/
def travelContract (tx : Transaction) (stub : Stub) : ℚ × Stub :=
  match stub.GetState TRAVEL_CONTRACT with
  | (.error _, stub) => (-99, stub)
  | (.ok contractAsBytes, stub) =>
    let contract := unmarshalContract contractAsBytes
    let pointsToTransfer := tx.Amount
    let pointsToTransfer :=
      if tx.Date > contract.StartDate ∧ tx.Date < contract.EndDate then
        pointsToTransfer * (1 / 2)
      else pointsToTransfer
    (pointsToTransfer, stub)

/-- Smart contract for giving user points for completing feedback surveys. -/
def feedbackContract (tx : Transaction) (stub : Stub) : ℚ × Stub :=
  match stub.GetState FEEDBACK_CONTRACT with
  | (.error _, stub) => (-99, stub)
  | (.ok contractAsBytes, stub) =>
    let contract := unmarshalContract contractAsBytes
    let pointsToTransfer : ℚ := 0
    let pointsToTransfer :=
      if tx.Date > contract.StartDate ∧ tx.Date < contract.EndDate then
        let pointsToTransfer : ℚ := 1000
        if tx.Activities > 0 then pointsToTransfer + (tx.Activities : ℚ) * 100
        else pointsToTransfer
      else pointsToTransfer
    (pointsToTransfer, stub)

/-! ## Mutating operations -/

/-- The search loop of `addSmartContract`: whether `id` occurs in `contractIds`. -/
def contractIdFound (id : String) (contractIds : List String) : Bool :=
  contractIds.foldl (fun found x => if x = id then true else found) false

/-- The contract `addSmartContract` builds from its arguments. -/
def newSmartContract (P : Strconv) (a0 a1 a2 a3 a4 : String) : Contract :=
  let smartContract : Contract := {}
  let smartContract : Contract :=
    match P.ParseFloat a4 with
    | none => { smartContract with Title := "Invalid Contract" }
    | some discountRate => { smartContract with DiscountRate := discountRate }
  { smartContract with
    Id := a0, BusinessId := "T5940872", BusinessName := "Open Travel", Title := a1,
    Description := "", Conditions := (smartContract.Conditions ++ [a2]) ++ [a3],
    Icon := "", Method := "travelContract" }

/-- Register a smart contract given by `args` = id, title, two conditions and
the discount-rate text. -/
def addSmartContract (P : Strconv) (stub : Stub) (args : List String) : Ret :=
  match args with
  | a0 :: a1 :: a2 :: a3 :: a4 :: _ =>
    -- Create new smart contract based on user input
    let smartContract := newSmartContract P a0 a1 a2 a3 a4
    match stub.PutState smartContract.Id (.contract smartContract) with
    | (some err, stub) => (.error err, stub)
    | (none, stub) =>
      let got := stub.GetState "contractIds"
      let stub := got.2
      let contractIds := unmarshalStrings (bytesOf got.1)
      let contractIds :=
        if contractIdFound smartContract.Id contractIds then contractIds
        else contractIds ++ [smartContract.Id]
      match stub.PutState "contractIds" (.strings contractIds) with
      | (some err, stub) => (.error err, stub)
      | (none, stub) => (.ok (.bytes none), stub)
  | _ => (.error .indexOutOfRange, stub)

/-- The loop of `transferPoints` over the contract index: every entry whose
stored contract carries the id of the transaction discounts the amount. -/
def discountLoop (contractId : String) : List String → Stub → ℚ → ℚ × Stub
  | [], stub, amount => (amount, stub)
  | id :: ids, stub, amount =>
    let got := stub.GetState id
    let thisContract := unmarshalContract (bytesOf got.1)
    let amount :=
      if contractId = thisContract.Id then amount - amount * thisContract.DiscountRate
      else amount
    discountLoop contractId ids got.2 amount

/-- Determine point amount to transfer based on contract type. -/
def contractAmount (tx : Transaction) (stub : Stub) : ℚ × Stub :=
  if tx.ContractId = TRAVEL_CONTRACT then travelContract tx stub
  else if tx.ContractId = FEEDBACK_CONTRACT then feedbackContract tx stub
  else
    let got := stub.GetState "contractIds"
    let contractIds := unmarshalStrings (bytesOf got.1)
    discountLoop tx.ContractId contractIds got.2 tx.Amount

/-- The draft transaction `transferPoints` builds from its arguments, and the
error left in `err` by the parse of the money text. -/
def draftTx (P : Strconv) (clock : Clock) (a0 a1 a2 a3 a4 a5 a6 a7 : String) :
    Option Error × Transaction :=
  let tx : Transaction :=
    { Date := clock.startDate, To := a0, From := a1, Type_ := a2, Description := a3,
      ContractId := a4, Activities := P.Atoi a5, StatusCode := 1,
      StatusMsg := "Transaction Completed" }
  let tx : Transaction :=
    match P.ParseFloat a6 with
    | none => { tx with StatusCode := 0, StatusMsg := "Invalid Amount" }
    | some amountValue => { tx with Amount := amountValue }
  match P.ParseFloat a7 with
  | none => (some .strconv, { tx with StatusCode := 0, StatusMsg := "Invalid Amount" })
  | some moneyValue => (none, { tx with Money := moneyValue })

/-- Transfer points between members of the Open Points Network; `args` = to,
from, type, description, contract id, activities, amount and money. -/
def transferPoints (P : Strconv) (clock : Clock) (stub : Stub) (args : List String) : Ret :=
  match args with
  | a0 :: a1 :: a2 :: a3 :: a4 :: a5 :: a6 :: a7 :: _ =>
    let err := (draftTx P clock a0 a1 a2 a3 a4 a5 a6 a7).1
    let tx := (draftTx P clock a0 a1 a2 a3 a4 a5 a6 a7).2
    -- Get the current reference number and update it
    match stub.GetState "refNumber" with
    | (.error _, stub) =>
      (match err with
        | some e => .error e
        | none => .ok (.bytes none), stub)
    | (.ok refNumberBytes, stub) =>
    let refNumber := unmarshalInt refNumberBytes
    let tx := { tx with RefNumber := Itoa refNumber }
    let refNumber := wrapInt (refNumber + 1)
    match stub.PutState "refNumber" (.int refNumber) with
    | (some err, stub) => (.error err, stub)
    | (none, stub) =>
    -- Determine point amount to transfer based on contract type
    let evaluated := contractAmount tx stub
    let stub := evaluated.2
    let tx := { tx with Amount := evaluated.1 }
    -- Get Receiver account from BC and update point balance
    match stub.GetState tx.To with
    | (.error _, stub) => (.error (.new "transferPoints Failed to get Receiver from BC"), stub)
    | (.ok rfidBytes, stub) =>
    let receiver := unmarshalUser rfidBytes
    let receiver : User :=
      { receiver with
        Balance := receiver.Balance + tx.Amount, Modified := clock.currentDateStr,
        NumTxs := wrapInt (receiver.NumTxs + 1) }
    let tx := { tx with ToName := receiver.Name }
    match stub.PutState tx.To (.user receiver) with
    | (some err, stub) => (.error err, stub)
    | (none, stub) =>
    -- Get Sender account from BC and update point balance
    match stub.GetState tx.From with
    | (.error _, stub) =>
      (.error (.new "transferPoints Failed to get Financial Institution"), stub)
    | (.ok rfidBytes, stub) =>
    let sender := unmarshalUser rfidBytes
    let sender : User :=
      { sender with
        Balance := sender.Balance - tx.Amount, Modified := clock.currentDateStr,
        NumTxs := wrapInt (sender.NumTxs + 1) }
    let tx := { tx with FromName := sender.Name }
    match stub.PutState tx.From (.user sender) with
    | (some err, stub) => (.error err, stub)
    | (none, stub) =>
    -- get the AllTransactions index
    match stub.GetState "allTx" with
    | (.error _, stub) =>
      (.error (.new "transferPoints: Failed to get all Transactions"), stub)
    | (.ok allTxAsBytes, stub) =>
    let txs := unmarshalAllTransactions allTxAsBytes
    let txs : AllTransactions := { txs with Transactions := txs.Transactions ++ [tx] }
    match stub.PutState "allTx" (.allTx txs) with
    | (some err, stub) => (.error err, stub)
    | (none, stub) => (.ok (.bytes none), stub)
  | _ => (.error .indexOutOfRange, stub)

/-! ## Entry points -/

/-- Invoke - Our entry point for Invocations. -/
def Invoke (P : Strconv) (clock : Clock) (stub : Stub) (function : String)
    (args : List String) : Ret :=
  if function = "init" then Init stub "init" args
  else if function = "transferPoints" then transferPoints P clock stub args
  else if function = "addSmartContract" then addSmartContract P stub args
  else if function = "incrementReferenceNumber" then incrementReferenceNumber stub args
  else (.error (.new "Received unknown function invocation"), stub)

/-- Query - Our entry point for Queries. -/
def Query (stub : Stub) (function : String) (args : List String) : Ret :=
  if function = "getTxs" then
    match args with
    | _ :: a1 :: _ => getTxs stub a1
    | _ => (.error .indexOutOfRange, stub)
  else if function = "getUserAccount" then
    match args with
    | _ :: a1 :: _ => getUserAccount stub a1
    | _ => (.error .indexOutOfRange, stub)
  else if function = "getAllContracts" then getAllContracts stub
  else if function = "getReferenceNumber" then getReferenceNumber stub
  else (.error (.new "Received unknown function query"), stub)

/-! ## Observations on the state -/

/-- The transaction log stored under `allTx`, as the chaincode reads it. -/
def logOf (stub : Stub) : List Transaction :=
  (unmarshalAllTransactions (stub.kv "allTx")).Transactions

/-- The contract index stored under `contractIds`, as the chaincode reads it. -/
def indexOf (stub : Stub) : List String :=
  unmarshalStrings (stub.kv "contractIds")

/-- The reference counter stored under `refNumber`, as the chaincode reads it. -/
def counterOf (stub : Stub) : Int :=
  unmarshalInt (stub.kv "refNumber")

/-- The account stored under `id`, as the chaincode reads it. -/
def accountOf (stub : Stub) (id : String) : User :=
  unmarshalUser (stub.kv id)

/-- A store with no key written that never errors. -/
def emptyStub : Stub := { kv := fun _ => none, faults := fun _ => false }

/-- Value of a string of decimal digits. -/
def digitsValue (cs : List Char) : Nat := cs.foldl (fun n c => 10 * n + (c.toNat - 48)) 0

/-- The number written by `digits` or `digits.digits`, and `none` for any other text. -/
def decimalText (cs : List Char) : Option ℚ :=
  match cs.span Char.isDigit with
  | (ip, []) => if ip = [] then none else some (digitsValue ip : ℚ)
  | (ip, '.' :: fp) =>
    if ip ≠ [] ∧ fp ≠ [] ∧ fp.all Char.isDigit then
      some ((digitsValue ip : ℚ) + (digitsValue fp : ℚ) / (10 ^ fp.length : ℕ))
    else none
  | _ => none

/-- A parser for the examples, which reads unsigned decimal texts such as `5`
and `0.5` and rejects every other text. -/
def decimal : Strconv :=
  { ParseFloat := fun s => decimalText s.data
    Atoi := fun s =>
      if s.data ≠ [] ∧ s.data.all Char.isDigit then (digitsValue s.data : Int) else 0 }

/-- A clock reading for the examples: 1 June 2016, 00:00 UTC. -/
def june2016 : Clock := { currentDateStr := "01 Jun 16 00:00 UTC", startDate := 63600336000 }

/-- The state written by `Init` on an empty store that never errors. -/
def initState : Stub := (Init emptyStub "init" ["reset"]).2

/-- A sequence of `transferPoints` calls, each with its clock reading and arguments. -/
def runTransfers (P : Strconv) : Stub → List (Clock × List String) → Stub
  | stub, [] => stub
  | stub, call :: calls => runTransfers P (transferPoints P call.1 stub call.2).2 calls

/-- A sequence of `addSmartContract` calls, each with its arguments. -/
def runAddSmartContracts (P : Strconv) : Stub → List (List String) → Stub
  | stub, [] => stub
  | stub, args :: calls => runAddSmartContracts P (addSmartContract P stub args).2 calls

/-- The transactions in the bytes returned by `getTxs`. -/
def returnedTxs : Ret → List Transaction
  | (.ok (.bytes (some (.allTx res))), _) => res.Transactions
  | _ => []

/-- Arguments of a transfer of 5 points from Natalie to herself. -/
def selfTransferArgs : List String :=
  ["U2974034", "U2974034", "gift", "to myself", "none", "0", "5", "0"]

/-- The state after `Init` and `n` transfers from Natalie to herself. -/
def afterSelfTransfers (n : Nat) : Stub :=
  runTransfers decimal initState (List.replicate n (june2016, selfTransferArgs))

/-- The nine writes of `Init`. -/
def initWrites (s : Stub) : Stub :=
  ((((((((s.set bank.UserId (.user bank)).set travel.UserId (.user travel)).set
    natalie.UserId (.user natalie)).set anthony.UserId (.user anthony)).set
    "allTx" (.allTx {})).set "refNumber" (.int refNumberSeed)).set
    TRAVEL_CONTRACT (.contract double)).set FEEDBACK_CONTRACT (.contract feedback)).set
    "contractIds" (.strings [TRAVEL_CONTRACT, FEEDBACK_CONTRACT])

/-- The arguments of a transfer hold eight texts or more, and neither the
receiver nor the sender is the key `refNumber` of the reference counter. -/
def TransferAvoidsCounter (args : List String) : Prop :=
  8 ≤ args.length ∧ args[0]? ≠ some "refNumber" ∧ args[1]? ≠ some "refNumber"

/-- Arguments of a transfer of 5 points from Natalie to the key `refNumber`. -/
def counterKeyTransferArgs : List String :=
  ["refNumber", "U2974034", "gift", "to the counter", "none", "0", "5", "0"]

/-- The state after `Init` and one transfer from Natalie to the key `refNumber`. -/
def afterCounterKeyTransfer : Stub :=
  (transferPoints decimal june2016 initState counterKeyTransferArgs).2

/-- Arguments of a transfer of 5 points from Natalie to Anthony. -/
def plainTransferArgs : List String :=
  ["U3151672", "U2974034", "gift", "to Anthony", "none", "0", "5", "0"]

/-- Arguments of a transfer with the amount text `abc` under the feedback contract. -/
def malformedFeedbackArgs : List String :=
  ["U3151672", "U2974034", "survey", "feedback", "Feedback", "3", "abc", "0"]

/-- Arguments of a transfer with the amount text `abc` and no contract. -/
def malformedPlainArgs : List String :=
  ["U3151672", "U2974034", "gift", "to Anthony", "none", "3", "abc", "0"]

/-- Every contract in the store is stored under its own identifier. -/
def KeyedById (s : Stub) : Prop := ∀ k c, s.kv k = some (.contract c) → c.Id = k

/-- The states reachable from `Init`: the state written by a successful `Init`
on the empty store of a fresh deployment, whatever the schedule of failures, and
every state left by an invocation or a query made in a reachable state. -/
inductive Reachable (P : Strconv) : Stub → Prop where
  | deploy (faults : Nat → Bool) (function : String) (args : List String) :
      (Init { kv := fun _ => none, faults := faults } function args).1 = .ok (.bytes none) →
      Reachable P (Init { kv := fun _ => none, faults := faults } function args).2
  | invoke (clock : Clock) (function : String) (args : List String) {s : Stub} :
      Reachable P s → Reachable P (Invoke P clock s function args).2
  | query (function : String) (args : List String) {s : Stub} :
      Reachable P s → Reachable P (Query s function args).2

/-- Every key of `s1` is as in `s`, or holds an account, a number or a log. -/
def Touches (s s1 : Stub) : Prop :=
  ∀ k, s1.kv k = s.kv k ∨ (∃ u, s1.kv k = some (.user u)) ∨
    (∃ n, s1.kv k = some (.int n)) ∨ (∃ t, s1.kv k = some (.allTx t))

/-- Arguments registering the contract `Rome` with discount rate `0.5`. -/
def romeContractArgs : List String := ["Rome", "Rome for Less", "dining", "travel", "0.5"]

/-- Arguments registering a contract under the key `refNumber` with discount rate `0.5`. -/
def counterKeyContractArgs : List String :=
  ["refNumber", "Counter for Less", "dining", "travel", "0.5"]

/-- Arguments of a transfer of 100 points under the contract identifier `refNumber`. -/
def counterKeyContractTransferArgs : List String :=
  ["U3151672", "U2974034", "gift", "to Anthony", "refNumber", "0", "100", "0"]

/-- Arguments of a transfer of 5 points from Natalie to `U0000000`, a key with no value. -/
def unknownReceiverArgs : List String :=
  ["U0000000", "U2974034", "gift", "to nobody", "none", "0", "5", "0"]

/-- Arguments of a transfer of 5 points from `U0000000`, a key with no value, to Anthony. -/
def unknownSenderArgs : List String :=
  ["U3151672", "U0000000", "gift", "from nobody", "none", "0", "5", "0"]

/-- The state written by `Init`, with a store whose next call fails and no other. -/
def counterReadFails : Stub := { initState with faults := fun i => decide (i = 0) }

/-- The state written by `Init`, with a store whose third call from now fails and no other. -/
def contractLoadFails : Stub := { initState with faults := fun i => decide (i = 2) }

/-- Arguments of a transfer of 100 points from Natalie to Anthony under `Paris`. -/
def parisTransferArgs : List String :=
  ["U3151672", "U2974034", "travel", "Paris trip", "Paris", "0", "100", "0"]

/-- Arguments of a transfer of 100 points from Natalie to Anthony under `Feedback`. -/
def feedbackTransferArgs : List String :=
  ["U3151672", "U2974034", "survey", "feedback", "Feedback", "3", "100", "0"]

/-- Arguments registering `Rome` with the discount-rate text `x`. -/
def malformedRateArgs : List String := ["Rome", "Rome for Less", "dining", "travel", "x"]

/-- The state after `Init` and one transfer of 5 points from Natalie to Anthony. -/
def afterPlainTransfer : Stub := (transferPoints decimal june2016 initState plainTransferArgs).2

/-- Arguments registering a contract under the key `allTx`. -/
def logKeyContractArgs : List String := ["allTx", "Log for Less", "dining", "travel", "0.5"]

/-- Arguments of a transfer of 5 points from Natalie to the key `allTx`. -/
def logKeyTransferArgs : List String :=
  ["allTx", "U2974034", "gift", "to the log", "none", "0", "5", "0"]

/-- Arguments registering a contract under Natalie's account identifier. -/
def accountKeyContractArgs : List String :=
  ["U2974034", "Natalie for Less", "dining", "travel", "0.5"]

/-- The stub at the load of the receiver (step 4) of a transfer whose read and
update of the reference counter succeeded: the stub left by contract evaluation. -/
def stubAtReceiverLoad (P : Strconv) (clock : Clock) (s : Stub)
    (a0 a1 a2 a3 a4 a5 a6 a7 : String) : Stub :=
  (contractAmount
    { (draftTx P clock a0 a1 a2 a3 a4 a5 a6 a7).2 with RefNumber := Itoa (counterOf s) }
    (s.tick.tick.set "refNumber" (.int (wrapInt (counterOf s + 1))))).2

/-- The state written by `Init`, with a store whose tenth call from now fails and
no other: in a transfer under an unregistered contract, the read of the log. -/
def logLoadFails : Stub := { initState with faults := fun i => decide (i = 9) }

/-- Arguments of a transfer of 5 points from the key `refNumber` to itself. -/
def counterKeySelfTransferArgs : List String :=
  ["refNumber", "refNumber", "gift", "to myself", "none", "0", "5", "0"]

/-- Arguments of a transfer of 100 points from Natalie to Anthony under `Rome`. -/
def romeTransferArgs : List String :=
  ["U3151672", "U2974034", "gift", "to Anthony", "Rome", "0", "100", "0"]

/-- The state written by `Init`, with a store whose sixth call from now fails and
no other: in a transfer under an unregistered contract, the load of the receiver. -/
def receiverLoadFails : Stub := { initState with faults := fun i => decide (i = 5) }

/-- The state after `Init` and the registration of `Rome` with discount rate `0.5`. -/
def afterRomeContract : Stub := (addSmartContract decimal initState romeContractArgs).2

/-- The contract read under `Paris` has the zero time as its StartDate and as
its EndDate. -/
def ZeroTravelWindow (s : Stub) : Prop :=
  (unmarshalContract (s.kv TRAVEL_CONTRACT)).StartDate = 0 ∧
  (unmarshalContract (s.kv TRAVEL_CONTRACT)).EndDate = 0

/-- The states that follow `s0` with no new run of `Init`: `s0` itself, and every
state left by a query or by an invocation of a function other than `init`,
whichever store calls fail. -/
inductive NoResetSince (P : Strconv) (s0 : Stub) : Stub → Prop where
  | start : NoResetSince P s0 s0
  | invoke (clock : Clock) (function : String) (args : List String) {s : Stub} :
      function ≠ "init" → NoResetSince P s0 s →
      NoResetSince P s0 (Invoke P clock s function args).2
  | query (function : String) (args : List String) {s : Stub} :
      NoResetSince P s0 s → NoResetSince P s0 (Query s function args).2

/-- Arguments registering a contract under `Paris` with discount rate `0.5`. -/
def parisContractArgs : List String := ["Paris", "Paris for Less", "dining", "travel", "0.5"]

/-- The state after `Init` and the registration of `parisContractArgs`. -/
def afterParisContract : Stub := (addSmartContract decimal initState parisContractArgs).2

/-- The state after `Init`, the registration of `parisContractArgs` and a
transfer between Natalie and Anthony. -/
def afterParisContractTransfer : Stub :=
  (Invoke decimal june2016 afterParisContract "transferPoints" plainTransferArgs).2

/-- The state after `Init`, the registration of `parisContractArgs` and an
invocation of `init`. -/
def afterParisContractReset : Stub :=
  (Invoke decimal june2016 afterParisContract "init" ["reset"]).2

/-! ## Machine values

The definitions above take amounts as exact numbers and strings as texts.  The
definitions of this section follow the same source lines on the values the
machine holds: float64 amounts, every product and sum rounded to nearest (ties
to even), and strings as byte sequences, which `json.Marshal` coerces to valid
UTF-8. -/

/-- A float64 value, up to the sign of zero: a finite number, an infinity or NaN. -/
inductive Float64 where
  | finite (q : ℚ)
  | inf (negative : Bool)
  | nan
deriving DecidableEq

namespace Float64

/-- The power `2 ^ k` for an integer `k`. -/
def pow2 (k : Int) : ℚ :=
  if 0 ≤ k then ((2 ^ k.toNat : ℕ) : ℚ) else 1 / ((2 ^ (-k).toNat : ℕ) : ℚ)

/-- The nearest integer, the even one of the two when `q` is half-way. -/
def roundHalfEven (q : ℚ) : Int :=
  let f := q.num / q.den
  let r := q.num % q.den
  if 2 * r < q.den then f
  else if (q.den : Int) < 2 * r then f + 1
  else if f % 2 = 0 then f else f + 1

/-- Number of binary digits of `n` (`fuel` at least that number). -/
def bitLength : Nat → Nat → Nat
  | 0, _ => 0
  | fuel + 1, n => if n = 0 then 0 else bitLength fuel (n / 2) + 1

/-- The binary exponent of `q ≠ 0`: the `e` with `2 ^ e ≤ |q| < 2 ^ (e + 1)`. -/
def exponent (q : ℚ) : Int :=
  let e : Int := (bitLength q.num.natAbs q.num.natAbs : Int) - (bitLength q.den q.den : Int)
  if |q| < pow2 e then e - 1 else e

/-- The float64 nearest to `q` (ties to even): 53 significant binary digits, no
digit below `2 ^ (-1074)`, and an infinity from `2 ^ 1024` on. -/
def round (q : ℚ) : Float64 :=
  if q = 0 then finite 0
  else
    let quantum : Int := max (exponent q - 52) (-1074)
    let r : ℚ := (roundHalfEven (q / pow2 quantum) : ℚ) * pow2 quantum
    if pow2 1024 ≤ |r| then inf (decide (q < 0)) else finite r

/-- The float64 product. -/
def mul : Float64 → Float64 → Float64
  | finite x, finite y => round (x * y)
  | finite x, inf n => if x = 0 then nan else inf (if x < 0 then !n else n)
  | inf n, finite y => if y = 0 then nan else inf (if y < 0 then !n else n)
  | inf n, inf m => inf (n != m)
  | _, _ => nan

/-- The float64 sum. -/
def add : Float64 → Float64 → Float64
  | finite x, finite y => round (x + y)
  | finite _, inf n => inf n
  | inf n, finite _ => inf n
  | inf n, inf m => if n = m then inf n else nan
  | _, _ => nan

/-- The conversion `float64(n)` of a Go `int`. -/
def ofInt (n : Int) : Float64 := round n

end Float64

/-- The function `travelContract` on the float64 amount: `amount` is the float64
held in `tx.Amount`. -/
def travelContractFloat64 (tx : Transaction) (amount : Float64) (stub : Stub) :
    Float64 × Stub :=
  match stub.GetState TRAVEL_CONTRACT with
  | (.error _, stub) => (.finite (-99), stub)
  | (.ok contractAsBytes, stub) =>
    let contract := unmarshalContract contractAsBytes
    let pointsToTransfer := amount
    let pointsToTransfer :=
      if tx.Date > contract.StartDate ∧ tx.Date < contract.EndDate then
        Float64.mul pointsToTransfer (.finite (1 / 2))
      else pointsToTransfer
    (pointsToTransfer, stub)

/-- The function `feedbackContract` with its float64 result. -/
def feedbackContractFloat64 (tx : Transaction) (stub : Stub) : Float64 × Stub :=
  match stub.GetState FEEDBACK_CONTRACT with
  | (.error _, stub) => (.finite (-99), stub)
  | (.ok contractAsBytes, stub) =>
    let contract := unmarshalContract contractAsBytes
    let pointsToTransfer : Float64 := .finite 0
    let pointsToTransfer :=
      if tx.Date > contract.StartDate ∧ tx.Date < contract.EndDate then
        let pointsToTransfer : Float64 := .finite 1000
        if tx.Activities > 0 then
          Float64.add pointsToTransfer (Float64.mul (Float64.ofInt tx.Activities) (.finite 100))
        else pointsToTransfer
      else pointsToTransfer
    (pointsToTransfer, stub)

/-- A Go string: the sequence of its bytes (numbers below 256). -/
abbrev GoString := List Nat

/-- Whether `b` is a UTF-8 continuation byte within `lo..hi`. -/
def inRange (lo hi b : Nat) : Bool := decide (lo ≤ b) && decide (b ≤ hi)

/-- Width of the well-formed UTF-8 sequence that starts with the byte `b`
followed by `rest` (`utf8.DecodeRuneInString`), `none` when there is none. -/
def utf8Width (b : Nat) (rest : GoString) : Option Nat :=
  if b < 0x80 then some 1
  else if inRange 0xC2 0xDF b then
    match rest with
    | c1 :: _ => if inRange 0x80 0xBF c1 then some 2 else none
    | _ => none
  else if inRange 0xE0 0xEF b then
    match rest with
    | c1 :: c2 :: _ =>
      if inRange (if b = 0xE0 then 0xA0 else 0x80) (if b = 0xED then 0x9F else 0xBF) c1
          && inRange 0x80 0xBF c2 then some 3
      else none
    | _ => none
  else if inRange 0xF0 0xF4 b then
    match rest with
    | c1 :: c2 :: c3 :: _ =>
      if inRange (if b = 0xF0 then 0x90 else 0x80) (if b = 0xF4 then 0x8F else 0xBF) c1
          && inRange 0x80 0xBF c2 && inRange 0x80 0xBF c3 then some 4
      else none
    | _ => none
  else none

/-- The string read back by `json.Unmarshal` from what `json.Marshal` makes of
`s`: well-formed UTF-8 sequences are kept (`pending` bytes of the current one are
still to copy) and every other byte becomes U+FFFD, the bytes `EF BF BD`. -/
def jsonStringFrom : Nat → GoString → GoString
  | _, [] => []
  | pending + 1, b :: rest => b :: jsonStringFrom pending rest
  | 0, b :: rest =>
    match utf8Width b rest with
    | some n => b :: jsonStringFrom (n - 1) rest
    | none => 0xEF :: 0xBF :: 0xBD :: jsonStringFrom 0 rest

/-- The string read back from the store for the string `s` put in a document. -/
def jsonString (s : GoString) : GoString := jsonStringFrom 0 s

/-- The index update of `addSmartContract` on byte strings: the search loop
compares the entries read back from the store with the identifier as passed, and
the index is stored through `json.Marshal`, so that it reads back coerced. -/
def addSmartContractIndex (id : GoString) (contractIds : List GoString) : List GoString :=
  let contractIdFound := contractIds.foldl (fun found x => if x = id then true else found) false
  let contractIds := if contractIdFound then contractIds else contractIds ++ [id]
  contractIds.map jsonString

/-- The bytes of `Paris` and `Feedback`: the index written by `Init`. -/
def initIndexBytes : List GoString :=
  [[0x50, 0x61, 0x72, 0x69, 0x73], [0x46, 0x65, 0x65, 0x64, 0x62, 0x61, 0x63, 0x6B]]

/-- The bytes `52 6F FF 6D 65`: `Ro`, the byte `FF`, `me`. -/
def romeBadBytes : GoString := [0x52, 0x6F, 0xFF, 0x6D, 0x65]

/-- The smallest positive float64, `2 ^ (-1074)`. -/
def smallestFloat64 : ℚ := Float64.pow2 (-1074)

/-- A transaction dated 1 June 2016 with the smallest positive amount. -/
def tinyTravelTx : Transaction := { Date := june2016.startDate, Amount := smallestFloat64 }

/-- A transaction dated 1 June 2016 with 360287970189641 feedback activities. -/
def busyFeedbackTx : Transaction := { Date := june2016.startDate, Activities := 360287970189641 }

/-- The factor left by the discounts of the index entries `ids` for the contract
identifier `contractId`: one factor `1 - DiscountRate` for every entry, other
than the key `refNumber`, whose stored contract carries that identifier. -/
def discountFactor (s : Stub) (contractId : String) (ids : List String) : ℚ :=
  (ids.map (fun id =>
    if id ≠ "refNumber" ∧ contractId = (unmarshalContract (s.kv id)).Id then
      1 - (unmarshalContract (s.kv id)).DiscountRate
    else 1)).prod

/-! ## Basic facts on the store -/

theorem Stub.tick_of_noFaults {s : Stub} (h : s.NoFaults) : s.tick = s := by
  cases s with
  | mk kv faults =>
    have hf : ∀ i, faults i = false := h
    have : (fun i => faults (i + 1)) = faults := by
      funext i; rw [hf (i + 1), hf i]
    simp [Stub.tick, this]

theorem Stub.noFaults_set {s : Stub} (h : s.NoFaults) (k : String) (v : Value) :
    (s.set k v).NoFaults := fun i => h i

theorem Stub.noFaults_tick {s : Stub} (h : s.NoFaults) : s.tick.NoFaults := fun i => h (i + 1)

theorem Stub.GetState_of_noFaults {s : Stub} (h : s.NoFaults) (k : String) :
    s.GetState k = (.ok (s.kv k), s) := by
  simp [Stub.GetState, h 0, Stub.tick_of_noFaults h]

theorem Stub.PutState_of_noFaults {s : Stub} (h : s.NoFaults) (k : String) (v : Value) :
    s.PutState k v = (none, s.set k v) := by
  simp [Stub.PutState, h 0, Stub.tick_of_noFaults h]

theorem Stub.set_kv_self (s : Stub) (k : String) (v : Value) :
    (s.set k v).kv k = some v := by simp [Stub.set]

theorem Stub.set_kv_of_ne (s : Stub) {k j : String} (v : Value) (h : j ≠ k) :
    (s.set k v).kv j = s.kv j := by simp [Stub.set, h]

/-! ## getTxs -/

set_option maxRecDepth 10000 in
/-- C4, evaluated on the code: after `Init` and fourteen transfers from Natalie
to herself, `getTxs` succeeds and returns 28 transactions for her, one more than
`NUM_TX_TO_RETURN`. -/
theorem getTxs_exceeds_NUM_TX_TO_RETURN :
    (∃ res, (getTxs (afterSelfTransfers 14) "U2974034").1 = .ok (.bytes (some (.allTx res)))) ∧
      (returnedTxs (getTxs (afterSelfTransfers 14) "U2974034")).length = 28 ∧
      NUM_TX_TO_RETURN = 27 := by
  refine ⟨⟨_, rfl⟩, by decide, rfl⟩

set_option maxRecDepth 10000 in
/-- C5, evaluated on the code: after `Init` and one transfer from Natalie to
herself, the log holds that one transaction and `getTxs` returns two entries for
her, which is not the reversed log filtered on sender-or-receiver and cut after
27 entries. -/
theorem getTxs_repeats_self_transfer :
    (logOf (afterSelfTransfers 1)).length = 1 ∧
      (returnedTxs (getTxs (afterSelfTransfers 1) "U2974034")).length = 2 ∧
      returnedTxs (getTxs (afterSelfTransfers 1) "U2974034") ≠
        ((logOf (afterSelfTransfers 1)).reverse.filter
          (fun t => t.From = "U2974034" ∨ t.To = "U2974034")).take 27 := by
  refine ⟨by decide, by decide, fun h => ?_⟩
  have hlen := congrArg List.length h
  revert hlen
  decide

/-- When no pending transaction has `userId` both as sender and as receiver, the
loop of `getTxs` collects the pending transactions that involve `userId`, in
order, until 27 are held. -/
theorem getTxsLoop_of_no_self_transfer (userId : String) (pending : List Transaction) :
    ∀ res : List Transaction, res.length < NUM_TX_TO_RETURN →
      (∀ t ∈ pending, ¬ (t.From = userId ∧ t.To = userId)) →
      getTxsLoop userId pending res =
        res ++ (pending.filter (fun t => t.From = userId ∨ t.To = userId)).take
          (NUM_TX_TO_RETURN - res.length) := by
  induction pending with
  | nil => intro res _ _; simp [getTxsLoop]
  | cons t pending ih =>
    intro res hlen hself
    have hrest : ∀ t ∈ pending, ¬ (t.From = userId ∧ t.To = userId) :=
      fun x hx => hself x (List.mem_cons_of_mem _ hx)
    have ht := hself t (List.mem_cons_self _ _)
    unfold NUM_TX_TO_RETURN at hlen ih ⊢
    by_cases hF : t.From = userId
    · have hT : ¬ t.To = userId := fun e => ht ⟨hF, e⟩
      simp only [getTxsLoop, NUM_TX_TO_RETURN, hF, hT, if_true, if_false, List.length_append,
        List.length_singleton, ge_iff_le, List.filter_cons, true_or, decide_True]
      split_ifs with h27
      · have e : 27 - res.length = 1 := by omega
        rw [e]; simp
      · rw [ih (res ++ [t]) (by simp; omega) hrest]
        have e : 27 - res.length = (27 - (res ++ [t]).length) + 1 := by simp; omega
        rw [e, List.take_succ_cons]
        simp
    · by_cases hT : t.To = userId
      · simp only [getTxsLoop, NUM_TX_TO_RETURN, hF, hT, if_true, if_false, List.length_append,
          List.length_singleton, ge_iff_le, List.filter_cons, or_true, decide_True]
        split_ifs with h27
        · have e : 27 - res.length = 1 := by omega
          rw [e]; simp
        · rw [ih (res ++ [t]) (by simp; omega) hrest]
          have e : 27 - res.length = (27 - (res ++ [t]).length) + 1 := by simp; omega
          rw [e, List.take_succ_cons]
          simp
      · simp only [getTxsLoop, NUM_TX_TO_RETURN, hF, hT, if_false, ge_iff_le, List.filter_cons,
          or_self, decide_False]
        rw [if_neg (by omega)]
        exact ih res hlen hrest

/-- When no logged transaction has `userId` both as sender and as receiver and
the store read succeeds, `getTxs` returns the reversed log filtered on
sender-or-receiver and cut after 27 entries. -/
theorem getTxs_of_no_self_transfer (s : Stub) (userId : String) (hget : s.faults 0 = false)
    (hself : ∀ t ∈ logOf s, ¬ (t.From = userId ∧ t.To = userId)) :
    returnedTxs (getTxs s userId) =
      ((logOf s).reverse.filter (fun t => t.From = userId ∨ t.To = userId)).take 27 := by
  have hgs : s.GetState "allTx" = (.ok (s.kv "allTx"), s.tick) := by
    simp [Stub.GetState, hget]
  simp only [getTxs, hgs, returnedTxs]
  show getTxsLoop userId (logOf s).reverse [] = _
  rw [getTxsLoop_of_no_self_transfer userId _ [] (by decide)
    (fun t ht => hself t (List.mem_reverse.1 ht))]
  rfl

/-! ## Evaluation of the two built-in contracts -/

/-- C7, amended: amounts taken as exact numbers, when the travel contract `c` is
stored under `Paris` and the store returns it, `travelContract` returns half the amount of the transaction if its
date is strictly after `c.StartDate` and strictly before `c.EndDate`, and the
amount unchanged otherwise (so also on either bound of the window). -/
theorem travelContract_spec (tx : Transaction) (s : Stub) (c : Contract)
    (hget : s.faults 0 = false) (hc : s.kv TRAVEL_CONTRACT = some (.contract c)) :
    (travelContract tx s).1 =
      if c.StartDate < tx.Date ∧ tx.Date < c.EndDate then tx.Amount / 2 else tx.Amount := by
  have hgs : s.GetState TRAVEL_CONTRACT = (.ok (some (.contract c)), s.tick) := by
    simp [Stub.GetState, hget, hc]
  simp only [travelContract, hgs, unmarshalContract, gt_iff_lt]
  split_ifs
  · ring
  · rfl

/-- Witness of C7 amended on the state written by `Init`, whose window is
[2016-05-11T12:00Z, 2060-12-31T11:59Z]: 100 dated 2016-06-01 gives 50, dated
2099-01-01 gives 100, and dated on either bound of the window gives 100. -/
theorem travelContract_spec_witness :
    (initState.faults 0 = false ∧ initState.kv TRAVEL_CONTRACT = some (.contract double)) ∧
    (travelContract { Amount := 100, Date := 63600336000 } initState).1 = 50 ∧
    (travelContract { Amount := 100, Date := 66206505600 } initState).1 = 100 ∧
    (travelContract { Amount := 100, Date := date_2016_05_11_1200 } initState).1 = 100 ∧
    (travelContract { Amount := 100, Date := date_2060_12_31_1159 } initState).1 = 100 := by
  have hf : initState.faults 0 = false := by decide
  have hc : initState.kv TRAVEL_CONTRACT = some (.contract double) := by decide
  refine ⟨⟨hf, hc⟩, ?_, ?_, ?_, ?_⟩
  · rw [travelContract_spec _ _ _ hf hc]
    norm_num [double, date_2016_05_11_1200, date_2060_12_31_1159]
  · rw [travelContract_spec _ _ _ hf hc]
    norm_num [double, date_2016_05_11_1200, date_2060_12_31_1159]
  · rw [travelContract_spec _ _ _ hf hc]
    norm_num [double, date_2016_05_11_1200, date_2060_12_31_1159]
  · rw [travelContract_spec _ _ _ hf hc]
    norm_num [double, date_2016_05_11_1200, date_2060_12_31_1159]

/-- C8, amended: amounts taken as exact numbers, when the feedback contract `c`
is stored under `Feedback` and the store returns it, then for a transaction with activity count `n ≥ 0`, `feedbackContract`
returns `1000 + 100 * n` if the date of the transaction is strictly inside the
window of `c`, and `0` otherwise, whatever the amount of the transaction. -/
theorem feedbackContract_spec (tx : Transaction) (s : Stub) (c : Contract)
    (hget : s.faults 0 = false) (hc : s.kv FEEDBACK_CONTRACT = some (.contract c))
    (hn : 0 ≤ tx.Activities) :
    (feedbackContract tx s).1 =
      if c.StartDate < tx.Date ∧ tx.Date < c.EndDate then 1000 + 100 * (tx.Activities : ℚ)
      else 0 := by
  have hgs : s.GetState FEEDBACK_CONTRACT = (.ok (some (.contract c)), s.tick) := by
    simp [Stub.GetState, hget, hc]
  simp only [feedbackContract, hgs, unmarshalContract, gt_iff_lt]
  split_ifs with h1 h2
  · ring
  · have h0 : tx.Activities = 0 := by omega
    simp [h0]
  · rfl

/-- Witness of C8 amended on the state written by `Init`: inside the window 3 activities
give 1300 and 0 activities give 1000; dated 2099-01-01, 3 activities give 0. -/
theorem feedbackContract_spec_witness :
    (initState.faults 0 = false ∧ initState.kv FEEDBACK_CONTRACT = some (.contract feedback)
      ∧ (0 : Int) ≤ 3) ∧
    (feedbackContract { Amount := 7, Activities := 3, Date := 63600336000 } initState).1 = 1300 ∧
    (feedbackContract { Amount := 7, Activities := 0, Date := 63600336000 } initState).1 = 1000 ∧
    (feedbackContract { Amount := 7, Activities := 3, Date := 66206505600 } initState).1 = 0 := by
  have hf : initState.faults 0 = false := by decide
  have hc : initState.kv FEEDBACK_CONTRACT = some (.contract feedback) := by decide
  refine ⟨⟨hf, hc, by decide⟩, ?_, ?_, ?_⟩
  · rw [feedbackContract_spec _ _ _ hf hc (by decide)]
    norm_num [feedback, date_2016_05_24_1200, date_2060_12_31_1159]
  · rw [feedbackContract_spec _ _ _ hf hc (by decide)]
    norm_num [feedback, date_2016_05_24_1200, date_2060_12_31_1159]
  · rw [feedbackContract_spec _ _ _ hf hc (by decide)]
    norm_num [feedback, date_2016_05_24_1200, date_2060_12_31_1159]

/-! ## transferPoints on a store that never errors -/

theorem discountLoop_stub {s : Stub} (h : s.NoFaults) (cid : String) (ids : List String) (amt : ℚ) :
    (discountLoop cid ids s amt).2 = s := by
  induction ids generalizing amt with
  | nil => rfl
  | cons id ids ih =>
    simp only [discountLoop, Stub.GetState_of_noFaults h]
    exact ih _

theorem travelContract_stub {s : Stub} (h : s.NoFaults) (tx : Transaction) :
    (travelContract tx s).2 = s := by
  simp [travelContract, Stub.GetState_of_noFaults h]

theorem feedbackContract_stub {s : Stub} (h : s.NoFaults) (tx : Transaction) :
    (feedbackContract tx s).2 = s := by
  simp [feedbackContract, Stub.GetState_of_noFaults h]

theorem contractAmount_stub {s : Stub} (h : s.NoFaults) (tx : Transaction) :
    (contractAmount tx s).2 = s := by
  unfold contractAmount
  split_ifs
  · exact travelContract_stub h tx
  · exact feedbackContract_stub h tx
  · simp only [Stub.GetState_of_noFaults h]
    exact discountLoop_stub h _ _ _

theorem draftTx_To (P : Strconv) (clock : Clock) (a0 a1 a2 a3 a4 a5 a6 a7 : String) :
    (draftTx P clock a0 a1 a2 a3 a4 a5 a6 a7).2.To = a0 := by
  unfold draftTx; cases P.ParseFloat a6 <;> cases P.ParseFloat a7 <;> rfl

theorem draftTx_From (P : Strconv) (clock : Clock) (a0 a1 a2 a3 a4 a5 a6 a7 : String) :
    (draftTx P clock a0 a1 a2 a3 a4 a5 a6 a7).2.From = a1 := by
  unfold draftTx; cases P.ParseFloat a6 <;> cases P.ParseFloat a7 <;> rfl

theorem draftTx_ContractId (P : Strconv) (clock : Clock) (a0 a1 a2 a3 a4 a5 a6 a7 : String) :
    (draftTx P clock a0 a1 a2 a3 a4 a5 a6 a7).2.ContractId = a4 := by
  unfold draftTx; cases P.ParseFloat a6 <;> cases P.ParseFloat a7 <;> rfl

theorem draftTx_Date (P : Strconv) (clock : Clock) (a0 a1 a2 a3 a4 a5 a6 a7 : String) :
    (draftTx P clock a0 a1 a2 a3 a4 a5 a6 a7).2.Date = clock.startDate := by
  unfold draftTx; cases P.ParseFloat a6 <;> cases P.ParseFloat a7 <;> rfl

theorem draftTx_Activities (P : Strconv) (clock : Clock) (a0 a1 a2 a3 a4 a5 a6 a7 : String) :
    (draftTx P clock a0 a1 a2 a3 a4 a5 a6 a7).2.Activities = P.Atoi a5 := by
  unfold draftTx; cases P.ParseFloat a6 <;> cases P.ParseFloat a7 <;> rfl

theorem draftTx_Amount_of_some (P : Strconv) (clock : Clock) (a0 a1 a2 a3 a4 a5 a6 a7 : String)
    {a : ℚ} (ha : P.ParseFloat a6 = some a) :
    (draftTx P clock a0 a1 a2 a3 a4 a5 a6 a7).2.Amount = a := by
  unfold draftTx; rw [ha]; cases P.ParseFloat a7 <;> rfl

theorem draftTx_of_none (P : Strconv) (clock : Clock) (a0 a1 a2 a3 a4 a5 a6 a7 : String)
    (ha : P.ParseFloat a6 = none) :
    (draftTx P clock a0 a1 a2 a3 a4 a5 a6 a7).2.Amount = 0 ∧
    (draftTx P clock a0 a1 a2 a3 a4 a5 a6 a7).2.StatusCode = 0 ∧
    (draftTx P clock a0 a1 a2 a3 a4 a5 a6 a7).2.StatusMsg = "Invalid Amount" := by
  unfold draftTx; rw [ha]; cases P.ParseFloat a7 <;> exact ⟨rfl, rfl, rfl⟩

/-- The run of `transferPoints` on a store that never errors. -/
theorem transferPoints_of_noFaults (P : Strconv) (clock : Clock) {s : Stub} (h : s.NoFaults)
    (a0 a1 a2 a3 a4 a5 a6 a7 : String) (rest : List String) :
    ∃ s1 s2 s3 : Stub, ∃ tx0 tx : Transaction, ∃ amt : ℚ,
      s1 = s.set "refNumber" (.int (wrapInt (counterOf s + 1))) ∧
      tx0 = { (draftTx P clock a0 a1 a2 a3 a4 a5 a6 a7).2 with RefNumber := Itoa (counterOf s) } ∧
      amt = (contractAmount tx0 s1).1 ∧
      s2 = s1.set a0 (.user { accountOf s1 a0 with
              Balance := (accountOf s1 a0).Balance + amt, Modified := clock.currentDateStr,
              NumTxs := wrapInt ((accountOf s1 a0).NumTxs + 1) }) ∧
      s3 = s2.set a1 (.user { accountOf s2 a1 with
              Balance := (accountOf s2 a1).Balance - amt, Modified := clock.currentDateStr,
              NumTxs := wrapInt ((accountOf s2 a1).NumTxs + 1) }) ∧
      tx = { tx0 with Amount := amt, ToName := (accountOf s1 a0).Name,
                      FromName := (accountOf s2 a1).Name } ∧
      transferPoints P clock s (a0 :: a1 :: a2 :: a3 :: a4 :: a5 :: a6 :: a7 :: rest) =
        (.ok (.bytes none), s3.set "allTx" (.allTx { Transactions := logOf s3 ++ [tx] })) := by
  refine ⟨_, _, _, _, _, _, rfl, rfl, rfl, rfl, rfl, rfl, ?_⟩
  simp only [transferPoints, Stub.GetState_of_noFaults h, Stub.PutState_of_noFaults h]
  have h1 := Stub.noFaults_set h "refNumber" (.int (wrapInt (counterOf s + 1)))
  simp only [counterOf, accountOf, logOf] at h1 ⊢
  simp only [contractAmount_stub h1, Stub.GetState_of_noFaults h1, Stub.PutState_of_noFaults h1,
    draftTx_To, draftTx_From]
  rw [Stub.GetState_of_noFaults (Stub.noFaults_set h1 _ _)]
  simp only []
  rw [Stub.PutState_of_noFaults (Stub.noFaults_set h1 _ _)]
  simp only []
  rw [Stub.GetState_of_noFaults (Stub.noFaults_set (Stub.noFaults_set h1 _ _) _ _)]
  simp only []
  rw [Stub.PutState_of_noFaults (Stub.noFaults_set (Stub.noFaults_set h1 _ _) _ _)]

theorem logOf_set_allTx (s : Stub) (txs : AllTransactions) :
    logOf (s.set "allTx" (.allTx txs)) = txs.Transactions := by
  simp [logOf, Stub.set, unmarshalAllTransactions]

/-- C1, amended: when sender and receiver are two different existing accounts,
neither stored under the key `refNumber` or `allTx`, and the store never errors,
`transferPoints` succeeds, and the balance gained by the receiver and the balance
lost by the sender both equal the amount of the transaction the call appends to
the log. -/
theorem transferPoints_moves_effective_amount (P : Strconv) (clock : Clock) (s : Stub)
    (a0 a1 a2 a3 a4 a5 a6 a7 : String) (rest : List String) (receiver sender : User)
    (h : s.NoFaults) (hne : a0 ≠ a1)
    (hr : s.kv a0 = some (.user receiver)) (hs : s.kv a1 = some (.user sender))
    (hr1 : a0 ≠ "refNumber") (hr2 : a0 ≠ "allTx")
    (hs1 : a1 ≠ "refNumber") (hs2 : a1 ≠ "allTx") :
    ∃ (receiver' sender' : User) (tx : Transaction) (log : List Transaction),
      (transferPoints P clock s (a0 :: a1 :: a2 :: a3 :: a4 :: a5 :: a6 :: a7 :: rest)).1
        = .ok (.bytes none) ∧
      (transferPoints P clock s (a0 :: a1 :: a2 :: a3 :: a4 :: a5 :: a6 :: a7 :: rest)).2.kv a0
        = some (.user receiver') ∧
      (transferPoints P clock s (a0 :: a1 :: a2 :: a3 :: a4 :: a5 :: a6 :: a7 :: rest)).2.kv a1
        = some (.user sender') ∧
      logOf (transferPoints P clock s (a0 :: a1 :: a2 :: a3 :: a4 :: a5 :: a6 :: a7 :: rest)).2
        = log ++ [tx] ∧
      receiver'.Balance - receiver.Balance = tx.Amount ∧
      sender.Balance - sender'.Balance = tx.Amount := by
  obtain ⟨s1, s2, s3, tx0, tx, amt, e1, e0, ea, e2, e3, etx, hrun⟩ :=
    transferPoints_of_noFaults P clock h a0 a1 a2 a3 a4 a5 a6 a7 rest
  have k1 : s1.kv a0 = some (.user receiver) := by
    rw [e1, Stub.set_kv_of_ne _ _ hr1, hr]
  have k2 : s2.kv a1 = some (.user sender) := by
    rw [e2, Stub.set_kv_of_ne _ _ (Ne.symm hne), e1, Stub.set_kv_of_ne _ _ hs1, hs]
  have u1 : accountOf s1 a0 = receiver := by simp [accountOf, k1, unmarshalUser]
  have u2 : accountOf s2 a1 = sender := by simp [accountOf, k2, unmarshalUser]
  rw [u1] at e2
  rw [u2] at e3
  refine ⟨{ receiver with
              Balance := receiver.Balance + amt, Modified := clock.currentDateStr,
              NumTxs := wrapInt (receiver.NumTxs + 1) },
    { sender with
              Balance := sender.Balance - amt, Modified := clock.currentDateStr,
              NumTxs := wrapInt (sender.NumTxs + 1) }, tx, logOf s3, ?_, ?_, ?_, ?_, ?_, ?_⟩
  · rw [hrun]
  · rw [hrun]
    show (s3.set _ _).kv a0 = _
    rw [Stub.set_kv_of_ne _ _ hr2, e3, Stub.set_kv_of_ne _ _ hne, e2, Stub.set_kv_self]
  · rw [hrun]
    show (s3.set _ _).kv a1 = _
    rw [Stub.set_kv_of_ne _ _ hs2, e3, Stub.set_kv_self]
  · rw [hrun]; exact logOf_set_allTx _ _
  · rw [etx]; simp
  · rw [etx]; simp

/-! ## The contract index -/

theorem contractIdFound_aux (id : String) (ids : List String) (b : Bool) :
    ids.foldl (fun found x => if x = id then true else found) b = (b || decide (id ∈ ids)) := by
  induction ids generalizing b with
  | nil => simp
  | cons x xs ih =>
    simp only [List.foldl_cons, ih, List.mem_cons]
    by_cases hx : x = id
    · subst hx; simp
    · have hx2 : ¬ id = x := fun e => hx e.symm
      simp [hx, hx2]

theorem contractIdFound_iff (id : String) (ids : List String) :
    contractIdFound id ids = true ↔ id ∈ ids := by
  unfold contractIdFound
  rw [contractIdFound_aux]
  simp

theorem nodup_register {id : String} {ids : List String} (h : ids.Nodup) :
    (if contractIdFound id ids then ids else ids ++ [id]).Nodup := by
  by_cases hm : id ∈ ids
  · rw [if_pos ((contractIdFound_iff id ids).2 hm)]; exact h
  · have : ¬ contractIdFound id ids = true := fun e => hm ((contractIdFound_iff id ids).1 e)
    rw [if_neg this]
    exact List.Nodup.append h (List.nodup_singleton id) (by simpa using hm)

theorem Stub.PutState_cases (s : Stub) (k : String) (v : Value) :
    s.PutState k v = (some .store, s.tick) ∨ s.PutState k v = (none, s.tick.set k v) := by
  unfold Stub.PutState
  cases s.faults 0 <;> simp

theorem Stub.GetState_snd (s : Stub) (k : String) : (s.GetState k).2 = s.tick := rfl

theorem Stub.GetState_bytes (s : Stub) (k : String) :
    bytesOf (s.GetState k).1 = none ∨ bytesOf (s.GetState k).1 = s.kv k := by
  unfold Stub.GetState
  cases s.faults 0 <;> simp [bytesOf]

theorem newSmartContract_Id (P : Strconv) (a0 a1 a2 a3 a4 : String) :
    (newSmartContract P a0 a1 a2 a3 a4).Id = a0 := rfl

theorem indexOf_tick (s : Stub) : indexOf s.tick = indexOf s := rfl

theorem indexOf_set_strings (s : Stub) (l : List String) :
    indexOf (s.set "contractIds" (.strings l)) = l := by
  simp [indexOf, Stub.set, unmarshalStrings]

theorem indexOf_set_contract (s : Stub) (k : String) (c : Contract) :
    indexOf (s.set k (.contract c)) = indexOf s ∨ indexOf (s.set k (.contract c)) = [] := by
  by_cases hk : "contractIds" = k
  · right; subst hk; simp [indexOf, Stub.set, unmarshalStrings]
  · left; simp [indexOf, Stub.set, hk]

theorem nodup_indexOf_set_contract {s : Stub} (h : (indexOf s).Nodup) (k : String) (c : Contract) :
    (indexOf (s.set k (.contract c))).Nodup := by
  rcases indexOf_set_contract s k c with e | e <;> rw [e]
  · exact h
  · exact List.nodup_nil

/-- `addSmartContract` keeps the contract index free of repetitions, whatever
its arguments and whichever store calls fail. -/
theorem addSmartContract_index_nodup (P : Strconv) (s : Stub) (args : List String)
    (h : (indexOf s).Nodup) : (indexOf (addSmartContract P s args).2).Nodup := by
  unfold addSmartContract
  split
  · rename_i a0 a1 a2 a3 a4 rest
    simp only [newSmartContract_Id]
    rcases Stub.PutState_cases s a0 (.contract (newSmartContract P a0 a1 a2 a3 a4)) with hp | hp
    · rw [hp]; exact h
    · rw [hp]
      simp only [Stub.GetState_snd]
      have h1 : (indexOf (s.tick.set a0 (.contract (newSmartContract P a0 a1 a2 a3 a4)))).Nodup :=
        nodup_indexOf_set_contract (s := s.tick) h _ _
      generalize s.tick.set a0 (.contract (newSmartContract P a0 a1 a2 a3 a4)) = s1 at h1 ⊢
      have hids : (unmarshalStrings (bytesOf (s1.GetState "contractIds").1)).Nodup := by
        rcases Stub.GetState_bytes s1 "contractIds" with e | e <;> rw [e]
        · exact List.nodup_nil
        · exact h1
      generalize unmarshalStrings (bytesOf (s1.GetState "contractIds").1) = ids at hids ⊢
      rcases Stub.PutState_cases s1.tick "contractIds"
        (.strings (if contractIdFound a0 ids then ids else ids ++ [a0])) with hq | hq
      · rw [hq]; exact h1
      · rw [hq]
        show (indexOf (Stub.set _ _ _)).Nodup
        rw [indexOf_set_strings]
        exact nodup_register hids
  · exact h

theorem Stub.PutState_eq_none {s s1 : Stub} {k : String} {v : Value}
    (h : s.PutState k v = (none, s1)) : s1 = s.tick.set k v := by
  rcases Stub.PutState_cases s k v with hp | hp
  · rw [hp] at h; simp at h
  · rw [hp] at h; simp at h; exact h.symm

theorem Init_ok_kv (s : Stub) (function : String) (args : List String)
    (h : (Init s function args).1 = .ok (.bytes none)) :
    (Init s function args).2.kv = (initWrites s).kv := by
  generalize hR : Init s function args = R at h ⊢
  unfold Init at hR
  by_cases hlen : args.length ≠ 1
  · rw [if_pos hlen] at hR; subst hR; simp at h
  · rw [if_neg hlen] at hR
    split at hR
    · subst hR; simp at h
    rename_i st heq
    have hst := Stub.PutState_eq_none heq
    subst hst
    clear heq
    split at hR
    · subst hR; simp at h
    rename_i st heq
    have hst := Stub.PutState_eq_none heq
    subst hst
    clear heq
    split at hR
    · subst hR; simp at h
    rename_i st heq
    have hst := Stub.PutState_eq_none heq
    subst hst
    clear heq
    split at hR
    · subst hR; simp at h
    rename_i st heq
    have hst := Stub.PutState_eq_none heq
    subst hst
    clear heq
    split at hR
    · subst hR; simp at h
    rename_i st heq
    have hst := Stub.PutState_eq_none heq
    subst hst
    clear heq
    split at hR
    · subst hR; simp at h
    rename_i st heq
    have hst := Stub.PutState_eq_none heq
    subst hst
    clear heq
    split at hR
    · subst hR; simp at h
    rename_i st heq
    have hst := Stub.PutState_eq_none heq
    subst hst
    clear heq
    split at hR
    · subst hR; simp at h
    rename_i st heq
    have hst := Stub.PutState_eq_none heq
    subst hst
    clear heq
    simp only [] at hR
    split at hR
    · subst hR; simp at h
    rename_i st heq
    have hst := Stub.PutState_eq_none heq
    subst hst
    clear heq
    subst hR
    rfl

theorem Init_ok_index (s : Stub) (function : String) (args : List String)
    (h : (Init s function args).1 = .ok (.bytes none)) :
    indexOf (Init s function args).2 = ["Paris", "Feedback"] := by
  unfold indexOf
  rw [Init_ok_kv s function args h]
  rfl

/-- C3, amended: starting from the state written by a successful `Init`, after
any sequence of `addSmartContract` calls whose identifiers are texts (valid
UTF-8), with arbitrary arguments otherwise and whichever store calls failing, the
contract index holds no identifier twice. -/
theorem contract_index_nodup (P : Strconv) (s : Stub) (function : String) (args : List String)
    (calls : List (List String)) (h : (Init s function args).1 = .ok (.bytes none)) :
    (indexOf (runAddSmartContracts P (Init s function args).2 calls)).Nodup := by
  have h0 : (indexOf (Init s function args).2).Nodup := by
    rw [Init_ok_index s function args h]; decide
  generalize (Init s function args).2 = s0 at h0
  induction calls generalizing s0 with
  | nil => exact h0
  | cons c cs ih => exact ih _ (addSmartContract_index_nodup P s0 c h0)

/-- Witness of C3 amended: `Rome` registered twice, `Paris` registered again, and a call
with too few arguments. -/
theorem contract_index_nodup_witness :
    (Init emptyStub "init" ["reset"]).1 = .ok (.bytes none) ∧
    (indexOf (runAddSmartContracts decimal (Init emptyStub "init" ["reset"]).2
      [["Rome", "Rome for Less", "a", "b", "0.5"], ["Rome", "Rome again", "a", "b", "0.25"],
       ["Paris", "Paris again", "a", "b", "x"], ["Rome"]])).Nodup ∧
    indexOf (runAddSmartContracts decimal (Init emptyStub "init" ["reset"]).2
      [["Rome", "Rome for Less", "a", "b", "0.5"], ["Rome", "Rome again", "a", "b", "0.25"],
       ["Paris", "Paris again", "a", "b", "x"], ["Rome"]]) = ["Paris", "Feedback", "Rome"] :=
  ⟨rfl, contract_index_nodup decimal emptyStub "init" ["reset"] _ rfl, by decide⟩

/-! ## The reference counter -/

theorem Stub.noFaults_set_iff (s : Stub) (k : String) (v : Value) :
    (s.set k v).NoFaults ↔ s.NoFaults := Iff.rfl

theorem Init_of_noFaults {s : Stub} (h : s.NoFaults) (function a : String) :
    Init s function [a] = (.ok (.bytes none), initWrites s) := by
  simp [Init, Stub.PutState_of_noFaults, Stub.noFaults_set_iff, h, initWrites]

theorem initWrites_noFaults {s : Stub} (h : s.NoFaults) : (initWrites s).NoFaults := fun i => h i

theorem counterOf_initWrites (s : Stub) : counterOf (initWrites s) = refNumberSeed := by
  simp [counterOf, initWrites, Stub.set, unmarshalInt, TRAVEL_CONTRACT, FEEDBACK_CONTRACT]

theorem wrapInt_of_range {n : Int} (h0 : -2 ^ 63 ≤ n) (h1 : n < 2 ^ 63) : wrapInt n = n := by
  unfold wrapInt
  norm_num at h0 h1 ⊢
  omega

theorem transferPoints_short (P : Strconv) (clock : Clock) (s : Stub) (args : List String)
    (h : args.length < 8) : transferPoints P clock s args = (.error .indexOutOfRange, s) := by
  unfold transferPoints
  split
  · simp at h; omega
  · rfl

theorem transferPoints_noFaults (P : Strconv) (clock : Clock) {s : Stub} (h : s.NoFaults)
    (args : List String) : (transferPoints P clock s args).2.NoFaults := by
  by_cases hl : args.length < 8
  · rw [transferPoints_short P clock s args hl]; exact h
  · obtain ⟨a0, a1, a2, a3, a4, a5, a6, a7, rest, rfl⟩ :
        ∃ a0 a1 a2 a3 a4 a5 a6 a7 rest, args = a0 :: a1 :: a2 :: a3 :: a4 :: a5 :: a6 :: a7 :: rest := by
      rcases args with _ | ⟨a0, _ | ⟨a1, _ | ⟨a2, _ | ⟨a3, _ | ⟨a4, _ | ⟨a5, _ | ⟨a6, _ | ⟨a7, rest⟩⟩⟩⟩⟩⟩⟩⟩ <;>
        first
        | (exfalso; apply hl; simp; done)
        | exact ⟨_, _, _, _, _, _, _, _, _, rfl⟩
    obtain ⟨s1, s2, s3, tx0, tx, amt, e1, e0, ea, e2, e3, etx, hrun⟩ :=
      transferPoints_of_noFaults P clock h a0 a1 a2 a3 a4 a5 a6 a7 rest
    rw [hrun]
    intro i
    subst e3 e2 e1
    exact h i

theorem transferPoints_counter (P : Strconv) (clock : Clock) {s : Stub} (h : s.NoFaults)
    {args : List String} (hargs : TransferAvoidsCounter args) :
    counterOf (transferPoints P clock s args).2 = wrapInt (counterOf s + 1) ∧
    ∃ log tx, logOf (transferPoints P clock s args).2 = log ++ [tx] ∧
      tx.RefNumber = Itoa (counterOf s) := by
  obtain ⟨hlen, hto, hfrom⟩ := hargs
  obtain ⟨a0, a1, a2, a3, a4, a5, a6, a7, rest, rfl⟩ :
      ∃ a0 a1 a2 a3 a4 a5 a6 a7 rest, args = a0 :: a1 :: a2 :: a3 :: a4 :: a5 :: a6 :: a7 :: rest := by
    rcases args with _ | ⟨a0, _ | ⟨a1, _ | ⟨a2, _ | ⟨a3, _ | ⟨a4, _ | ⟨a5, _ | ⟨a6, _ | ⟨a7, rest⟩⟩⟩⟩⟩⟩⟩⟩ <;>
      first
      | (exfalso; simp at hlen; done)
      | exact ⟨_, _, _, _, _, _, _, _, _, rfl⟩
  have hto2 : "refNumber" ≠ a0 := by
    intro e; apply hto; simp [e]
  have hfrom2 : "refNumber" ≠ a1 := by
    intro e; apply hfrom; simp [e]
  obtain ⟨s1, s2, s3, tx0, tx, amt, e1, e0, ea, e2, e3, etx, hrun⟩ :=
    transferPoints_of_noFaults P clock h a0 a1 a2 a3 a4 a5 a6 a7 rest
  rw [hrun]
  refine ⟨?_, logOf s3, tx, logOf_set_allTx _ _, ?_⟩
  · unfold counterOf
    rw [Stub.set_kv_of_ne _ _ (by decide), e3, Stub.set_kv_of_ne _ _ hfrom2, e2,
      Stub.set_kv_of_ne _ _ hto2, e1, Stub.set_kv_self]
    rfl
  · rw [etx, e0]

theorem runTransfers_counter (P : Strconv) (calls : List (Clock × List String)) :
    ∀ (s : Stub) (n : Int), s.NoFaults → counterOf s = n → 0 ≤ n →
      n + calls.length < 2 ^ 63 → (∀ c ∈ calls, TransferAvoidsCounter c.2) →
      counterOf (runTransfers P s calls) = n + calls.length ∧
      ∀ k, k < calls.length → ∃ log tx,
        logOf (runTransfers P s (calls.take (k + 1))) = log ++ [tx] ∧
        tx.RefNumber = Itoa (n + k) := by
  induction calls with
  | nil =>
    intro s n _ hc _ _ _
    exact ⟨by simpa [runTransfers] using hc, fun k hk => absurd hk (by simp)⟩
  | cons c cs ih =>
    intro s n h hc h0 hN hargs
    have hstep := transferPoints_counter P c.1 h (hargs c (List.mem_cons_self _ _))
    have hnf := transferPoints_noFaults P c.1 h c.2
    have hlen : ((c :: cs).length : Int) = cs.length + 1 := by simp
    have hw : wrapInt (counterOf s + 1) = n + 1 := by
      rw [hc]; apply wrapInt_of_range <;> omega
    obtain ⟨hcnt, log, tx, hlog, href⟩ := hstep
    rw [hw] at hcnt
    have ih2 := ih _ (n + 1) hnf hcnt (by omega) (by omega)
      (fun d hd => hargs d (List.mem_cons_of_mem _ hd))
    refine ⟨?_, ?_⟩
    · simp only [runTransfers]
      rw [ih2.1]; omega
    · intro k hk
      cases k with
      | zero =>
        refine ⟨log, tx, ?_, ?_⟩
        · simpa [runTransfers] using hlog
        · rw [href, hc]; simp
      | succ k =>
        obtain ⟨log2, tx2, hl2, hr2⟩ := ih2.2 k (by simpa using hk)
        refine ⟨log2, tx2, ?_, ?_⟩
        · simpa [runTransfers] using hl2
        · rw [hr2]; congr 1; push_cast; ring

/-- C2, amended: starting from the state written by `Init`, for every sequence
of `N` calls of `transferPoints` with a store that never errors, amounts taken
as exact numbers, in which no receiver or sender is the key `refNumber` and with
`2985674978 + N < 2^63`, the stored counter afterwards is `2985674978 + N`, and
for every `k < N` the transaction appended by the `k`-th call carries the decimal
text of `2985674978 + k` as `RefNumber`. -/
theorem refNumbers_step_one (P : Strconv) (s : Stub) (function a : String)
    (calls : List (Clock × List String)) (h : s.NoFaults)
    (hargs : ∀ c ∈ calls, TransferAvoidsCounter c.2)
    (hN : refNumberSeed + calls.length < 2 ^ 63) :
    counterOf (runTransfers P (Init s function [a]).2 calls) = refNumberSeed + calls.length ∧
    ∀ k, k < calls.length → ∃ log tx,
      logOf (runTransfers P (Init s function [a]).2 (calls.take (k + 1))) = log ++ [tx] ∧
      tx.RefNumber = Itoa (refNumberSeed + k) := by
  rw [Init_of_noFaults h]
  exact runTransfers_counter P calls _ _ (initWrites_noFaults h) (counterOf_initWrites s)
    (by decide) hN hargs

/-! ## Transfers: balances, reference numbers and malformed amounts -/

theorem initState_noFaults : initState.NoFaults := fun _ => rfl

theorem afterCounterKeyTransfer_noFaults : afterCounterKeyTransfer.NoFaults :=
  transferPoints_noFaults decimal june2016 initState_noFaults _

set_option maxRecDepth 10000 in
/-- Counterexample to C1 as stated: after a first transfer to the key `refNumber`
an account is stored there; in a second transfer from Natalie to that account the
store never errors and the call succeeds, the sender loses 5, the logged amount is
5, and the balance stored for the receiver is the same before and after. -/
theorem transferPoints_counter_key_account :
    afterCounterKeyTransfer.NoFaults ∧
    "refNumber" ≠ "U2974034" ∧
    afterCounterKeyTransfer.kv "refNumber" =
      some (.user (accountOf afterCounterKeyTransfer "refNumber")) ∧
    afterCounterKeyTransfer.kv "U2974034" =
      some (.user (accountOf afterCounterKeyTransfer "U2974034")) ∧
    (transferPoints decimal june2016 afterCounterKeyTransfer counterKeyTransferArgs).1
      = .ok (.bytes none) ∧
    (accountOf (transferPoints decimal june2016 afterCounterKeyTransfer
        counterKeyTransferArgs).2 "refNumber").Balance
      - (accountOf afterCounterKeyTransfer "refNumber").Balance = 0 ∧
    (accountOf afterCounterKeyTransfer "U2974034").Balance
      - (accountOf (transferPoints decimal june2016 afterCounterKeyTransfer
          counterKeyTransferArgs).2 "U2974034").Balance = 5 ∧
    (logOf (transferPoints decimal june2016 afterCounterKeyTransfer
        counterKeyTransferArgs).2).map (fun tx => tx.Amount) = [5, 5] := by
  refine ⟨afterCounterKeyTransfer_noFaults, by decide, ?_, ?_, rfl, ?_, ?_, ?_⟩
  · with_unfolding_all decide
  · with_unfolding_all decide
  · with_unfolding_all decide
  · with_unfolding_all decide
  · with_unfolding_all decide

theorem discountLoop_zero (cid : String) (ids : List String) (s : Stub) :
    (discountLoop cid ids s 0).1 = 0 := by
  induction ids generalizing s with
  | nil => rfl
  | cons id ids ih =>
    simp only [discountLoop, mul_zero, zero_mul, sub_zero, ite_self]
    exact ih _

theorem travelContract_zero {s : Stub} (h : s.NoFaults) (tx : Transaction) (h0 : tx.Amount = 0) :
    (travelContract tx s).1 = 0 := by
  simp [travelContract, Stub.GetState_of_noFaults h, h0]

theorem feedbackContract_congr (tx tx2 : Transaction) (s s2 : Stub)
    (hd : tx.Date = tx2.Date) (ha : tx.Activities = tx2.Activities)
    (hk : s.kv FEEDBACK_CONTRACT = s2.kv FEEDBACK_CONTRACT) (hf : s.faults 0 = s2.faults 0) :
    (feedbackContract tx s).1 = (feedbackContract tx2 s2).1 := by
  unfold feedbackContract Stub.GetState
  rw [hd, ha, hk, hf]
  cases s2.faults 0 <;> rfl

/-- C6, amended: when the amount text does not parse and the store never
errors, amounts taken as exact numbers (the money text denotes a finite number
or does not parse), `transferPoints` succeeds and the transaction it appends to
the log has
StatusMsg `Invalid Amount` and StatusCode 0; its Amount is 0 for every contract
identifier other than `Feedback`, and under `Feedback` it is what
`feedbackContract` returns for the date and activity count of the call. -/
theorem transferPoints_invalid_amount (P : Strconv) (clock : Clock) (s : Stub)
    (a0 a1 a2 a3 a4 a5 a6 a7 : String) (rest : List String)
    (h : s.NoFaults) (hbad : P.ParseFloat a6 = none) :
    ∃ (log : List Transaction) (tx : Transaction),
      (transferPoints P clock s (a0 :: a1 :: a2 :: a3 :: a4 :: a5 :: a6 :: a7 :: rest)).1
        = .ok (.bytes none) ∧
      logOf (transferPoints P clock s (a0 :: a1 :: a2 :: a3 :: a4 :: a5 :: a6 :: a7 :: rest)).2
        = log ++ [tx] ∧
      tx.StatusMsg = "Invalid Amount" ∧ tx.StatusCode = 0 ∧
      tx.Amount =
        if a4 = FEEDBACK_CONTRACT then
          (feedbackContract { Date := clock.startDate, Activities := P.Atoi a5 } s).1
        else 0 := by
  obtain ⟨s1, s2, s3, tx0, tx, amt, e1, e0, ea, e2, e3, etx, hrun⟩ :=
    transferPoints_of_noFaults P clock h a0 a1 a2 a3 a4 a5 a6 a7 rest
  obtain ⟨hz, hcode, hmsg⟩ := draftTx_of_none P clock a0 a1 a2 a3 a4 a5 a6 a7 hbad
  have h1 : s1.NoFaults := by rw [e1]; exact Stub.noFaults_set h _ _
  have hcid : tx0.ContractId = a4 := by rw [e0]; exact draftTx_ContractId ..
  have hamt0 : tx0.Amount = 0 := by rw [e0]; exact hz
  refine ⟨logOf s3, tx, by rw [hrun], by rw [hrun]; exact logOf_set_allTx _ _, ?_, ?_, ?_⟩
  · rw [etx, e0]; exact hmsg
  · rw [etx, e0]; exact hcode
  · have : tx.Amount = amt := by rw [etx]
    rw [this, ea]
    unfold contractAmount
    rw [hcid]
    by_cases hT : a4 = TRAVEL_CONTRACT
    · have hne : ¬ a4 = FEEDBACK_CONTRACT := by rw [hT]; decide
      rw [if_pos hT, if_neg hne]
      exact travelContract_zero h1 tx0 hamt0
    · rw [if_neg hT]
      by_cases hF : a4 = FEEDBACK_CONTRACT
      · rw [if_pos hF, if_pos hF]
        apply feedbackContract_congr
        · rw [e0]; exact draftTx_Date ..
        · rw [e0]; exact draftTx_Activities ..
        · rw [e1]; exact Stub.set_kv_of_ne _ _ (by decide)
        · rw [e1]; rfl
      · rw [if_neg hF, if_neg hF]
        simp only [hamt0]
        exact discountLoop_zero _ _ _

set_option maxRecDepth 10000 in
/-- Counterexample to C6 as stated: under the contract `Feedback`, inside its
window and with 3 activities, the amount text `abc` is logged with StatusMsg
`Invalid Amount`, StatusCode 0 and Amount 1300. -/
theorem transferPoints_invalid_amount_feedback :
    initState.NoFaults ∧ decimal.ParseFloat "abc" = none ∧
    (transferPoints decimal june2016 initState malformedFeedbackArgs).1 = .ok (.bytes none) ∧
    (logOf (transferPoints decimal june2016 initState malformedFeedbackArgs).2).map
      (fun tx => (tx.StatusMsg, tx.StatusCode, tx.Amount)) = [("Invalid Amount", 0, 1300)] := by
  refine ⟨initState_noFaults, by decide, rfl, ?_⟩
  with_unfolding_all decide

/-- Witness of C6 amended: amount text `abc` and contract identifier `none` on
the state written by `Init`. -/
theorem transferPoints_invalid_amount_witness :
    (initState.NoFaults ∧ decimal.ParseFloat "abc" = none) ∧
    ∃ (log : List Transaction) (tx : Transaction),
      (transferPoints decimal june2016 initState malformedPlainArgs).1 = .ok (.bytes none) ∧
      logOf (transferPoints decimal june2016 initState malformedPlainArgs).2 = log ++ [tx] ∧
      tx.StatusMsg = "Invalid Amount" ∧ tx.StatusCode = 0 ∧
      tx.Amount =
        if "none" = FEEDBACK_CONTRACT then
          (feedbackContract { Date := june2016.startDate, Activities := decimal.Atoi "3" }
            initState).1
        else 0 :=
  ⟨⟨initState_noFaults, by decide⟩,
    transferPoints_invalid_amount decimal june2016 initState "U3151672" "U2974034" "gift"
      "to Anthony" "none" "3" "abc" "0" [] initState_noFaults (by decide)⟩

/-- Witness of C1 amended: a transfer from Natalie to Anthony on the state
written by `Init`. -/
theorem transferPoints_moves_effective_amount_witness :
    (initState.NoFaults ∧ "U3151672" ≠ "U2974034" ∧
      initState.kv "U3151672" = some (.user anthony) ∧
      initState.kv "U2974034" = some (.user natalie) ∧
      "U3151672" ≠ "refNumber" ∧ "U3151672" ≠ "allTx" ∧
      "U2974034" ≠ "refNumber" ∧ "U2974034" ≠ "allTx") ∧
    ∃ (receiver' sender' : User) (tx : Transaction) (log : List Transaction),
      (transferPoints decimal june2016 initState plainTransferArgs).1 = .ok (.bytes none) ∧
      (transferPoints decimal june2016 initState plainTransferArgs).2.kv "U3151672"
        = some (.user receiver') ∧
      (transferPoints decimal june2016 initState plainTransferArgs).2.kv "U2974034"
        = some (.user sender') ∧
      logOf (transferPoints decimal june2016 initState plainTransferArgs).2 = log ++ [tx] ∧
      receiver'.Balance - anthony.Balance = tx.Amount ∧
      natalie.Balance - sender'.Balance = tx.Amount :=
  ⟨⟨initState_noFaults, by decide, by decide, by decide, by decide, by decide, by decide,
      by decide⟩,
    transferPoints_moves_effective_amount decimal june2016 initState "U3151672" "U2974034"
      "gift" "to Anthony" "none" "0" "5" "0" [] anthony natalie initState_noFaults
      (by decide) (by decide) (by decide) (by decide) (by decide) (by decide) (by decide)⟩

set_option maxRecDepth 10000 in
/-- Counterexample to C2 as stated: two transfers from Natalie to the key
`refNumber` after `Init`; the second transaction carries RefNumber `0`, not
`2985674979`, and the counter read afterwards is 0. -/
theorem refNumbers_counter_key_counterexample :
    emptyStub.NoFaults ∧
    (logOf (runTransfers decimal (Init emptyStub "init" ["reset"]).2
      [(june2016, counterKeyTransferArgs), (june2016, counterKeyTransferArgs)])).map
        (fun tx => tx.RefNumber) = ["2985674978", "0"] ∧
    Itoa (refNumberSeed + 1) = "2985674979" ∧
    counterOf (runTransfers decimal (Init emptyStub "init" ["reset"]).2
      [(june2016, counterKeyTransferArgs), (june2016, counterKeyTransferArgs)]) = 0 := by
  refine ⟨fun _ => rfl, by decide, by decide, by decide⟩

/-- Witness of C2 amended: a transfer from Natalie to Anthony followed by a
transfer from Natalie to herself. -/
theorem refNumbers_step_one_witness :
    (emptyStub.NoFaults ∧
      (∀ c ∈ [(june2016, plainTransferArgs), (june2016, selfTransferArgs)],
        TransferAvoidsCounter c.2) ∧
      refNumberSeed + ([(june2016, plainTransferArgs), (june2016, selfTransferArgs)].length : Int)
        < 2 ^ 63) ∧
    counterOf (runTransfers decimal (Init emptyStub "init" ["reset"]).2
        [(june2016, plainTransferArgs), (june2016, selfTransferArgs)])
      = refNumberSeed + ([(june2016, plainTransferArgs), (june2016, selfTransferArgs)].length : Int)
    ∧ ∀ k, k < [(june2016, plainTransferArgs), (june2016, selfTransferArgs)].length →
      ∃ log tx,
        logOf (runTransfers decimal (Init emptyStub "init" ["reset"]).2
          ([(june2016, plainTransferArgs), (june2016, selfTransferArgs)].take (k + 1)))
            = log ++ [tx] ∧
        tx.RefNumber = Itoa (refNumberSeed + k) := by
  have h1 : emptyStub.NoFaults := fun _ => rfl
  have h2 : ∀ c ∈ [(june2016, plainTransferArgs), (june2016, selfTransferArgs)],
      TransferAvoidsCounter c.2 := by
    intro c hc
    simp only [List.mem_cons, List.mem_singleton, List.not_mem_nil, or_false] at hc
    rcases hc with rfl | rfl <;> (unfold TransferAvoidsCounter; decide)
  have h3 : refNumberSeed
      + ([(june2016, plainTransferArgs), (june2016, selfTransferArgs)].length : Int) < 2 ^ 63 := by
    norm_num [refNumberSeed]
  exact ⟨⟨h1, h2, h3⟩, refNumbers_step_one decimal emptyStub "init" "reset" _ h1 h2 h3⟩

/-! ## Contracts are stored under their identifier -/

theorem keyed_tick {s : Stub} (h : KeyedById s) : KeyedById s.tick := h

theorem keyed_set_contract {s : Stub} (h : KeyedById s) (c : Contract) :
    KeyedById (s.set c.Id (.contract c)) := by
  intro k d hk
  by_cases e : k = c.Id
  · subst e; simp [Stub.set] at hk; rw [← hk]
  · rw [Stub.set_kv_of_ne _ _ e] at hk; exact h k d hk

theorem keyed_set_user {s : Stub} (h : KeyedById s) (k : String) (u : User) :
    KeyedById (s.set k (.user u)) := by
  intro j d hj
  by_cases e : j = k
  · subst e; simp [Stub.set] at hj
  · rw [Stub.set_kv_of_ne _ _ e] at hj; exact h j d hj

theorem keyed_set_int {s : Stub} (h : KeyedById s) (k : String) (n : Int) :
    KeyedById (s.set k (.int n)) := by
  intro j d hj
  by_cases e : j = k
  · subst e; simp [Stub.set] at hj
  · rw [Stub.set_kv_of_ne _ _ e] at hj; exact h j d hj

theorem keyed_set_allTx {s : Stub} (h : KeyedById s) (k : String) (t : AllTransactions) :
    KeyedById (s.set k (.allTx t)) := by
  intro j d hj
  by_cases e : j = k
  · subst e; simp [Stub.set] at hj
  · rw [Stub.set_kv_of_ne _ _ e] at hj; exact h j d hj

theorem keyed_set_strings {s : Stub} (h : KeyedById s) (k : String) (l : List String) :
    KeyedById (s.set k (.strings l)) := by
  intro j d hj
  by_cases e : j = k
  · subst e; simp [Stub.set] at hj
  · rw [Stub.set_kv_of_ne _ _ e] at hj; exact h j d hj

theorem discountLoop_kv (cid : String) (ids : List String) (s : Stub) (amt : ℚ) :
    (discountLoop cid ids s amt).2.kv = s.kv := by
  induction ids generalizing s amt with
  | nil => rfl
  | cons id ids ih =>
    simp only [discountLoop]
    rw [ih]
    rfl

theorem travelContract_kv (tx : Transaction) (s : Stub) : (travelContract tx s).2.kv = s.kv := by
  unfold travelContract Stub.GetState
  cases s.faults 0 <;> rfl

theorem feedbackContract_kv (tx : Transaction) (s : Stub) :
    (feedbackContract tx s).2.kv = s.kv := by
  unfold feedbackContract Stub.GetState
  cases s.faults 0 <;> rfl

theorem contractAmount_kv (tx : Transaction) (s : Stub) : (contractAmount tx s).2.kv = s.kv := by
  unfold contractAmount
  split_ifs
  · exact travelContract_kv tx s
  · exact feedbackContract_kv tx s
  · simp only []
    rw [discountLoop_kv]
    rfl

theorem keyed_contractAmount {s : Stub} (h : KeyedById s) (tx : Transaction) :
    KeyedById (contractAmount tx s).2 := by
  intro k c hk
  rw [contractAmount_kv] at hk
  exact h k c hk

theorem Stub.tick_kv (s : Stub) : s.tick.kv = s.kv := rfl

theorem Stub.set_kv (s : Stub) (k j : String) (v : Value) :
    (s.set k v).kv j = if j = k then some v else s.kv j := rfl

theorem keyed_of_PutState_eq {s s1 : Stub} {r : Option Error} {k : String} {v : Value}
    (heq : s.PutState k v = (r, s1)) (hv : ∀ c, v = .contract c → c.Id = k)
    (h : KeyedById s) : KeyedById s1 := by
  rcases Stub.PutState_cases s k v with hp | hp
  · rw [hp] at heq
    have e : s1 = s.tick := (congrArg Prod.snd heq).symm
    rw [e]; exact h
  · rw [hp] at heq
    have e : s1 = s.tick.set k v := (congrArg Prod.snd heq).symm
    rw [e]
    intro j c hj
    rw [Stub.set_kv] at hj
    split_ifs at hj with hjk
    · rw [hjk]; exact hv c (Option.some.inj hj)
    · exact h j c hj

theorem Init_keyed (s : Stub) (function : String) (args : List String)
    (h : KeyedById s) : KeyedById (Init s function args).2 := by
  unfold Init
  split_ifs
  · exact h
  split
  · rename_i heq
    exact keyed_of_PutState_eq heq (by intro c hc; cases hc) h
  rename_i st heq
  replace h := keyed_of_PutState_eq heq (by intro c hc; cases hc) h
  clear heq
  split
  · rename_i heq
    exact keyed_of_PutState_eq heq (by intro c hc; cases hc) h
  rename_i st heq
  replace h := keyed_of_PutState_eq heq (by intro c hc; cases hc) h
  clear heq
  split
  · rename_i heq
    exact keyed_of_PutState_eq heq (by intro c hc; cases hc) h
  rename_i st heq
  replace h := keyed_of_PutState_eq heq (by intro c hc; cases hc) h
  clear heq
  split
  · rename_i heq
    exact keyed_of_PutState_eq heq (by intro c hc; cases hc) h
  rename_i st heq
  replace h := keyed_of_PutState_eq heq (by intro c hc; cases hc) h
  clear heq
  split
  · rename_i heq
    exact keyed_of_PutState_eq heq (by intro c hc; cases hc) h
  rename_i st heq
  replace h := keyed_of_PutState_eq heq (by intro c hc; cases hc) h
  clear heq
  split
  · rename_i heq
    exact keyed_of_PutState_eq heq (by intro c hc; cases hc) h
  rename_i st heq
  replace h := keyed_of_PutState_eq heq (by intro c hc; cases hc) h
  clear heq
  split
  · rename_i heq
    exact keyed_of_PutState_eq heq (by intro c hc; cases hc; rfl) h
  rename_i st heq
  replace h := keyed_of_PutState_eq heq (by intro c hc; cases hc; rfl) h
  clear heq
  split
  · rename_i heq
    exact keyed_of_PutState_eq heq (by intro c hc; cases hc; rfl) h
  rename_i st heq
  replace h := keyed_of_PutState_eq heq (by intro c hc; cases hc; rfl) h
  clear heq
  simp only []
  split
  · rename_i heq
    exact keyed_of_PutState_eq heq (by intro c hc; cases hc) h
  · rename_i heq
    exact keyed_of_PutState_eq heq (by intro c hc; cases hc) h

theorem keyed_of_GetState_eq {s s1 : Stub} {r : Except Error (Option Value)} {k : String}
    (heq : s.GetState k = (r, s1)) (h : KeyedById s) : KeyedById s1 := by
  have e : s1 = s.tick := (congrArg Prod.snd heq).symm
  rw [e]; exact h

theorem addSmartContract_keyed (P : Strconv) (s : Stub) (args : List String)
    (h : KeyedById s) : KeyedById (addSmartContract P s args).2 := by
  unfold addSmartContract
  split
  · simp only []
    split
    · rename_i heq
      exact keyed_of_PutState_eq heq (by intro c hc; cases hc; rfl) h
    rename_i st heq
    replace h := keyed_of_PutState_eq heq (by intro c hc; cases hc; rfl) h
    clear heq
    split
    · rename_i heq
      exact keyed_of_PutState_eq heq (by intro c hc; cases hc) (keyed_tick h)
    · rename_i heq
      exact keyed_of_PutState_eq heq (by intro c hc; cases hc) (keyed_tick h)
  · exact h

theorem incrementReferenceNumber_keyed (s : Stub) (args : List String)
    (h : KeyedById s) : KeyedById (incrementReferenceNumber s args).2 := by
  unfold incrementReferenceNumber
  split
  · rename_i heq
    exact keyed_of_GetState_eq heq h
  rename_i b st heq
  replace h := keyed_of_GetState_eq heq h
  clear heq
  simp only []
  split
  · rename_i heq
    exact keyed_of_PutState_eq heq (by intro c hc; cases hc) h
  · rename_i heq
    exact keyed_of_PutState_eq heq (by intro c hc; cases hc) h

/-! ## Invariants of the reachable states -/

theorem index_of_PutState_eq {s s1 : Stub} {r : Option Error} {k : String} {v : Value}
    (heq : s.PutState k v = (r, s1)) (hv : ∀ l, v = .strings l → l.Nodup)
    (h : (indexOf s).Nodup) : (indexOf s1).Nodup := by
  rcases Stub.PutState_cases s k v with hp | hp
  · rw [hp] at heq
    have e : s1 = s.tick := (congrArg Prod.snd heq).symm
    rw [e]; exact h
  · rw [hp] at heq
    have e : s1 = s.tick.set k v := (congrArg Prod.snd heq).symm
    rw [e]
    unfold indexOf
    rw [Stub.set_kv]
    split_ifs with hk
    · cases v with
      | strings l => exact hv l rfl
      | user u => exact List.nodup_nil
      | contract c => exact List.nodup_nil
      | allTx t => exact List.nodup_nil
      | int n => exact List.nodup_nil
    · exact h

theorem Init_index_nodup (s : Stub) (function : String) (args : List String)
    (h : (indexOf s).Nodup) : (indexOf (Init s function args).2).Nodup := by
  unfold Init
  split_ifs
  · exact h
  iterate 8
    split
    · rename_i heq
      exact index_of_PutState_eq heq (by intro c hc; cases hc) h
    rename_i st heq
    replace h := index_of_PutState_eq heq (by intro c hc; cases hc) h
    clear heq
  simp only []
  split
  · rename_i heq
    exact index_of_PutState_eq heq (by intro c hc; cases hc; decide) h
  · rename_i heq
    exact index_of_PutState_eq heq (by intro c hc; cases hc; decide) h

theorem incrementReferenceNumber_index (s : Stub) (args : List String) :
    indexOf (incrementReferenceNumber s args).2 = indexOf s := by
  unfold incrementReferenceNumber indexOf
  simp only [Stub.GetState, Stub.PutState]
  by_cases f0 : s.faults 0 = true
  · simp only [f0, if_true]; rfl
  · simp only [f0, Bool.false_eq_true, if_false]
    by_cases f1 : s.tick.faults 0 = true
    · simp only [f1, if_true]; rfl
    · simp only [f1, Bool.false_eq_true, if_false]
      rw [Stub.set_kv, if_neg (by decide)]
      rfl

theorem touches_refl (s : Stub) : Touches s s := fun _ => Or.inl rfl

theorem touches_trans {s s1 s2 : Stub} (h1 : Touches s s1) (h2 : Touches s1 s2) :
    Touches s s2 := by
  intro k
  rcases h2 k with e | e
  · rw [e]; exact h1 k
  · exact Or.inr e

theorem touches_get {s s1 s2 : Stub} {k : String} {r : Except Error (Option Value)}
    (heq : s1.GetState k = (r, s2)) (h : Touches s s1) : Touches s s2 := by
  have e : s2 = s1.tick := (congrArg Prod.snd heq).symm
  rw [e]; exact h

theorem touches_put {s s1 s2 : Stub} {k : String} {v : Value} {r : Option Error}
    (heq : s1.PutState k v = (r, s2))
    (hv : (∃ u, v = .user u) ∨ (∃ n, v = .int n) ∨ (∃ t, v = .allTx t))
    (h : Touches s s1) : Touches s s2 := by
  rcases Stub.PutState_cases s1 k v with hp | hp
  · rw [hp] at heq
    have e : s2 = s1.tick := (congrArg Prod.snd heq).symm
    rw [e]; exact h
  · rw [hp] at heq
    have e : s2 = s1.tick.set k v := (congrArg Prod.snd heq).symm
    rw [e]
    intro j
    rw [Stub.set_kv]
    split_ifs with hj
    · right
      rcases hv with ⟨u, rfl⟩ | ⟨n, rfl⟩ | ⟨t, rfl⟩
      · exact Or.inl ⟨u, rfl⟩
      · exact Or.inr (Or.inl ⟨n, rfl⟩)
      · exact Or.inr (Or.inr ⟨t, rfl⟩)
    · exact h j

theorem touches_contractAmount {s s1 : Stub} (tx : Transaction) (h : Touches s s1) :
    Touches s (contractAmount tx s1).2 := by
  intro k
  rw [contractAmount_kv]
  exact h k

/-- Whichever store calls fail, `transferPoints` leaves every key as it was or
holding an account, a number or a transaction log. -/
theorem transferPoints_touches (P : Strconv) (clock : Clock) (s : Stub) (args : List String) :
    Touches s (transferPoints P clock s args).2 := by
  have h := touches_refl s
  unfold transferPoints
  split
  · split
    · rename_i heq
      exact touches_get heq h
    rename_i b st heq
    replace h := touches_get heq h
    clear heq
    simp only []
    split
    · rename_i heq
      exact touches_put heq (Or.inr (Or.inl ⟨_, rfl⟩)) h
    rename_i st2 heq
    replace h := touches_put heq (Or.inr (Or.inl ⟨_, rfl⟩)) h
    clear heq
    split
    · rename_i heq
      exact touches_get heq (touches_contractAmount _ h)
    rename_i b3 st3 heq
    replace h := touches_get heq (touches_contractAmount _ h)
    clear heq
    split
    · rename_i heq
      exact touches_put heq (Or.inl ⟨_, rfl⟩) h
    rename_i st4 heq
    replace h := touches_put heq (Or.inl ⟨_, rfl⟩) h
    clear heq
    split
    · rename_i heq
      exact touches_get heq h
    rename_i b5 st5 heq
    replace h := touches_get heq h
    clear heq
    split
    · rename_i heq
      exact touches_put heq (Or.inl ⟨_, rfl⟩) h
    rename_i st6 heq
    replace h := touches_put heq (Or.inl ⟨_, rfl⟩) h
    clear heq
    split
    · rename_i heq
      exact touches_get heq h
    rename_i b7 st7 heq
    replace h := touches_get heq h
    clear heq
    split
    · rename_i heq
      exact touches_put heq (Or.inr (Or.inr ⟨_, rfl⟩)) h
    · rename_i heq
      exact touches_put heq (Or.inr (Or.inr ⟨_, rfl⟩)) h
  · exact h

theorem transferPoints_footprint (P : Strconv) (clock : Clock) (s : Stub) (args : List String)
    (k : String) :
    (transferPoints P clock s args).2.kv k = s.kv k ∨
    (∃ u, (transferPoints P clock s args).2.kv k = some (.user u)) ∨
    (∃ n, (transferPoints P clock s args).2.kv k = some (.int n)) ∨
    (∃ t, (transferPoints P clock s args).2.kv k = some (.allTx t)) :=
  transferPoints_touches P clock s args k

theorem transferPoints_keyed (P : Strconv) (clock : Clock) (s : Stub) (args : List String)
    (h : KeyedById s) : KeyedById (transferPoints P clock s args).2 := by
  intro k c hk
  rcases transferPoints_touches P clock s args k with e | ⟨u, e⟩ | ⟨n, e⟩ | ⟨t, e⟩ <;>
    rw [e] at hk
  · exact h k c hk
  all_goals cases hk

theorem transferPoints_index_nodup (P : Strconv) (clock : Clock) (s : Stub) (args : List String)
    (h : (indexOf s).Nodup) : (indexOf (transferPoints P clock s args).2).Nodup := by
  unfold indexOf at h ⊢
  rcases transferPoints_footprint P clock s args "contractIds" with e | ⟨u, e⟩ | ⟨n, e⟩ | ⟨t, e⟩ <;>
    rw [e]
  · exact h
  all_goals exact List.nodup_nil

theorem getAllContractsLoop_kv (ids : List String) (s : Stub) (acc : List Contract) :
    (getAllContractsLoop ids s acc).2.kv = s.kv := by
  induction ids generalizing s acc with
  | nil => rfl
  | cons id ids ih =>
    simp only [getAllContractsLoop]
    rw [ih]
    rfl

theorem Query_kv (s : Stub) (function : String) (args : List String) :
    (Query s function args).2.kv = s.kv := by
  unfold Query
  split_ifs
  · split
    · unfold getTxs Stub.GetState; cases s.faults 0 <;> rfl
    · rfl
  · split
    · unfold getUserAccount Stub.GetState; cases s.faults 0 <;> rfl
    · rfl
  · unfold getAllContracts
    simp only []
    rw [getAllContractsLoop_kv]
    rfl
  · unfold getReferenceNumber Stub.GetState; cases s.faults 0 <;> rfl
  · rfl

theorem Invoke_keyed (P : Strconv) (clock : Clock) (s : Stub) (function : String)
    (args : List String) (h : KeyedById s) : KeyedById (Invoke P clock s function args).2 := by
  unfold Invoke
  split_ifs
  · exact Init_keyed s _ args h
  · exact transferPoints_keyed P clock s args h
  · exact addSmartContract_keyed P s args h
  · exact incrementReferenceNumber_keyed s args h
  · exact h

theorem Invoke_index_nodup (P : Strconv) (clock : Clock) (s : Stub) (function : String)
    (args : List String) (h : (indexOf s).Nodup) :
    (indexOf (Invoke P clock s function args).2).Nodup := by
  unfold Invoke
  split_ifs
  · exact Init_index_nodup s _ args h
  · exact transferPoints_index_nodup P clock s args h
  · exact addSmartContract_index_nodup P s args h
  · rw [incrementReferenceNumber_index]; exact h
  · exact h

theorem reachable_keyed {P : Strconv} {s : Stub} (hr : Reachable P s) : KeyedById s := by
  induction hr with
  | deploy faults function args _ =>
    exact Init_keyed _ function args (fun k c hk => by cases hk)
  | invoke clock function args _ ih => exact Invoke_keyed P clock _ function args ih
  | query function args _ ih =>
    intro k c hk
    rw [Query_kv] at hk
    exact ih k c hk

theorem reachable_index_nodup {P : Strconv} {s : Stub} (hr : Reachable P s) :
    (indexOf s).Nodup := by
  induction hr with
  | deploy faults function args _ =>
    exact Init_index_nodup _ function args List.nodup_nil
  | invoke clock function args _ ih => exact Invoke_index_nodup P clock _ function args ih
  | query function args _ ih =>
    unfold indexOf
    rw [Query_kv]
    exact ih

/-! ## The generic discount policy -/

/-- When every index entry reads a contract with another identifier than `cid`,
or with a zero discount rate, the loop returns the amount unchanged. -/
theorem discountLoop_unchanged {s : Stub} (h : s.NoFaults) (cid : String) (ids : List String)
    (amt : ℚ)
    (hno : ∀ id ∈ ids, cid ≠ (unmarshalContract (s.kv id)).Id ∨
      (unmarshalContract (s.kv id)).DiscountRate = 0) :
    (discountLoop cid ids s amt).1 = amt := by
  induction ids generalizing amt with
  | nil => rfl
  | cons id ids ih =>
    simp only [discountLoop, Stub.GetState_of_noFaults h, bytesOf]
    rw [ih _ (fun j hj => hno j (List.mem_cons_of_mem _ hj))]
    rcases hno id (List.mem_cons_self _ _) with e | e
    · rw [if_neg e]
    · rw [e]; simp

theorem discountLoop_once {s : Stub} (h : s.NoFaults) (cid : String) (c : Contract)
    (hc : s.kv cid = some (.contract c)) (hid : c.Id = cid) (ids : List String) (amt : ℚ)
    (hnd : ids.Nodup) (hmem : cid ∈ ids)
    (hno : ∀ id ∈ ids, id ≠ cid → cid ≠ (unmarshalContract (s.kv id)).Id ∨
      (unmarshalContract (s.kv id)).DiscountRate = 0) :
    (discountLoop cid ids s amt).1 = amt - amt * c.DiscountRate := by
  induction ids generalizing amt with
  | nil => cases hmem
  | cons id ids ih =>
    simp only [discountLoop, Stub.GetState_of_noFaults h, bytesOf]
    rw [List.nodup_cons] at hnd
    by_cases e : id = cid
    · subst e
      have hu : unmarshalContract (s.kv id) = c := by rw [hc]; rfl
      rw [hu, if_pos hid.symm]
      apply discountLoop_unchanged h
      intro j hj
      have hj2 : j ≠ id := fun e2 => hnd.1 (e2 ▸ hj)
      exact hno j (List.mem_cons_of_mem _ hj) hj2
    · have hm : cid ∈ ids := by
        rcases List.mem_cons.1 hmem with e2 | e2
        · exact absurd e2.symm e
        · exact e2
      have step : (if cid = (unmarshalContract (s.kv id)).Id then
          amt - amt * (unmarshalContract (s.kv id)).DiscountRate else amt) = amt := by
        rcases hno id (List.mem_cons_self _ _) e with e3 | e3
        · rw [if_neg e3]
        · rw [e3]; simp
      rw [step]
      exact ih amt hnd.2 hm (fun j hj => hno j (List.mem_cons_of_mem _ hj))

theorem keyed_no_effect {s : Stub} (hk : KeyedById s) {id cid : String} (hne : id ≠ cid) :
    cid ≠ (unmarshalContract (s.kv id)).Id ∨ (unmarshalContract (s.kv id)).DiscountRate = 0 := by
  cases hv : s.kv id with
  | none => right; rfl
  | some v =>
    cases v with
    | contract c =>
      left
      have := hk id c hv
      show cid ≠ c.Id
      rw [this]; exact fun e => hne e.symm
    | user u => right; rfl
    | allTx t => right; rfl
    | int n => right; rfl
    | strings l => right; rfl

/-- The balances after a transfer between two different keys, neither of them
`refNumber` or `allTx`, on a store that never errors. -/
theorem transferPoints_balances (P : Strconv) (clock : Clock) {s : Stub} (h : s.NoFaults)
    (a0 a1 a2 a3 a4 a5 a6 a7 : String) (rest : List String)
    (hne : a0 ≠ a1) (hr1 : a0 ≠ "refNumber") (hr2 : a0 ≠ "allTx")
    (hs1 : a1 ≠ "refNumber") (hs2 : a1 ≠ "allTx") :
    ∃ (log : List Transaction) (tx : Transaction),
      transferPoints P clock s (a0 :: a1 :: a2 :: a3 :: a4 :: a5 :: a6 :: a7 :: rest) =
        (.ok (.bytes none),
          (transferPoints P clock s (a0 :: a1 :: a2 :: a3 :: a4 :: a5 :: a6 :: a7 :: rest)).2) ∧
      logOf (transferPoints P clock s (a0 :: a1 :: a2 :: a3 :: a4 :: a5 :: a6 :: a7 :: rest)).2
        = log ++ [tx] ∧
      (accountOf (transferPoints P clock s
          (a0 :: a1 :: a2 :: a3 :: a4 :: a5 :: a6 :: a7 :: rest)).2 a0).Balance
        = (accountOf s a0).Balance + tx.Amount ∧
      (accountOf (transferPoints P clock s
          (a0 :: a1 :: a2 :: a3 :: a4 :: a5 :: a6 :: a7 :: rest)).2 a1).Balance
        = (accountOf s a1).Balance - tx.Amount := by
  obtain ⟨s1, s2, s3, tx0, tx, amt, e1, e0, ea, e2, e3, etx, hrun⟩ :=
    transferPoints_of_noFaults P clock h a0 a1 a2 a3 a4 a5 a6 a7 rest
  have u1 : accountOf s1 a0 = accountOf s a0 := by
    unfold accountOf; rw [e1, Stub.set_kv_of_ne _ _ hr1]
  have u2 : accountOf s2 a1 = accountOf s a1 := by
    unfold accountOf
    rw [e2, Stub.set_kv_of_ne _ _ (Ne.symm hne), e1, Stub.set_kv_of_ne _ _ hs1]
  have hamt : tx.Amount = amt := by rw [etx]
  refine ⟨logOf s3, tx, ?_, ?_, ?_, ?_⟩
  · rw [hrun]
  · rw [hrun]; exact logOf_set_allTx _ _
  · rw [hrun, hamt]
    unfold accountOf
    rw [Stub.set_kv_of_ne _ _ hr2, e3, Stub.set_kv_of_ne _ _ hne, e2, Stub.set_kv_self]
    show (accountOf s1 a0).Balance + amt = _
    rw [u1]; rfl
  · rw [hrun, hamt]
    unfold accountOf
    rw [Stub.set_kv_of_ne _ _ hs2, e3, Stub.set_kv_self]
    show (accountOf s2 a1).Balance - amt = _
    rw [u2]; rfl

/-- The amount logged by `transferPoints` on a store that never errors is the
result of the contract evaluation made after the counter is updated. -/
theorem transferPoints_logged_amount (P : Strconv) (clock : Clock) {s : Stub} (h : s.NoFaults)
    (a0 a1 a2 a3 a4 a5 a6 a7 : String) (rest : List String) :
    ∃ (log : List Transaction) (tx : Transaction),
      (transferPoints P clock s (a0 :: a1 :: a2 :: a3 :: a4 :: a5 :: a6 :: a7 :: rest)).1
        = .ok (.bytes none) ∧
      logOf (transferPoints P clock s (a0 :: a1 :: a2 :: a3 :: a4 :: a5 :: a6 :: a7 :: rest)).2
        = log ++ [tx] ∧
      tx.Amount = (contractAmount
        { (draftTx P clock a0 a1 a2 a3 a4 a5 a6 a7).2 with RefNumber := Itoa (counterOf s) }
        (s.set "refNumber" (.int (wrapInt (counterOf s + 1))))).1 := by
  obtain ⟨s1, s2, s3, tx0, tx, amt, e1, e0, ea, e2, e3, etx, hrun⟩ :=
    transferPoints_of_noFaults P clock h a0 a1 a2 a3 a4 a5 a6 a7 rest
  refine ⟨logOf s3, tx, by rw [hrun], by rw [hrun]; exact logOf_set_allTx _ _, ?_⟩
  rw [etx, ea, e0, e1]

theorem contractAmount_generic {s : Stub} (h : s.NoFaults) (tx : Transaction)
    (hT : tx.ContractId ≠ TRAVEL_CONTRACT) (hF : tx.ContractId ≠ FEEDBACK_CONTRACT) :
    (contractAmount tx s).1 = (discountLoop tx.ContractId (indexOf s) s tx.Amount).1 := by
  unfold contractAmount
  rw [if_neg hT, if_neg hF]
  simp only [Stub.GetState_of_noFaults h, bytesOf]
  rfl

theorem newSmartContract_DiscountRate (P : Strconv) (a0 a1 a2 a3 a4 : String) {r : ℚ}
    (hr : P.ParseFloat a4 = some r) : (newSmartContract P a0 a1 a2 a3 a4).DiscountRate = r := by
  unfold newSmartContract; rw [hr]

/-- The run of `addSmartContract` on a store that never errors. -/
theorem addSmartContract_of_noFaults (P : Strconv) {s : Stub} (h : s.NoFaults)
    (a0 a1 a2 a3 a4 : String) (rest : List String) :
    addSmartContract P s (a0 :: a1 :: a2 :: a3 :: a4 :: rest) =
      (.ok (.bytes none),
        (s.set a0 (.contract (newSmartContract P a0 a1 a2 a3 a4))).set "contractIds"
          (.strings
            (if contractIdFound a0
                (indexOf (s.set a0 (.contract (newSmartContract P a0 a1 a2 a3 a4)))) then
              indexOf (s.set a0 (.contract (newSmartContract P a0 a1 a2 a3 a4)))
            else indexOf (s.set a0 (.contract (newSmartContract P a0 a1 a2 a3 a4))) ++ [a0]))) := by
  have h1 := Stub.noFaults_set h a0 (.contract (newSmartContract P a0 a1 a2 a3 a4))
  simp only [addSmartContract, newSmartContract_Id, Stub.PutState_of_noFaults h,
    Stub.GetState_of_noFaults h1, Stub.PutState_of_noFaults h1, bytesOf, indexOf]

/-- C9, amended: amounts taken as exact numbers, in every state reachable from
`Init`, on a store that never errors, a `transferPoints` call whose contract identifier is not `Paris`, not `Feedback`
and not in the contract index succeeds and logs the parsed requested amount
unchanged; that same amount is credited to the receiver and debited from the
sender (read on the stored balances when the two account keys differ and are not
the keys `refNumber` and `allTx`, which the call itself writes). -/
theorem unknown_contract_amount_unchanged (P : Strconv) (clock : Clock) (s : Stub)
    (a0 a1 a2 a3 a4 a5 a6 a7 : String) (rest : List String) (a : ℚ)
    (hr : Reachable P s) (h : s.NoFaults)
    (hT : a4 ≠ TRAVEL_CONTRACT) (hF : a4 ≠ FEEDBACK_CONTRACT) (hidx : a4 ∉ indexOf s)
    (ha : P.ParseFloat a6 = some a) :
    ∃ (log : List Transaction) (tx : Transaction),
      (transferPoints P clock s (a0 :: a1 :: a2 :: a3 :: a4 :: a5 :: a6 :: a7 :: rest)).1
        = .ok (.bytes none) ∧
      logOf (transferPoints P clock s (a0 :: a1 :: a2 :: a3 :: a4 :: a5 :: a6 :: a7 :: rest)).2
        = log ++ [tx] ∧
      tx.Amount = a ∧
      (a0 ≠ a1 → a0 ≠ "refNumber" → a0 ≠ "allTx" → a1 ≠ "refNumber" → a1 ≠ "allTx" →
        (accountOf (transferPoints P clock s
            (a0 :: a1 :: a2 :: a3 :: a4 :: a5 :: a6 :: a7 :: rest)).2 a0).Balance
          = (accountOf s a0).Balance + a ∧
        (accountOf (transferPoints P clock s
            (a0 :: a1 :: a2 :: a3 :: a4 :: a5 :: a6 :: a7 :: rest)).2 a1).Balance
          = (accountOf s a1).Balance - a) := by
  obtain ⟨log, tx, hok, hlog, hamt⟩ :=
    transferPoints_logged_amount P clock h a0 a1 a2 a3 a4 a5 a6 a7 rest
  have h1 : (s.set "refNumber" (.int (wrapInt (counterOf s + 1)))).NoFaults :=
    Stub.noFaults_set h _ _
  have hk1 : KeyedById (s.set "refNumber" (.int (wrapInt (counterOf s + 1)))) :=
    keyed_set_int (reachable_keyed hr) _ _
  have hi1 : indexOf (s.set "refNumber" (.int (wrapInt (counterOf s + 1)))) = indexOf s := by
    unfold indexOf; rw [Stub.set_kv_of_ne _ _ (by decide)]
  have hval : tx.Amount = a := by
    rw [hamt, contractAmount_generic h1 _ (by rw [draftTx_ContractId]; exact hT)
      (by rw [draftTx_ContractId]; exact hF), hi1]
    simp only [draftTx_ContractId]
    rw [discountLoop_unchanged h1]
    · exact draftTx_Amount_of_some P clock a0 a1 a2 a3 a4 a5 a6 a7 ha
    · intro id hid
      apply keyed_no_effect hk1
      intro e
      exact hidx (e ▸ hid)
  refine ⟨log, tx, hok, hlog, hval, ?_⟩
  intro hne hr1 hr2 hs1 hs2
  obtain ⟨log2, tx2, _, hlog2, hb0, hb1⟩ :=
    transferPoints_balances P clock h a0 a1 a2 a3 a4 a5 a6 a7 rest hne hr1 hr2 hs1 hs2
  have htx : tx2 = tx := by
    have := List.append_inj' (hlog2.symm.trans hlog) rfl
    exact List.singleton_inj.1 this.2
  rw [htx, hval] at hb0 hb1
  exact ⟨hb0, hb1⟩

/-- C10, amended: amounts taken as exact numbers and identifiers as texts, in
every state reachable from `Init`, on a store that never errors, after `addSmartContract` registers `c` (different from `Paris`,
`Feedback`, `refNumber` and `contractIds`) with a discount-rate text that parses
to `r`, a following `transferPoints` call with contract identifier `c` and
requested amount `a` logs the amount `a - a * r`. -/
theorem registered_discount_applied_once (P : Strconv) (clock : Clock) (s : Stub)
    (c title condA condB rate : String) (rest : List String)
    (a0 a1 a2 a3 a5 a6 a7 : String) (rest2 : List String) (r a : ℚ)
    (hr : Reachable P s) (h : s.NoFaults)
    (hT : c ≠ TRAVEL_CONTRACT) (hF : c ≠ FEEDBACK_CONTRACT)
    (hC : c ≠ "refNumber") (hI : c ≠ "contractIds")
    (hrate : P.ParseFloat rate = some r) (ha : P.ParseFloat a6 = some a) :
    (addSmartContract P s (c :: title :: condA :: condB :: rate :: rest)).1 = .ok (.bytes none) ∧
    ∃ (log : List Transaction) (tx : Transaction),
      (transferPoints P clock (addSmartContract P s (c :: title :: condA :: condB :: rate :: rest)).2
        (a0 :: a1 :: a2 :: a3 :: c :: a5 :: a6 :: a7 :: rest2)).1 = .ok (.bytes none) ∧
      logOf (transferPoints P clock
        (addSmartContract P s (c :: title :: condA :: condB :: rate :: rest)).2
        (a0 :: a1 :: a2 :: a3 :: c :: a5 :: a6 :: a7 :: rest2)).2 = log ++ [tx] ∧
      tx.Amount = a - a * r := by
  have hk : KeyedById (addSmartContract P s (c :: title :: condA :: condB :: rate :: rest)).2 :=
    addSmartContract_keyed P s _ (reachable_keyed hr)
  have hnd : (indexOf (addSmartContract P s
      (c :: title :: condA :: condB :: rate :: rest)).2).Nodup :=
    addSmartContract_index_nodup P s _ (reachable_index_nodup hr)
  rw [addSmartContract_of_noFaults P h] at hk hnd ⊢
  refine ⟨rfl, ?_⟩
  simp only []
  generalize hC0 : newSmartContract P c title condA condB rate = C at hk hnd ⊢
  have hCid : C.Id = c := by rw [← hC0]; rfl
  have hCr : C.DiscountRate = r := by rw [← hC0]; exact newSmartContract_DiscountRate P _ _ _ _ _ hrate
  generalize hids : (if contractIdFound c (indexOf (s.set c (.contract C))) then
      indexOf (s.set c (.contract C)) else indexOf (s.set c (.contract C)) ++ [c]) = ids
    at hk hnd ⊢
  have hmem : c ∈ ids := by
    rw [← hids]
    split_ifs with hf
    · exact (contractIdFound_iff _ _).1 hf
    · simp
  generalize hs1 : (s.set c (.contract C)).set "contractIds" (.strings ids) = s1 at hk hnd ⊢
  have hn1 : s1.NoFaults := by rw [← hs1]; exact Stub.noFaults_set (Stub.noFaults_set h _ _) _ _
  have hidx1 : indexOf s1 = ids := by rw [← hs1]; exact indexOf_set_strings _ _
  have hkc : s1.kv c = some (.contract C) := by
    rw [← hs1, Stub.set_kv_of_ne _ _ hI, Stub.set_kv_self]
  obtain ⟨log, tx, hok, hlog, hamt⟩ :=
    transferPoints_logged_amount P clock hn1 a0 a1 a2 a3 c a5 a6 a7 rest2
  refine ⟨log, tx, hok, hlog, ?_⟩
  have h2 : (s1.set "refNumber" (.int (wrapInt (counterOf s1 + 1)))).NoFaults :=
    Stub.noFaults_set hn1 _ _
  have hk2 : KeyedById (s1.set "refNumber" (.int (wrapInt (counterOf s1 + 1)))) :=
    keyed_set_int hk _ _
  have hi2 : indexOf (s1.set "refNumber" (.int (wrapInt (counterOf s1 + 1)))) = ids := by
    unfold indexOf; rw [Stub.set_kv_of_ne _ _ (by decide)]; exact hidx1
  have hkc2 : (s1.set "refNumber" (.int (wrapInt (counterOf s1 + 1)))).kv c
      = some (.contract C) := by
    rw [Stub.set_kv_of_ne _ _ hC]; exact hkc
  rw [hidx1] at hnd
  rw [hamt, contractAmount_generic h2 _ (by rw [draftTx_ContractId]; exact hT)
      (by rw [draftTx_ContractId]; exact hF), hi2]
  simp only [draftTx_ContractId]
  rw [discountLoop_once h2 c C hkc2 hCid ids _ hnd hmem
    (fun id _ hne => keyed_no_effect hk2 hne)]
  rw [draftTx_Amount_of_some P clock a0 a1 a2 a3 c a5 a6 a7 ha, hCr]

theorem initState_reachable (P : Strconv) : Reachable P initState :=
  Reachable.deploy (fun _ => false) "init" ["reset"] rfl

set_option maxRecDepth 10000 in
/-- Witness of C9 amended: a transfer of 5 points from Natalie to Anthony under the
contract identifier `none`, on the state written by `Init`. -/
theorem unknown_contract_amount_unchanged_witness :
    (Reachable decimal initState ∧ initState.NoFaults ∧ "none" ≠ TRAVEL_CONTRACT ∧
      "none" ≠ FEEDBACK_CONTRACT ∧ "none" ∉ indexOf initState ∧
      decimal.ParseFloat "5" = some 5) ∧
    ∃ (log : List Transaction) (tx : Transaction),
      (transferPoints decimal june2016 initState plainTransferArgs).1 = .ok (.bytes none) ∧
      logOf (transferPoints decimal june2016 initState plainTransferArgs).2 = log ++ [tx] ∧
      tx.Amount = 5 ∧
      ("U3151672" ≠ "U2974034" → "U3151672" ≠ "refNumber" → "U3151672" ≠ "allTx" →
        "U2974034" ≠ "refNumber" → "U2974034" ≠ "allTx" →
        (accountOf (transferPoints decimal june2016 initState plainTransferArgs).2
            "U3151672").Balance = (accountOf initState "U3151672").Balance + 5 ∧
        (accountOf (transferPoints decimal june2016 initState plainTransferArgs).2
            "U2974034").Balance = (accountOf initState "U2974034").Balance - 5) := by
  have hp : decimal.ParseFloat "5" = some 5 := by with_unfolding_all decide
  exact ⟨⟨initState_reachable decimal, initState_noFaults, by decide, by decide, by decide, hp⟩,
    unknown_contract_amount_unchanged decimal june2016 initState "U3151672" "U2974034" "gift"
      "to Anthony" "none" "0" "5" "0" [] 5 (initState_reachable decimal) initState_noFaults
      (by decide) (by decide) (by decide) hp⟩

set_option maxRecDepth 10000 in
/-- Witness of C10 amended: `Rome` registered with rate `0.5`, then a transfer of
100 points under `Rome`. -/
theorem registered_discount_applied_once_witness :
    (Reachable decimal initState ∧ initState.NoFaults ∧ "Rome" ≠ TRAVEL_CONTRACT ∧
      "Rome" ≠ FEEDBACK_CONTRACT ∧ "Rome" ≠ "refNumber" ∧ "Rome" ≠ "contractIds" ∧
      decimal.ParseFloat "0.5" = some (1 / 2) ∧ decimal.ParseFloat "100" = some 100) ∧
    (addSmartContract decimal initState romeContractArgs).1 = .ok (.bytes none) ∧
    ∃ (log : List Transaction) (tx : Transaction),
      (transferPoints decimal june2016 (addSmartContract decimal initState romeContractArgs).2
        ["U3151672", "U2974034", "gift", "to Anthony", "Rome", "0", "100", "0"]).1
          = .ok (.bytes none) ∧
      logOf (transferPoints decimal june2016
        (addSmartContract decimal initState romeContractArgs).2
        ["U3151672", "U2974034", "gift", "to Anthony", "Rome", "0", "100", "0"]).2
          = log ++ [tx] ∧
      tx.Amount = 100 - 100 * (1 / 2) := by
  have hp : decimal.ParseFloat "0.5" = some (1 / 2) := by with_unfolding_all decide
  have hq : decimal.ParseFloat "100" = some 100 := by with_unfolding_all decide
  exact ⟨⟨initState_reachable decimal, initState_noFaults, by decide, by decide, by decide,
      by decide, hp, hq⟩,
    registered_discount_applied_once decimal june2016 initState "Rome" "Rome for Less" "dining"
      "travel" "0.5" [] "U3151672" "U2974034" "gift" "to Anthony" "0" "100" "0" [] (1 / 2) 100
      (initState_reachable decimal) initState_noFaults (by decide) (by decide) (by decide)
      (by decide) hp hq⟩

set_option maxRecDepth 10000 in
/-- Counterexample to C10 as stated: a contract registered under the identifier
`refNumber` with rate `0.5` is overwritten by the counter update of the following
transfer, which logs the amount 100 and not 50. -/
theorem discount_lost_under_counter_key :
    Reachable decimal initState ∧ initState.NoFaults ∧
    "refNumber" ≠ TRAVEL_CONTRACT ∧ "refNumber" ≠ FEEDBACK_CONTRACT ∧
    decimal.ParseFloat "0.5" = some (1 / 2) ∧ decimal.ParseFloat "100" = some 100 ∧
    (addSmartContract decimal initState counterKeyContractArgs).1 = .ok (.bytes none) ∧
    (transferPoints decimal june2016 (addSmartContract decimal initState counterKeyContractArgs).2
      counterKeyContractTransferArgs).1 = .ok (.bytes none) ∧
    (logOf (transferPoints decimal june2016
      (addSmartContract decimal initState counterKeyContractArgs).2
      counterKeyContractTransferArgs).2).map (fun tx => tx.Amount) = [100] ∧
    (100 : ℚ) - 100 * (1 / 2) = 50 := by
  refine ⟨initState_reachable decimal, initState_noFaults, by decide, by decide, ?_, ?_, rfl, rfl,
    ?_, by norm_num⟩
  · with_unfolding_all decide
  · with_unfolding_all decide
  · with_unfolding_all decide

/-! ## Failures that are not reported -/

set_option maxRecDepth 10000 in
/-- C11, evaluated on the code: after `Init` the key `U0000000` has no value and
the store never errors; a transfer to `U0000000` succeeds and stores an account
with balance 5 under that key, and a transfer from `U0000000` succeeds and stores
an account with balance -5 under it. -/
theorem transferPoints_creates_missing_account :
    initState.NoFaults ∧ initState.kv "U0000000" = none ∧
    (transferPoints decimal june2016 initState unknownReceiverArgs).1 = .ok (.bytes none) ∧
    (∃ u, (transferPoints decimal june2016 initState unknownReceiverArgs).2.kv "U0000000" =
      some (.user u)) ∧
    (accountOf (transferPoints decimal june2016 initState unknownReceiverArgs).2
      "U0000000").Balance = 5 ∧
    (transferPoints decimal june2016 initState unknownSenderArgs).1 = .ok (.bytes none) ∧
    (∃ u, (transferPoints decimal june2016 initState unknownSenderArgs).2.kv "U0000000" =
      some (.user u)) ∧
    (accountOf (transferPoints decimal june2016 initState unknownSenderArgs).2
      "U0000000").Balance = -5 := by
  refine ⟨initState_noFaults, rfl, rfl, ⟨_, rfl⟩, ?_, rfl, ⟨_, rfl⟩, ?_⟩
  · with_unfolding_all decide
  · with_unfolding_all decide

set_option maxRecDepth 10000 in
/-- C12, evaluated on the code: when the read of the reference counter fails and
the money text parses, `transferPoints` returns no error, and nothing is logged. -/
theorem transferPoints_hides_counter_read_failure :
    (counterReadFails.GetState "refNumber").1 = .error .store ∧
    decimal.ParseFloat "0" = some 0 ∧
    (transferPoints decimal june2016 counterReadFails plainTransferArgs).1 = .ok (.bytes none) ∧
    logOf (transferPoints decimal june2016 counterReadFails plainTransferArgs).2 = [] := by
  refine ⟨rfl, ?_, rfl, rfl⟩
  with_unfolding_all decide

set_option maxRecDepth 10000 in
/-- C13, evaluated on the code: with the discount-rate text `x`, which does not
parse, `addSmartContract` succeeds and the contract stored under `Rome` has the
title given in the arguments, not `Invalid Contract`; its discount rate is 0. -/
theorem addSmartContract_overwrites_sentinel_title :
    decimal.ParseFloat "x" = none ∧
    (addSmartContract decimal initState malformedRateArgs).1 = .ok (.bytes none) ∧
    (unmarshalContract ((addSmartContract decimal initState malformedRateArgs).2.kv "Rome")).Title
      = "Rome for Less" ∧
    (unmarshalContract ((addSmartContract decimal initState malformedRateArgs).2.kv "Rome")).Title
      ≠ "Invalid Contract" ∧
    (unmarshalContract
      ((addSmartContract decimal initState malformedRateArgs).2.kv "Rome")).DiscountRate = 0 := by
  refine ⟨by decide, rfl, by decide, by decide, ?_⟩
  with_unfolding_all decide

/-- C16, evaluated on the code: `Query` indexes the argument list out of range
on `[userId]` for `getUserAccount` and for `getTxs`, and `Invoke` does so on seven
arguments for `transferPoints` and on four for `addSmartContract`. -/
theorem entry_points_index_out_of_range :
    (Query initState "getUserAccount" ["U2974034"]).1 = .error .indexOutOfRange ∧
    (Query initState "getTxs" ["U2974034"]).1 = .error .indexOutOfRange ∧
    (Invoke decimal june2016 initState "transferPoints"
      ["U3151672", "U2974034", "gift", "to Anthony", "none", "0", "5"]).1
        = .error .indexOutOfRange ∧
    (Invoke decimal june2016 initState "addSmartContract"
      ["Rome", "Rome for Less", "dining", "travel"]).1 = .error .indexOutOfRange :=
  ⟨rfl, rfl, rfl, rfl⟩

set_option maxRecDepth 10000 in
/-- C17, evaluated on the code: when the load of the contract `Paris` fails (the
third store call of the transfer), `transferPoints` returns no error, logs the
amount -99, and moves -99 from Natalie (1001 to 1100) to Anthony (50000 to
49901); under `Feedback` the call likewise succeeds and logs -99. -/
theorem transferPoints_credits_sentinel :
    (contractLoadFails.tick.tick.GetState TRAVEL_CONTRACT).1 = .error .store ∧
    (transferPoints decimal june2016 contractLoadFails parisTransferArgs).1 = .ok (.bytes none) ∧
    (accountOf contractLoadFails "U3151672").Balance = 50000 ∧
    (accountOf (transferPoints decimal june2016 contractLoadFails parisTransferArgs).2
      "U3151672").Balance = 50000 + (-99) ∧
    (accountOf contractLoadFails "U2974034").Balance = 1001 ∧
    (accountOf (transferPoints decimal june2016 contractLoadFails parisTransferArgs).2
      "U2974034").Balance = 1001 - (-99) ∧
    (logOf (transferPoints decimal june2016 contractLoadFails parisTransferArgs).2).map
      (fun tx => tx.Amount) = [-99] ∧
    (transferPoints decimal june2016 contractLoadFails feedbackTransferArgs).1
      = .ok (.bytes none) ∧
    (logOf (transferPoints decimal june2016 contractLoadFails feedbackTransferArgs).2).map
      (fun tx => tx.Amount) = [-99] := by
  refine ⟨rfl, rfl, rfl, rfl, rfl, rfl, ?_, rfl, ?_⟩ <;> with_unfolding_all decide

/-! ## Keys left untouched -/

theorem same_get {s s1 s2 : Stub} {j k : String} {r : Except Error (Option Value)}
    (heq : s1.GetState j = (r, s2)) (h : s1.kv k = s.kv k) : s2.kv k = s.kv k := by
  have e : s2 = s1.tick := (congrArg Prod.snd heq).symm
  rw [e]; exact h

theorem same_put {s s1 s2 : Stub} {j k : String} {v : Value} {r : Option Error}
    (heq : s1.PutState j v = (r, s2)) (hne : k ≠ j) (h : s1.kv k = s.kv k) :
    s2.kv k = s.kv k := by
  rcases Stub.PutState_cases s1 j v with hp | hp
  · rw [hp] at heq
    have e : s2 = s1.tick := (congrArg Prod.snd heq).symm
    rw [e]; exact h
  · rw [hp] at heq
    have e : s2 = s1.tick.set j v := (congrArg Prod.snd heq).symm
    rw [e, Stub.set_kv, if_neg hne]; exact h

theorem same_put_of_eq {s s1 s2 : Stub} {j a k : String} {v : Value} {r : Option Error}
    (heq : s1.PutState j v = (r, s2)) (hj : j = a) (hne : k ≠ a) (h : s1.kv k = s.kv k) :
    s2.kv k = s.kv k :=
  same_put heq (hj ▸ hne) h

theorem same_contractAmount {s s1 : Stub} {k : String} (tx : Transaction)
    (h : s1.kv k = s.kv k) : (contractAmount tx s1).2.kv k = s.kv k := by
  rw [contractAmount_kv]; exact h

theorem Stub.GetState_eq_ok {s s1 : Stub} {k : String} {b : Option Value}
    (heq : s.GetState k = (.ok b, s1)) : b = s.kv k := by
  unfold Stub.GetState at heq
  cases hf : s.faults 0
  · rw [hf] at heq
    simp only [Bool.false_eq_true, if_false, Prod.mk.injEq, Except.ok.injEq] at heq
    exact heq.1.symm
  · rw [hf] at heq
    simp at heq

/-- Whichever store calls fail, `transferPoints` leaves every key other than
`refNumber`, `allTx`, the receiver and the sender as it was. -/
theorem transferPoints_frame (P : Strconv) (clock : Clock) (s : Stub) (args : List String)
    (k : String) (h0 : args[0]? ≠ some k) (h1 : args[1]? ≠ some k)
    (hr : k ≠ "refNumber") (hl : k ≠ "allTx") :
    (transferPoints P clock s args).2.kv k = s.kv k := by
  have h : s.kv k = s.kv k := rfl
  unfold transferPoints
  split
  · rename_i a0 a1 a2 a3 a4 a5 a6 a7 rest
    have k0 : k ≠ a0 := fun e => h0 (by simp [e])
    have k1 : k ≠ a1 := fun e => h1 (by simp [e])
    split
    · rename_i heq
      exact same_get heq h
    rename_i b st heq
    replace h := same_get heq h
    clear heq
    simp only []
    split
    · rename_i heq
      exact same_put heq hr h
    rename_i st2 heq
    replace h := same_put heq hr h
    clear heq
    split
    · rename_i heq
      exact same_get heq (same_contractAmount _ h)
    rename_i b3 st3 heq
    replace h := same_get heq (same_contractAmount _ h)
    clear heq
    split
    · rename_i heq
      exact same_put_of_eq heq (draftTx_To ..) k0 h
    rename_i st4 heq
    replace h := same_put_of_eq heq (draftTx_To ..) k0 h
    clear heq
    split
    · rename_i heq
      exact same_get heq h
    rename_i b5 st5 heq
    replace h := same_get heq h
    clear heq
    split
    · rename_i heq
      exact same_put_of_eq heq (draftTx_From ..) k1 h
    rename_i st6 heq
    replace h := same_put_of_eq heq (draftTx_From ..) k1 h
    clear heq
    split
    · rename_i heq
      exact same_get heq h
    rename_i b7 st7 heq
    replace h := same_get heq h
    clear heq
    split
    · rename_i heq
      exact same_put heq hl h
    · rename_i heq
      exact same_put heq hl h
  · rfl

theorem log_put {s s1 s2 : Stub} {l : List Transaction} {tx : Transaction} {r : Option Error}
    (heq : s1.PutState "allTx" (.allTx { Transactions := l ++ [tx] }) = (r, s2))
    (hold : logOf s1 = logOf s) (hl : l = logOf s) :
    logOf s2 = logOf s ∨ logOf s2 = logOf s ++ [tx] := by
  rcases Stub.PutState_cases s1 "allTx" (.allTx { Transactions := l ++ [tx] }) with hp | hp
  · rw [hp] at heq
    have e : s2 = s1.tick := (congrArg Prod.snd heq).symm
    left; rw [e]; exact hold
  · rw [hp] at heq
    have e : s2 = s1.tick.set "allTx" (.allTx { Transactions := l ++ [tx] }) :=
      (congrArg Prod.snd heq).symm
    right; rw [e, logOf_set_allTx, hl]

/-- Whichever store calls fail, a `transferPoints` call whose receiver and sender
are not the key `allTx` leaves the log as it was or adds one transaction at its end. -/
theorem transferPoints_log (P : Strconv) (clock : Clock) (s : Stub) (args : List String)
    (h0 : args[0]? ≠ some "allTx") (h1 : args[1]? ≠ some "allTx") :
    logOf (transferPoints P clock s args).2 = logOf s ∨
    ∃ tx, logOf (transferPoints P clock s args).2 = logOf s ++ [tx] := by
  have h : s.kv "allTx" = s.kv "allTx" := rfl
  have hr : "allTx" ≠ "refNumber" := by decide
  have same : ∀ st : Stub, st.kv "allTx" = s.kv "allTx" → logOf st = logOf s := by
    intro st e; unfold logOf; rw [e]
  unfold transferPoints
  split
  · rename_i a0 a1 a2 a3 a4 a5 a6 a7 rest
    have k0 : "allTx" ≠ a0 := fun e => h0 (by simp [← e])
    have k1 : "allTx" ≠ a1 := fun e => h1 (by simp [← e])
    split
    · rename_i heq
      exact Or.inl (same _ (same_get heq h))
    rename_i b st heq
    replace h := same_get heq h
    clear heq
    simp only []
    split
    · rename_i heq
      exact Or.inl (same _ (same_put heq hr h))
    rename_i st2 heq
    replace h := same_put heq hr h
    clear heq
    split
    · rename_i heq
      exact Or.inl (same _ (same_get heq (same_contractAmount _ h)))
    rename_i b3 st3 heq
    replace h := same_get heq (same_contractAmount _ h)
    clear heq
    split
    · rename_i heq
      exact Or.inl (same _ (same_put_of_eq heq (draftTx_To ..) k0 h))
    rename_i st4 heq
    replace h := same_put_of_eq heq (draftTx_To ..) k0 h
    clear heq
    split
    · rename_i heq
      exact Or.inl (same _ (same_get heq h))
    rename_i b5 st5 heq
    replace h := same_get heq h
    clear heq
    split
    · rename_i heq
      exact Or.inl (same _ (same_put_of_eq heq (draftTx_From ..) k1 h))
    rename_i st6 heq
    replace h := same_put_of_eq heq (draftTx_From ..) k1 h
    clear heq
    split
    · rename_i heq
      exact Or.inl (same _ (same_get heq h))
    rename_i b7 st7 heq
    have hb : (unmarshalAllTransactions b7).Transactions = logOf s := by
      rw [Stub.GetState_eq_ok heq]; exact same _ h
    replace h := same_get heq h
    clear heq
    split
    · rename_i heq
      exact (log_put heq (same _ h) hb).imp id (fun e => ⟨_, e⟩)
    · rename_i heq
      exact (log_put heq (same _ h) hb).imp id (fun e => ⟨_, e⟩)
  · exact Or.inl rfl

/-- Whichever store calls fail, `addSmartContract` leaves every key other than
`contractIds` and the registered identifier as it was. -/
theorem addSmartContract_frame (P : Strconv) (s : Stub) (args : List String) (k : String)
    (h0 : args[0]? ≠ some k) (hi : k ≠ "contractIds") :
    (addSmartContract P s args).2.kv k = s.kv k := by
  have h : s.kv k = s.kv k := rfl
  unfold addSmartContract
  split
  · rename_i a0 a1 a2 a3 a4 rest
    have k0 : k ≠ a0 := fun e => h0 (by simp [e])
    simp only [newSmartContract_Id]
    split
    · rename_i heq
      exact same_put heq k0 h
    rename_i st heq
    replace h := same_put heq k0 h
    clear heq
    split
    · rename_i heq
      exact same_put heq hi h
    · rename_i heq
      exact same_put heq hi h
  · rfl

/-- Whichever store calls fail, `incrementReferenceNumber` leaves every key other
than `refNumber` as it was. -/
theorem incrementReferenceNumber_frame (s : Stub) (args : List String) (k : String)
    (hr : k ≠ "refNumber") : (incrementReferenceNumber s args).2.kv k = s.kv k := by
  have h : s.kv k = s.kv k := rfl
  unfold incrementReferenceNumber
  split
  · rename_i heq
    exact same_get heq h
  rename_i b st heq
  replace h := same_get heq h
  clear heq
  simp only []
  split
  · rename_i heq
    exact same_put heq hr h
  · rename_i heq
    exact same_put heq hr h

/-! ## The log, the account records and partial failures -/

theorem afterPlainTransfer_reachable : Reachable decimal afterPlainTransfer :=
  Reachable.invoke june2016 "transferPoints" plainTransferArgs (initState_reachable decimal)

/-- The log after a transfer with eight arguments, receiver and sender other than
`allTx`, on a store that never errors. -/
theorem transferPoints_log_of_noFaults (P : Strconv) (clock : Clock) {s : Stub} (h : s.NoFaults)
    (a0 a1 a2 a3 a4 a5 a6 a7 : String) (rest : List String)
    (h0 : a0 ≠ "allTx") (h1 : a1 ≠ "allTx") :
    (transferPoints P clock s (a0 :: a1 :: a2 :: a3 :: a4 :: a5 :: a6 :: a7 :: rest)).1
      = .ok (.bytes none) ∧
    ∃ tx, logOf (transferPoints P clock s
      (a0 :: a1 :: a2 :: a3 :: a4 :: a5 :: a6 :: a7 :: rest)).2 = logOf s ++ [tx] := by
  obtain ⟨s1, s2, s3, tx0, tx, amt, e1, e0, ea, e2, e3, etx, hrun⟩ :=
    transferPoints_of_noFaults P clock h a0 a1 a2 a3 a4 a5 a6 a7 rest
  refine ⟨by rw [hrun], tx, ?_⟩
  rw [hrun, logOf_set_allTx]
  have : logOf s3 = logOf s := by
    unfold logOf
    rw [e3, Stub.set_kv_of_ne _ _ (Ne.symm h1), e2, Stub.set_kv_of_ne _ _ (Ne.symm h0), e1,
      Stub.set_kv_of_ne _ _ (by decide)]
  rw [this]

/-- C14, amended: amounts taken as exact numbers, in every state, whichever
store calls fail, a `transferPoints` call whose receiver and sender are not the key `allTx` leaves the log as it was
or adds one transaction at its end, and adds exactly one when it has eight
arguments and the store never errors; an `addSmartContract` call whose
identifier is not `allTx` and an `incrementReferenceNumber` call leave the log as
it was. -/
theorem log_append_only (P : Strconv) (s : Stub) :
    (∀ (clock : Clock) (args : List String),
      args[0]? ≠ some "allTx" → args[1]? ≠ some "allTx" →
      logOf (transferPoints P clock s args).2 = logOf s ∨
      ∃ tx, logOf (transferPoints P clock s args).2 = logOf s ++ [tx]) ∧
    (∀ (clock : Clock) (a0 a1 a2 a3 a4 a5 a6 a7 : String) (rest : List String),
      s.NoFaults → a0 ≠ "allTx" → a1 ≠ "allTx" →
      (transferPoints P clock s (a0 :: a1 :: a2 :: a3 :: a4 :: a5 :: a6 :: a7 :: rest)).1
        = .ok (.bytes none) ∧
      ∃ tx, logOf (transferPoints P clock s
        (a0 :: a1 :: a2 :: a3 :: a4 :: a5 :: a6 :: a7 :: rest)).2 = logOf s ++ [tx]) ∧
    (∀ args : List String, args[0]? ≠ some "allTx" →
      logOf (addSmartContract P s args).2 = logOf s) ∧
    (∀ args : List String, logOf (incrementReferenceNumber s args).2 = logOf s) := by
  refine ⟨fun clock args h0 h1 => transferPoints_log P clock s args h0 h1,
    fun clock a0 a1 a2 a3 a4 a5 a6 a7 rest h h0 h1 =>
      transferPoints_log_of_noFaults P clock h a0 a1 a2 a3 a4 a5 a6 a7 rest h0 h1, ?_, ?_⟩
  · intro args h0
    unfold logOf
    rw [addSmartContract_frame P s args "allTx" h0 (by decide)]
  · intro args
    unfold logOf
    rw [incrementReferenceNumber_frame s args "allTx" (by decide)]

/-- C15, amended: in every state, whichever store calls fail, the record stored
under a key `x` is the same after the call as before for every
`addSmartContract` call whose identifier is not `x` (with `x` other than
`contractIds`), every `incrementReferenceNumber` call (with `x` other than
`refNumber`) and every `transferPoints` call in which `x` is neither receiver nor
sender (with `x` other than `refNumber` and `allTx`). -/
theorem account_record_frame (P : Strconv) (s : Stub) (x : String) :
    (∀ args : List String, args[0]? ≠ some x → x ≠ "contractIds" →
      (addSmartContract P s args).2.kv x = s.kv x) ∧
    (∀ args : List String, x ≠ "refNumber" →
      (incrementReferenceNumber s args).2.kv x = s.kv x) ∧
    (∀ (clock : Clock) (args : List String),
      args[0]? ≠ some x → args[1]? ≠ some x → x ≠ "refNumber" → x ≠ "allTx" →
      (transferPoints P clock s args).2.kv x = s.kv x) :=
  ⟨fun args h0 hi => addSmartContract_frame P s args x h0 hi,
    fun args hr => incrementReferenceNumber_frame s args x hr,
    fun clock args h0 h1 hr hl => transferPoints_frame P clock s args x h0 h1 hr hl⟩

theorem afterPlainTransfer_noFaults : afterPlainTransfer.NoFaults :=
  transferPoints_noFaults decimal june2016 initState_noFaults _

set_option maxRecDepth 10000 in
/-- Counterexample to C14 as stated: in the reachable state after one transfer
the log holds the transaction `2985674978`; registering a contract under the
identifier `allTx` leaves an empty log, and a transfer to the key `allTx` leaves
a log that holds the transaction `2985674979` alone. -/
theorem log_lost_under_log_key :
    Reachable decimal afterPlainTransfer ∧ afterPlainTransfer.NoFaults ∧
    (logOf afterPlainTransfer).map (fun tx => tx.RefNumber) = ["2985674978"] ∧
    (addSmartContract decimal afterPlainTransfer logKeyContractArgs).1 = .ok (.bytes none) ∧
    logOf (addSmartContract decimal afterPlainTransfer logKeyContractArgs).2 = [] ∧
    (transferPoints decimal june2016 afterPlainTransfer logKeyTransferArgs).1
      = .ok (.bytes none) ∧
    (logOf (transferPoints decimal june2016 afterPlainTransfer logKeyTransferArgs).2).map
      (fun tx => tx.RefNumber) = ["2985674979"] := by
  refine ⟨afterPlainTransfer_reachable, afterPlainTransfer_noFaults, by decide, rfl, rfl, rfl,
    by decide⟩

/-- Witness of C14 amended on the state written by `Init`. -/
theorem log_append_only_witness :
    ((["U3151672", "U2974034"] : List String)[0]? ≠ some "allTx" ∧
      (["U3151672", "U2974034"] : List String)[1]? ≠ some "allTx" ∧
      initState.NoFaults ∧ "U3151672" ≠ "allTx" ∧ "U2974034" ≠ "allTx" ∧
      romeContractArgs[0]? ≠ some "allTx") ∧
    (logOf (transferPoints decimal june2016 initState ["U3151672", "U2974034"]).2
        = logOf initState ∨
      ∃ tx, logOf (transferPoints decimal june2016 initState ["U3151672", "U2974034"]).2
        = logOf initState ++ [tx]) ∧
    ((transferPoints decimal june2016 initState
        ["U3151672", "U2974034", "gift", "to Anthony", "none", "0", "5", "0"]).1
        = .ok (.bytes none) ∧
      ∃ tx, logOf (transferPoints decimal june2016 initState
        ["U3151672", "U2974034", "gift", "to Anthony", "none", "0", "5", "0"]).2
        = logOf initState ++ [tx]) ∧
    logOf (addSmartContract decimal initState romeContractArgs).2 = logOf initState ∧
    logOf (incrementReferenceNumber initState []).2 = logOf initState :=
  ⟨⟨by decide, by decide, initState_noFaults, by decide, by decide, by decide⟩,
    (log_append_only decimal initState).1 june2016 _ (by decide) (by decide),
    (log_append_only decimal initState).2.1 june2016 "U3151672" "U2974034" "gift" "to Anthony"
      "none" "0" "5" "0" [] initState_noFaults (by decide) (by decide),
    (log_append_only decimal initState).2.2.1 romeContractArgs (by decide),
    (log_append_only decimal initState).2.2.2 []⟩

set_option maxRecDepth 10000 in
/-- Counterexample to C15 as stated: after `Init`, `addSmartContract` with the
identifier `U2974034` succeeds and replaces Natalie's account record by a
contract. -/
theorem account_replaced_by_contract :
    Reachable decimal initState ∧ initState.NoFaults ∧
    initState.kv "U2974034" = some (.user natalie) ∧
    (addSmartContract decimal initState accountKeyContractArgs).1 = .ok (.bytes none) ∧
    (∃ c, (addSmartContract decimal initState accountKeyContractArgs).2.kv "U2974034"
      = some (.contract c)) ∧
    (accountOf initState "U2974034").Balance = 1001 ∧
    (accountOf (addSmartContract decimal initState accountKeyContractArgs).2
      "U2974034").Balance = 0 :=
  ⟨initState_reachable decimal, initState_noFaults, rfl, rfl, ⟨_, rfl⟩, rfl, rfl⟩

/-- Witness of C15 amended: Natalie's record on the state written by `Init`. -/
theorem account_record_frame_witness :
    (romeContractArgs[0]? ≠ some "U2974034" ∧ "U2974034" ≠ "contractIds" ∧
      "U2974034" ≠ "refNumber" ∧
      (["U3151672", "B1928564", "gift", "to Anthony", "none", "0", "5", "0"] : List String)[0]?
        ≠ some "U2974034" ∧
      (["U3151672", "B1928564", "gift", "to Anthony", "none", "0", "5", "0"] : List String)[1]?
        ≠ some "U2974034" ∧ "U2974034" ≠ "allTx") ∧
    (addSmartContract decimal initState romeContractArgs).2.kv "U2974034"
      = initState.kv "U2974034" ∧
    (incrementReferenceNumber initState []).2.kv "U2974034" = initState.kv "U2974034" ∧
    (transferPoints decimal june2016 initState
      ["U3151672", "B1928564", "gift", "to Anthony", "none", "0", "5", "0"]).2.kv "U2974034"
      = initState.kv "U2974034" :=
  ⟨⟨by decide, by decide, by decide, by decide, by decide, by decide⟩,
    (account_record_frame decimal initState "U2974034").1 romeContractArgs (by decide)
      (by decide),
    (account_record_frame decimal initState "U2974034").2.1 [] (by decide),
    (account_record_frame decimal initState "U2974034").2.2 june2016 _ (by decide) (by decide)
      (by decide) (by decide)⟩

theorem Stub.faults_of_GetState_ok {s s1 : Stub} {k : String} {b : Option Value}
    (heq : s.GetState k = (.ok b, s1)) : s.faults 0 = false ∧ s1 = s.tick := by
  unfold Stub.GetState at heq
  cases hf : s.faults 0
  · exact ⟨rfl, (congrArg Prod.snd heq).symm⟩
  · rw [hf] at heq; simp at heq

theorem Stub.faults_of_PutState_none {s s1 : Stub} {k : String} {v : Value}
    (heq : s.PutState k v = (none, s1)) : s.faults 0 = false := by
  unfold Stub.PutState at heq
  cases hf : s.faults 0
  · rfl
  · rw [hf] at heq; simp at heq

theorem Stub.snd_of_PutState_fault {s s1 : Stub} {k : String} {v : Value} {r : Option Error}
    (hf : s.faults 0 = true) (heq : s.PutState k v = (r, s1)) : s1 = s.tick := by
  have e : s.PutState k v = (some .store, s.tick) := by simp [Stub.PutState, hf]
  rw [e] at heq
  exact (congrArg Prod.snd heq).symm

/-- C18, amended: when the reference counter was read and updated and the load
of the receiver fails, or succeeds and the write of the receiver fails (step 4),
`transferPoints` returns an error and the record stored under the sender key
(other than `refNumber`) is the same as before the call. -/
theorem receiver_failure_keeps_sender (P : Strconv) (clock : Clock) (s : Stub)
    (a0 a1 a2 a3 a4 a5 a6 a7 : String) (rest : List String)
    (hf0 : s.faults 0 = false) (hf1 : s.faults 1 = false)
    (hfail : (stubAtReceiverLoad P clock s a0 a1 a2 a3 a4 a5 a6 a7).faults 0 = true ∨
      (stubAtReceiverLoad P clock s a0 a1 a2 a3 a4 a5 a6 a7).faults 1 = true)
    (hs : a1 ≠ "refNumber") :
    (∃ e, (transferPoints P clock s (a0 :: a1 :: a2 :: a3 :: a4 :: a5 :: a6 :: a7 :: rest)).1
      = .error e) ∧
    (transferPoints P clock s (a0 :: a1 :: a2 :: a3 :: a4 :: a5 :: a6 :: a7 :: rest)).2.kv a1
      = s.kv a1 := by
  have hg : s.GetState "refNumber" = (.ok (s.kv "refNumber"), s.tick) := by
    simp [Stub.GetState, hf0]
  have hp : ∀ v, s.tick.PutState "refNumber" v = (none, s.tick.tick.set "refNumber" v) := by
    intro v
    have : s.tick.faults 0 = false := hf1
    simp [Stub.PutState, this]
  have hkv : (stubAtReceiverLoad P clock s a0 a1 a2 a3 a4 a5 a6 a7).kv a1 = s.kv a1 := by
    unfold stubAtReceiverLoad
    rw [contractAmount_kv, Stub.set_kv_of_ne _ _ hs]
    rfl
  simp only [transferPoints, hg, hp]
  split
  · rename_i heq
    exact ⟨⟨_, rfl⟩, same_get heq hkv⟩
  rename_i b st heq
  obtain ⟨hok, hst⟩ := Stub.faults_of_GetState_ok heq
  have hok1 : (stubAtReceiverLoad P clock s a0 a1 a2 a3 a4 a5 a6 a7).faults 0 = false := hok
  have hbad : (stubAtReceiverLoad P clock s a0 a1 a2 a3 a4 a5 a6 a7).faults 1 = true := by
    rcases hfail with h | h
    · rw [hok1] at h; cases h
    · exact h
  have hkv2 := same_get heq hkv
  have hst0 : st.faults 0 = true := by rw [hst]; exact hbad
  split
  · rename_i heq2
    have e2 := Stub.snd_of_PutState_fault hst0 heq2
    refine ⟨⟨_, rfl⟩, ?_⟩
    show Stub.kv _ a1 = _
    rw [e2]
    exact hkv2
  · rename_i st2 heq2
    have h3 := Stub.faults_of_PutState_none heq2
    rw [hst0] at h3
    cases h3

/-- Witness of C18 amended: a transfer from Natalie to Anthony in which the load
of the receiver fails. -/
theorem receiver_failure_keeps_sender_witness :
    (receiverLoadFails.faults 0 = false ∧ receiverLoadFails.faults 1 = false ∧
      ((stubAtReceiverLoad decimal june2016 receiverLoadFails "U3151672" "U2974034" "gift"
          "to Anthony" "none" "0" "5" "0").faults 0 = true ∨
        (stubAtReceiverLoad decimal june2016 receiverLoadFails "U3151672" "U2974034" "gift"
          "to Anthony" "none" "0" "5" "0").faults 1 = true) ∧
      "U2974034" ≠ "refNumber") ∧
    (∃ e, (transferPoints decimal june2016 receiverLoadFails plainTransferArgs).1 = .error e) ∧
    (transferPoints decimal june2016 receiverLoadFails plainTransferArgs).2.kv "U2974034"
      = receiverLoadFails.kv "U2974034" :=
  ⟨⟨rfl, rfl, Or.inl rfl, by decide⟩,
    receiver_failure_keeps_sender decimal june2016 receiverLoadFails "U3151672" "U2974034"
      "gift" "to Anthony" "none" "0" "5" "0" [] rfl rfl (Or.inl rfl) (by decide)⟩

/-- Counterexample to C18 as stated: a transfer from Natalie to Anthony in which
the read of the log (step 6) fails returns that error, and the balance stored for
the sender has gone from 1001 to 996. -/
theorem log_failure_after_sender_debited :
    (transferPoints decimal june2016 logLoadFails plainTransferArgs).1
      = .error (.new "transferPoints: Failed to get all Transactions") ∧
    (accountOf logLoadFails "U2974034").Balance = 1001 ∧
    (accountOf (transferPoints decimal june2016 logLoadFails plainTransferArgs).2
      "U2974034").Balance = 1001 - 5 ∧
    (1001 : ℚ) - 5 ≠ 1001 ∧
    logOf (transferPoints decimal june2016 logLoadFails plainTransferArgs).2 = [] :=
  ⟨rfl, rfl, rfl, by norm_num, rfl⟩

/-- The discount loop multiplies the amount by the factor of the index entries,
read after the counter has been written under `refNumber`. -/
theorem discountLoop_factor {s : Stub} (h : s.NoFaults) (n : Int) (cid : String)
    (ids : List String) (amt : ℚ) :
    (discountLoop cid ids (s.set "refNumber" (.int n)) amt).1 = amt * discountFactor s cid ids := by
  have h1 : (s.set "refNumber" (.int n)).NoFaults := Stub.noFaults_set h _ _
  induction ids generalizing amt with
  | nil => simp [discountLoop, discountFactor]
  | cons id ids ih =>
    simp only [discountLoop, Stub.GetState_of_noFaults h1, bytesOf]
    rw [ih]
    unfold discountFactor
    rw [List.map_cons, List.prod_cons]
    by_cases e : id = "refNumber"
    · subst e
      rw [Stub.set_kv_self]
      have hz : (if cid = (unmarshalContract (some (Value.int n))).Id then
          amt - amt * (unmarshalContract (some (Value.int n))).DiscountRate else amt) = amt := by
        show (if cid = "" then amt - amt * 0 else amt) = amt
        split_ifs <;> simp
      rw [hz, if_neg (fun hc : "refNumber" ≠ "refNumber" ∧ _ => hc.1 rfl), one_mul]
    · rw [Stub.set_kv_of_ne _ _ e]
      by_cases e2 : cid = (unmarshalContract (s.kv id)).Id
      · rw [if_pos e2, if_pos ⟨e, e2⟩]; ring
      · rw [if_neg e2, if_neg (fun hc => e2 hc.2)]; ring

/-- C19, amended: the policy is selected by the contract identifier of the
transfer and no Method tag is read.  On a store that never errors, amounts taken
as exact numbers, a call naming `Paris` logs the travel-policy result computed
with the contract read under `Paris`, whatever its Method: half the requested
amount inside the window of that contract, the requested amount otherwise.  A
call naming any identifier other than `Paris` and `Feedback` logs the requested
amount multiplied by `1 - DiscountRate` once for every index entry (other than
the key `refNumber`, which the call overwrites) whose stored contract carries that
identifier, whatever the Method and the window of those contracts. -/
theorem policy_selected_by_identifier (P : Strconv) (clock : Clock) (s : Stub)
    (a0 a1 a2 a3 a5 a6 a7 : String) (rest : List String) (a : ℚ)
    (h : s.NoFaults) (ha : P.ParseFloat a6 = some a) :
    (∃ (log : List Transaction) (tx : Transaction),
      (transferPoints P clock s
        (a0 :: a1 :: a2 :: a3 :: TRAVEL_CONTRACT :: a5 :: a6 :: a7 :: rest)).1
        = .ok (.bytes none) ∧
      logOf (transferPoints P clock s
        (a0 :: a1 :: a2 :: a3 :: TRAVEL_CONTRACT :: a5 :: a6 :: a7 :: rest)).2
        = log ++ [tx] ∧
      tx.Amount =
        if (unmarshalContract (s.kv TRAVEL_CONTRACT)).StartDate < clock.startDate ∧
            clock.startDate < (unmarshalContract (s.kv TRAVEL_CONTRACT)).EndDate
        then a / 2 else a) ∧
    (∀ a4 : String, a4 ≠ TRAVEL_CONTRACT → a4 ≠ FEEDBACK_CONTRACT →
      ∃ (log : List Transaction) (tx : Transaction),
        (transferPoints P clock s (a0 :: a1 :: a2 :: a3 :: a4 :: a5 :: a6 :: a7 :: rest)).1
          = .ok (.bytes none) ∧
        logOf (transferPoints P clock s (a0 :: a1 :: a2 :: a3 :: a4 :: a5 :: a6 :: a7 :: rest)).2
          = log ++ [tx] ∧
        tx.Amount = a * discountFactor s a4 (indexOf s)) := by
  have h1 : (s.set "refNumber" (.int (wrapInt (counterOf s + 1)))).NoFaults :=
    Stub.noFaults_set h _ _
  refine ⟨?_, ?_⟩
  · obtain ⟨log, tx, hok, hlog, hamt⟩ :=
      transferPoints_logged_amount P clock h a0 a1 a2 a3 TRAVEL_CONTRACT a5 a6 a7 rest
    have hA := draftTx_Amount_of_some P clock a0 a1 a2 a3 TRAVEL_CONTRACT a5 a6 a7 ha
    refine ⟨log, tx, hok, hlog, ?_⟩
    rw [hamt]
    unfold contractAmount
    rw [if_pos (by rw [draftTx_ContractId])]
    simp only [travelContract, Stub.GetState_of_noFaults h1, gt_iff_lt, draftTx_Date, hA]
    rw [Stub.set_kv_of_ne _ _ (by decide)]
    split_ifs
    · ring
    · rfl
  · intro a4 hT hF
    obtain ⟨log, tx, hok, hlog, hamt⟩ :=
      transferPoints_logged_amount P clock h a0 a1 a2 a3 a4 a5 a6 a7 rest
    have hA := draftTx_Amount_of_some P clock a0 a1 a2 a3 a4 a5 a6 a7 ha
    refine ⟨log, tx, hok, hlog, ?_⟩
    rw [hamt, contractAmount_generic h1 _ (by rw [draftTx_ContractId]; exact hT)
      (by rw [draftTx_ContractId]; exact hF)]
    simp only [draftTx_ContractId, hA]
    have : indexOf (s.set "refNumber" (.int (wrapInt (counterOf s + 1)))) = indexOf s := by
      unfold indexOf; rw [Stub.set_kv_of_ne _ _ (by decide)]
    rw [this]
    exact discountLoop_factor h _ a4 (indexOf s) a

set_option maxRecDepth 10000 in
/-- Witness of C19 amended on the state after `Init` and the registration of
`Rome` with rate `0.5`: a transfer of 100 points dated 1 June 2016 logs 100 / 2
under `Paris`, inside the window of the contract stored there, and 100 times the
factor 1 / 2 of the one index entry `Rome` under `Rome`, whose window from 0 to 0
does not hold the date. -/
theorem policy_selected_by_identifier_witness :
    (afterRomeContract.NoFaults ∧ decimal.ParseFloat "100" = some 100) ∧
    ((unmarshalContract (afterRomeContract.kv TRAVEL_CONTRACT)).StartDate < june2016.startDate ∧
      june2016.startDate < (unmarshalContract (afterRomeContract.kv TRAVEL_CONTRACT)).EndDate) ∧
    indexOf afterRomeContract = ["Paris", "Feedback", "Rome"] ∧
    discountFactor afterRomeContract "Rome" (indexOf afterRomeContract) = 1 / 2 ∧
    (unmarshalContract (afterRomeContract.kv "Rome")).Method = "travelContract" ∧
    (unmarshalContract (afterRomeContract.kv "Rome")).EndDate = 0 ∧
    (∃ (log : List Transaction) (tx : Transaction),
      (transferPoints decimal june2016 afterRomeContract parisTransferArgs).1
        = .ok (.bytes none) ∧
      logOf (transferPoints decimal june2016 afterRomeContract parisTransferArgs).2
        = log ++ [tx] ∧
      tx.Amount =
        if (unmarshalContract (afterRomeContract.kv TRAVEL_CONTRACT)).StartDate
              < june2016.startDate ∧
            june2016.startDate < (unmarshalContract (afterRomeContract.kv TRAVEL_CONTRACT)).EndDate
        then 100 / 2 else 100) ∧
    (∃ (log : List Transaction) (tx : Transaction),
      (transferPoints decimal june2016 afterRomeContract
        ["U3151672", "U2974034", "travel", "Paris trip", "Rome", "0", "100", "0"]).1
        = .ok (.bytes none) ∧
      logOf (transferPoints decimal june2016 afterRomeContract
        ["U3151672", "U2974034", "travel", "Paris trip", "Rome", "0", "100", "0"]).2
        = log ++ [tx] ∧
      tx.Amount = 100 * discountFactor afterRomeContract "Rome" (indexOf afterRomeContract)) := by
  have hp : decimal.ParseFloat "100" = some 100 := by with_unfolding_all decide
  have hnf : afterRomeContract.NoFaults := fun _ => rfl
  have hthm := policy_selected_by_identifier decimal june2016 afterRomeContract "U3151672"
    "U2974034" "travel" "Paris trip" "0" "100" "0" [] 100 hnf hp
  refine ⟨⟨hnf, hp⟩, by decide, by decide, ?_, rfl, rfl, hthm.1,
    hthm.2 "Rome" (by decide) (by decide)⟩
  with_unfolding_all decide

set_option maxRecDepth 10000 in
/-- Counterexample to C19 as stated: the contract registered under `Rome` with
rate `0.5` has Method `travelContract` and a window from 0 to 0, which does not
hold the date of the transfer; the travel policy would leave the amount 100
unchanged, and the transfer logs 50. -/
theorem registered_contract_not_travel_policy :
    Reachable decimal afterRomeContract ∧ afterRomeContract.NoFaults ∧
    (unmarshalContract (afterRomeContract.kv "Rome")).Method = "travelContract" ∧
    (unmarshalContract (afterRomeContract.kv "Rome")).StartDate = 0 ∧
    (unmarshalContract (afterRomeContract.kv "Rome")).EndDate = 0 ∧
    ¬ ((0 : Time) < june2016.startDate ∧ june2016.startDate < (0 : Time)) ∧
    decimal.ParseFloat "100" = some 100 ∧
    (transferPoints decimal june2016 afterRomeContract romeTransferArgs).1 = .ok (.bytes none) ∧
    (logOf (transferPoints decimal june2016 afterRomeContract romeTransferArgs).2).map
      (fun tx => tx.Amount) = [50] := by
  refine ⟨Reachable.invoke june2016 "addSmartContract" romeContractArgs
      (initState_reachable decimal),
    fun _ => rfl, rfl, rfl, rfl, by decide, ?_, rfl, ?_⟩
  · with_unfolding_all decide
  · with_unfolding_all decide

theorem wrapInt_twice {n : Int} (h0 : -2 ^ 63 ≤ n) (h1 : n + 2 < 2 ^ 63) :
    wrapInt (wrapInt (n + 1) + 1) = n + 2 := by
  rw [wrapInt_of_range (n := n + 1) (by omega) (by omega)]
  rw [wrapInt_of_range (by omega) (by omega)]
  ring

/-- C20, amended: when sender and receiver are the same existing account, stored
under a key other than `refNumber` and `allTx`, with a transaction counter in the
range of the Go `int` and below `2^63 - 2`, and the store never errors, the
balance stored after the call equals the balance before, the transaction counter
is increased by 2 and one transaction is added at the end of the log. -/
theorem self_transfer (P : Strconv) (clock : Clock) (s : Stub)
    (a0 a2 a3 a4 a5 a6 a7 : String) (rest : List String) (u : User)
    (h : s.NoFaults) (hu : s.kv a0 = some (.user u))
    (hr : a0 ≠ "refNumber") (hl : a0 ≠ "allTx")
    (hlo : -2 ^ 63 ≤ u.NumTxs) (hhi : u.NumTxs + 2 < 2 ^ 63) :
    (transferPoints P clock s (a0 :: a0 :: a2 :: a3 :: a4 :: a5 :: a6 :: a7 :: rest)).1
      = .ok (.bytes none) ∧
    ∃ (u2 : User) (tx : Transaction),
      (transferPoints P clock s (a0 :: a0 :: a2 :: a3 :: a4 :: a5 :: a6 :: a7 :: rest)).2.kv a0
        = some (.user u2) ∧
      u2.Balance = u.Balance ∧ u2.NumTxs = u.NumTxs + 2 ∧
      logOf (transferPoints P clock s (a0 :: a0 :: a2 :: a3 :: a4 :: a5 :: a6 :: a7 :: rest)).2
        = logOf s ++ [tx] := by
  obtain ⟨s1, s2, s3, tx0, tx, amt, e1, e0, ea, e2, e3, etx, hrun⟩ :=
    transferPoints_of_noFaults P clock h a0 a0 a2 a3 a4 a5 a6 a7 rest
  have u1 : accountOf s1 a0 = u := by
    unfold accountOf; rw [e1, Stub.set_kv_of_ne _ _ hr, hu]; rfl
  rw [u1] at e2
  have u2 : accountOf s2 a0 = { u with
      Balance := u.Balance + amt, Modified := clock.currentDateStr,
      NumTxs := wrapInt (u.NumTxs + 1) } := by
    unfold accountOf; rw [e2, Stub.set_kv_self]; rfl
  rw [u2] at e3
  have hlog : logOf s3 = logOf s := by
    unfold logOf
    rw [e3, Stub.set_kv_of_ne _ _ (Ne.symm hl), e2, Stub.set_kv_of_ne _ _ (Ne.symm hl), e1,
      Stub.set_kv_of_ne _ _ (by decide)]
  refine ⟨by rw [hrun],
    { u with
      Balance := u.Balance + amt - amt, Modified := clock.currentDateStr,
      NumTxs := wrapInt (wrapInt (u.NumTxs + 1) + 1) }, tx, ?_, ?_, ?_, ?_⟩
  · rw [hrun]
    show (s3.set _ _).kv a0 = _
    rw [Stub.set_kv_of_ne _ _ hl, e3, Stub.set_kv_self]
  · show u.Balance + amt - amt = u.Balance
    ring
  · show wrapInt (wrapInt (u.NumTxs + 1) + 1) = u.NumTxs + 2
    exact wrapInt_twice hlo hhi
  · rw [hrun, logOf_set_allTx, hlog]

/-- Witness of C20 amended: a transfer from Natalie to herself on the state
written by `Init`. -/
theorem self_transfer_witness :
    (initState.NoFaults ∧ initState.kv "U2974034" = some (.user natalie) ∧
      "U2974034" ≠ "refNumber" ∧ "U2974034" ≠ "allTx" ∧
      -2 ^ 63 ≤ natalie.NumTxs ∧ natalie.NumTxs + 2 < 2 ^ 63) ∧
    (transferPoints decimal june2016 initState selfTransferArgs).1 = .ok (.bytes none) ∧
    ∃ (u2 : User) (tx : Transaction),
      (transferPoints decimal june2016 initState selfTransferArgs).2.kv "U2974034"
        = some (.user u2) ∧
      u2.Balance = natalie.Balance ∧ u2.NumTxs = natalie.NumTxs + 2 ∧
      logOf (transferPoints decimal june2016 initState selfTransferArgs).2
        = logOf initState ++ [tx] := by
  have h1 : -2 ^ 63 ≤ natalie.NumTxs := by norm_num [natalie]
  have h2 : natalie.NumTxs + 2 < 2 ^ 63 := by norm_num [natalie]
  exact ⟨⟨initState_noFaults, rfl, by decide, by decide, h1, h2⟩,
    self_transfer decimal june2016 initState "U2974034" "gift" "to myself" "none" "0" "5" "0" []
      natalie initState_noFaults rfl (by decide) (by decide) h1 h2⟩

set_option maxRecDepth 10000 in
/-- Counterexample to C20 as stated: the account stored under the key
`refNumber` transfers 5 points to itself on a store that never errors; its stored
balance goes from 5 to 0 and its transaction counter from 1 to 2. -/
theorem self_transfer_counter_key :
    afterCounterKeyTransfer.NoFaults ∧
    (∃ u, afterCounterKeyTransfer.kv "refNumber" = some (.user u)) ∧
    (transferPoints decimal june2016 afterCounterKeyTransfer counterKeySelfTransferArgs).1
      = .ok (.bytes none) ∧
    (accountOf afterCounterKeyTransfer "refNumber").Balance = 5 ∧
    (accountOf (transferPoints decimal june2016 afterCounterKeyTransfer
      counterKeySelfTransferArgs).2 "refNumber").Balance = 0 ∧
    (accountOf afterCounterKeyTransfer "refNumber").NumTxs = 1 ∧
    (accountOf (transferPoints decimal june2016 afterCounterKeyTransfer
      counterKeySelfTransferArgs).2 "refNumber").NumTxs = 2 := by
  refine ⟨afterCounterKeyTransfer_noFaults, ⟨_, rfl⟩, rfl, ?_, ?_, ?_, ?_⟩ <;>
    with_unfolding_all decide

/-! ## Registration under `Paris` -/

theorem zeroWindow_of_kv {s s1 : Stub} (h : ZeroTravelWindow s)
    (e : s1.kv TRAVEL_CONTRACT = s.kv TRAVEL_CONTRACT) : ZeroTravelWindow s1 := by
  unfold ZeroTravelWindow; rw [e]; exact h

theorem zeroWindow_put {s1 s2 : Stub} {j : String} {v : Value} {r : Option Error}
    (heq : s1.PutState j v = (r, s2)) (h : ZeroTravelWindow s1)
    (hv : j = TRAVEL_CONTRACT → (unmarshalContract (some v)).StartDate = 0 ∧
      (unmarshalContract (some v)).EndDate = 0) : ZeroTravelWindow s2 := by
  rcases Stub.PutState_cases s1 j v with hp | hp
  · rw [hp] at heq
    have e : s2 = s1.tick := (congrArg Prod.snd heq).symm
    rw [e]; exact h
  · rw [hp] at heq
    have e : s2 = s1.tick.set j v := (congrArg Prod.snd heq).symm
    rw [e]
    unfold ZeroTravelWindow
    rw [Stub.set_kv]
    split_ifs with hj
    · exact hv hj.symm
    · exact h

theorem newSmartContract_window (P : Strconv) (a0 a1 a2 a3 a4 : String) :
    (newSmartContract P a0 a1 a2 a3 a4).StartDate = 0 ∧
    (newSmartContract P a0 a1 a2 a3 a4).EndDate = 0 := by
  unfold newSmartContract; cases P.ParseFloat a4 <;> exact ⟨rfl, rfl⟩

/-- Whichever store calls fail, `transferPoints` keeps a zero window under
`Paris`: the key is left as it was or holds a record that is not a contract. -/
theorem transferPoints_zeroWindow (P : Strconv) (clock : Clock) (s : Stub) (args : List String)
    (h : ZeroTravelWindow s) : ZeroTravelWindow (transferPoints P clock s args).2 := by
  rcases transferPoints_touches P clock s args TRAVEL_CONTRACT with e | ⟨u, e⟩ | ⟨n, e⟩ | ⟨t, e⟩
  · exact zeroWindow_of_kv h e
  · unfold ZeroTravelWindow; rw [e]; exact ⟨rfl, rfl⟩
  · unfold ZeroTravelWindow; rw [e]; exact ⟨rfl, rfl⟩
  · unfold ZeroTravelWindow; rw [e]; exact ⟨rfl, rfl⟩

/-- Whichever store calls fail, `addSmartContract` keeps a zero window under
`Paris`: the contract it writes has the zero time as both dates. -/
theorem addSmartContract_zeroWindow (P : Strconv) (s : Stub) (args : List String)
    (h : ZeroTravelWindow s) : ZeroTravelWindow (addSmartContract P s args).2 := by
  unfold addSmartContract
  split
  · rename_i a0 a1 a2 a3 a4 rest
    simp only [newSmartContract_Id]
    split
    · rename_i heq
      exact zeroWindow_put heq h (fun _ => newSmartContract_window P a0 a1 a2 a3 a4)
    rename_i st heq
    replace h := zeroWindow_put heq h (fun _ => newSmartContract_window P a0 a1 a2 a3 a4)
    clear heq
    have h2 : ZeroTravelWindow (st.GetState "contractIds").2 := h
    split
    · rename_i heq
      exact zeroWindow_put heq h2 (fun e => absurd e (by decide))
    · rename_i heq
      exact zeroWindow_put heq h2 (fun e => absurd e (by decide))
  · exact h

theorem Invoke_zeroWindow (P : Strconv) (clock : Clock) (s : Stub) (function : String)
    (args : List String) (hf : function ≠ "init") (h : ZeroTravelWindow s) :
    ZeroTravelWindow (Invoke P clock s function args).2 := by
  unfold Invoke
  split_ifs with h0
  · exact absurd h0 hf
  · exact transferPoints_zeroWindow P clock s args h
  · exact addSmartContract_zeroWindow P s args h
  · exact zeroWindow_of_kv h
      (incrementReferenceNumber_frame s args TRAVEL_CONTRACT (by decide))
  · exact h

/-- A zero window under `Paris` lasts as long as `Init` is not run again. -/
theorem noResetSince_zeroWindow {P : Strconv} {s0 s : Stub} (hr : NoResetSince P s0 s)
    (h : ZeroTravelWindow s0) : ZeroTravelWindow s := by
  induction hr with
  | start => exact h
  | invoke clock function args hf _ ih => exact Invoke_zeroWindow P clock _ function args hf ih
  | query function args _ ih => exact zeroWindow_of_kv ih (congrFun (Query_kv _ function args) _)

/-- The contract written by `addSmartContract` when its first store call
succeeds stays under its identifier, whatever the fate of the index update. -/
theorem addSmartContract_stored (P : Strconv) (s : Stub) (a0 a1 a2 a3 a4 : String)
    (rest : List String) (hput : s.faults 0 = false) (hi : a0 ≠ "contractIds") :
    (addSmartContract P s (a0 :: a1 :: a2 :: a3 :: a4 :: rest)).2.kv a0 =
      some (.contract (newSmartContract P a0 a1 a2 a3 a4)) := by
  have hp : s.PutState a0 (.contract (newSmartContract P a0 a1 a2 a3 a4)) =
      (none, s.tick.set a0 (.contract (newSmartContract P a0 a1 a2 a3 a4))) := by
    unfold Stub.PutState; rw [hput]; rfl
  have h : (s.tick.set a0 (.contract (newSmartContract P a0 a1 a2 a3 a4))).kv a0 =
      some (.contract (newSmartContract P a0 a1 a2 a3 a4)) := Stub.set_kv_self _ _ _
  simp only [addSmartContract, newSmartContract_Id, hp]
  split
  · rename_i heq
    exact (same_put heq hi (s := (s.tick.set a0 (.contract (newSmartContract P a0 a1 a2 a3 a4)))) rfl).trans h
  · rename_i heq
    exact (same_put heq hi (s := (s.tick.set a0 (.contract (newSmartContract P a0 a1 a2 a3 a4)))) rfl).trans h

/-- On a store that never errors, a transfer under `Paris` made while the window
under `Paris` is zero logs the amount of the draft. -/
theorem transferPoints_zeroWindow_amount (P : Strconv) (clock : Clock) {s : Stub}
    (h : s.NoFaults) (hz : ZeroTravelWindow s)
    (a0 a1 a2 a3 a5 a6 a7 : String) :
    (contractAmount
      { (draftTx P clock a0 a1 a2 a3 TRAVEL_CONTRACT a5 a6 a7).2 with
        RefNumber := Itoa (counterOf s) }
      (s.set "refNumber" (.int (wrapInt (counterOf s + 1))))).1 = (P.ParseFloat a6).getD 0 := by
  have h1 : (s.set "refNumber" (.int (wrapInt (counterOf s + 1)))).NoFaults :=
    Stub.noFaults_set h _ _
  have hA : (draftTx P clock a0 a1 a2 a3 TRAVEL_CONTRACT a5 a6 a7).2.Amount =
      (P.ParseFloat a6).getD 0 := by
    cases ha : P.ParseFloat a6 with
    | none => exact (draftTx_of_none P clock a0 a1 a2 a3 _ a5 a6 a7 ha).1
    | some a => exact draftTx_Amount_of_some P clock a0 a1 a2 a3 _ a5 a6 a7 ha
  unfold contractAmount
  rw [if_pos (by rw [draftTx_ContractId])]
  simp only [travelContract, Stub.GetState_of_noFaults h1, gt_iff_lt, draftTx_Date, hA]
  rw [Stub.set_kv_of_ne _ _ (by decide)]
  rw [hz.1, hz.2]
  rw [if_neg (fun hc => lt_asymm hc.1 hc.2)]

/-- C21, amended: after an `addSmartContract` call with identifier `Paris` (any
title, conditions and discount-rate text) whose write of the contract succeeds,
the contract read under `Paris` has zero StartDate and EndDate.  In every later
state reached without a new run of `init`, whichever store calls failed on the
way, a `transferPoints` call with contract identifier `Paris` made on a store
that never errors, amounts taken as exact numbers, succeeds and logs the
requested amount (0 when the amount text does not parse) at any timestamp: it is
neither halved nor reduced by the registered discount rate.  That amount is the
one credited and debited (read on the stored balances when the two account keys
differ and are not `refNumber` or `allTx`). -/
theorem paris_registration_disables_halving (P : Strconv) (s : Stub)
    (a1 a2 a3 a4 : String) (rest : List String) (hput : s.faults 0 = false) :
    ((unmarshalContract ((addSmartContract P s
          (TRAVEL_CONTRACT :: a1 :: a2 :: a3 :: a4 :: rest)).2.kv TRAVEL_CONTRACT)).StartDate = 0 ∧
      (unmarshalContract ((addSmartContract P s
          (TRAVEL_CONTRACT :: a1 :: a2 :: a3 :: a4 :: rest)).2.kv TRAVEL_CONTRACT)).EndDate = 0) ∧
    ∀ (s1 : Stub),
      NoResetSince P (addSmartContract P s (TRAVEL_CONTRACT :: a1 :: a2 :: a3 :: a4 :: rest)).2 s1 →
      s1.NoFaults →
      ∀ (clock : Clock) (b0 b1 b2 b3 b5 b6 b7 : String) (more : List String),
        ∃ (log : List Transaction) (tx : Transaction),
          (transferPoints P clock s1
            (b0 :: b1 :: b2 :: b3 :: TRAVEL_CONTRACT :: b5 :: b6 :: b7 :: more)).1
            = .ok (.bytes none) ∧
          logOf (transferPoints P clock s1
            (b0 :: b1 :: b2 :: b3 :: TRAVEL_CONTRACT :: b5 :: b6 :: b7 :: more)).2
            = log ++ [tx] ∧
          tx.Amount = (P.ParseFloat b6).getD 0 ∧
          (b0 ≠ b1 → b0 ≠ "refNumber" → b0 ≠ "allTx" → b1 ≠ "refNumber" → b1 ≠ "allTx" →
            (accountOf (transferPoints P clock s1
                (b0 :: b1 :: b2 :: b3 :: TRAVEL_CONTRACT :: b5 :: b6 :: b7 :: more)).2 b0).Balance
              = (accountOf s1 b0).Balance + (P.ParseFloat b6).getD 0 ∧
            (accountOf (transferPoints P clock s1
                (b0 :: b1 :: b2 :: b3 :: TRAVEL_CONTRACT :: b5 :: b6 :: b7 :: more)).2 b1).Balance
              = (accountOf s1 b1).Balance - (P.ParseFloat b6).getD 0) := by
  have hst := addSmartContract_stored P s TRAVEL_CONTRACT a1 a2 a3 a4 rest hput (by decide)
  have hw := newSmartContract_window P TRAVEL_CONTRACT a1 a2 a3 a4
  have hz0 : ZeroTravelWindow
      (addSmartContract P s (TRAVEL_CONTRACT :: a1 :: a2 :: a3 :: a4 :: rest)).2 := by
    unfold ZeroTravelWindow; rw [hst]; exact hw
  refine ⟨hz0, ?_⟩
  intro s1 hlater h clock b0 b1 b2 b3 b5 b6 b7 more
  have hz := noResetSince_zeroWindow hlater hz0
  obtain ⟨log, tx, hok, hlog, hamt⟩ :=
    transferPoints_logged_amount P clock h b0 b1 b2 b3 TRAVEL_CONTRACT b5 b6 b7 more
  have hval : tx.Amount = (P.ParseFloat b6).getD 0 := by
    rw [hamt]; exact transferPoints_zeroWindow_amount P clock h hz b0 b1 b2 b3 b5 b6 b7
  refine ⟨log, tx, hok, hlog, hval, ?_⟩
  intro hne hr1 hr2 hs1 hs2
  obtain ⟨log2, tx2, _, hlog2, hb0, hb1⟩ :=
    transferPoints_balances P clock h b0 b1 b2 b3 TRAVEL_CONTRACT b5 b6 b7 more hne hr1 hr2 hs1 hs2
  have htx : tx2 = tx := by
    have := List.append_inj' (hlog2.symm.trans hlog) rfl
    exact List.singleton_inj.1 this.2
  rw [htx, hval] at hb0 hb1
  exact ⟨hb0, hb1⟩

set_option maxRecDepth 10000 in
/-- Witness of C21 amended: `Paris` is registered with rate `0.5` on the state
written by `Init`, a transfer without contract follows, and a transfer of 100
points under `Paris` dated 1 June 2016, inside the window set by `Init`, logs
100; on the state written by `Init` the same call logs 50. -/
theorem paris_registration_disables_halving_witness :
    initState.faults 0 = false ∧
    NoResetSince decimal afterParisContract afterParisContractTransfer ∧
    afterParisContractTransfer.NoFaults ∧
    (logOf (transferPoints decimal june2016 initState parisTransferArgs).2).map
      (fun tx => tx.Amount) = [50] ∧
    (unmarshalContract (afterParisContract.kv "Paris")).DiscountRate = 1 / 2 ∧
    (logOf (transferPoints decimal june2016 afterParisContractTransfer parisTransferArgs).2).map
      (fun tx => tx.Amount) = [5, 100] ∧
    ((unmarshalContract (afterParisContract.kv "Paris")).StartDate = 0 ∧
      (unmarshalContract (afterParisContract.kv "Paris")).EndDate = 0) ∧
    ∃ (log : List Transaction) (tx : Transaction),
      (transferPoints decimal june2016 afterParisContractTransfer parisTransferArgs).1
        = .ok (.bytes none) ∧
      logOf (transferPoints decimal june2016 afterParisContractTransfer parisTransferArgs).2
        = log ++ [tx] ∧
      tx.Amount = (decimal.ParseFloat "100").getD 0 ∧
      ("U3151672" ≠ "U2974034" → "U3151672" ≠ "refNumber" → "U3151672" ≠ "allTx" →
        "U2974034" ≠ "refNumber" → "U2974034" ≠ "allTx" →
        (accountOf (transferPoints decimal june2016 afterParisContractTransfer
            parisTransferArgs).2 "U3151672").Balance
          = (accountOf afterParisContractTransfer "U3151672").Balance
            + (decimal.ParseFloat "100").getD 0 ∧
        (accountOf (transferPoints decimal june2016 afterParisContractTransfer
            parisTransferArgs).2 "U2974034").Balance
          = (accountOf afterParisContractTransfer "U2974034").Balance
            - (decimal.ParseFloat "100").getD 0) := by
  have hlater : NoResetSince decimal afterParisContract afterParisContractTransfer :=
    NoResetSince.invoke june2016 "transferPoints" plainTransferArgs (by decide)
      NoResetSince.start
  have hnf : afterParisContractTransfer.NoFaults := fun _ => rfl
  have hthm := paris_registration_disables_halving decimal initState "Paris for Less" "dining"
    "travel" "0.5" [] rfl
  refine ⟨rfl, hlater, hnf, ?_, ?_, ?_, hthm.1, ?_⟩
  · with_unfolding_all decide
  · with_unfolding_all decide
  · with_unfolding_all decide
  · exact hthm.2 afterParisContractTransfer hlater hnf june2016 "U3151672" "U2974034" "travel"
      "Paris trip" "0" "100" "0" []

set_option maxRecDepth 10000 in
/-- Counterexample to C21 as stated: `Paris` is registered with rate `0.5` on the
state written by `Init` and the stored contract has zero StartDate and EndDate;
an invocation of `init` follows and writes the bootstrap contract back under
`Paris`; the later transfer of 100 points under `Paris` dated 1 June 2016 logs
50, not the requested 100. -/
theorem halving_restored_by_init :
    Reachable decimal afterParisContract ∧
    (unmarshalContract (afterParisContract.kv "Paris")).StartDate = 0 ∧
    (unmarshalContract (afterParisContract.kv "Paris")).EndDate = 0 ∧
    (Invoke decimal june2016 afterParisContract "init" ["reset"]).1 = .ok (.bytes none) ∧
    afterParisContractReset.NoFaults ∧
    (unmarshalContract (afterParisContractReset.kv "Paris")).StartDate = date_2016_05_11_1200 ∧
    (unmarshalContract (afterParisContractReset.kv "Paris")).EndDate = date_2060_12_31_1159 ∧
    decimal.ParseFloat "100" = some 100 ∧
    (transferPoints decimal june2016 afterParisContractReset parisTransferArgs).1
      = .ok (.bytes none) ∧
    (logOf (transferPoints decimal june2016 afterParisContractReset parisTransferArgs).2).map
      (fun tx => tx.Amount) = [50] ∧
    (50 : ℚ) ≠ 100 := by
  refine ⟨Reachable.invoke june2016 "addSmartContract" parisContractArgs
      (initState_reachable decimal),
    rfl, rfl, rfl, fun _ => rfl, rfl, rfl, ?_, rfl, ?_, by norm_num⟩
  · with_unfolding_all decide
  · with_unfolding_all decide

/-! ## Machine values: where exact numbers and texts stop -/

set_option exponentiation.threshold 3000 in
/-- Counterexample to C7 as stated: the contract written by `Init` is stored
under `Paris` and its window holds 1 June 2016; the amount is the smallest
positive float64, `2 ^ (-1074)`; its product by 0.5 lies half-way between 0 and
that float64 and rounds to 0, which is not half the amount. -/
theorem travelContract_halving_underflows :
    initState.kv TRAVEL_CONTRACT = some (.contract double) ∧
    (double.StartDate < tinyTravelTx.Date ∧ tinyTravelTx.Date < double.EndDate) ∧
    Float64.round tinyTravelTx.Amount = .finite tinyTravelTx.Amount ∧
    (travelContractFloat64 tinyTravelTx (.finite tinyTravelTx.Amount) initState).1 = .finite 0 ∧
    tinyTravelTx.Amount / 2 ≠ 0 := by
  refine ⟨rfl, by decide, ?_, ?_, ?_⟩
  · decide!
  · decide!
  · decide!

set_option exponentiation.threshold 3000 in
/-- Counterexample to C8 as stated: the contract written by `Init` is stored
under `Feedback` and its window holds 1 June 2016; with 360287970189641
activities the float64 product by 100 lies half-way between two float64 values,
and the function returns 36028797018965096, not 1000 + 100 * 360287970189641 =
36028797018965100. -/
theorem feedbackContract_bonus_rounds :
    initState.kv FEEDBACK_CONTRACT = some (.contract feedback) ∧
    (feedback.StartDate < busyFeedbackTx.Date ∧ busyFeedbackTx.Date < feedback.EndDate) ∧
    0 ≤ busyFeedbackTx.Activities ∧
    Float64.ofInt busyFeedbackTx.Activities = .finite 360287970189641 ∧
    (feedbackContractFloat64 busyFeedbackTx initState).1 = .finite 36028797018965096 ∧
    1000 + 100 * (busyFeedbackTx.Activities : ℚ) = 36028797018965100 ∧
    (36028797018965096 : ℚ) ≠ 36028797018965100 := by
  refine ⟨rfl, by decide, by decide, ?_, ?_, ?_, by norm_num⟩
  · decide!
  · decide!
  · decide!

/-- Counterexample to C3 as stated: the index written by `Init` holds the bytes
of `Paris` and `Feedback`; the identifier `52 6F FF 6D 65` is not valid UTF-8 and
is stored as `52 6F EF BF BD 6D 65`; the second registration compares that entry
with the identifier as passed, finds no match and appends it again. -/
theorem contract_index_repeats_coerced_identifier :
    (indexOf initState).map (fun s => s.toList.map Char.toNat) = initIndexBytes ∧
    jsonString romeBadBytes = [0x52, 0x6F, 0xEF, 0xBF, 0xBD, 0x6D, 0x65] ∧
    addSmartContractIndex romeBadBytes initIndexBytes
      = initIndexBytes ++ [jsonString romeBadBytes] ∧
    addSmartContractIndex romeBadBytes (addSmartContractIndex romeBadBytes initIndexBytes)
      = initIndexBytes ++ [jsonString romeBadBytes, jsonString romeBadBytes] ∧
    ¬ (addSmartContractIndex romeBadBytes
        (addSmartContractIndex romeBadBytes initIndexBytes)).Nodup := by
  refine ⟨by decide, by decide, by decide, by decide, by decide⟩

set_option maxRecDepth 10000 in
/-- Counterexample to C9 as stated: the state after `Init` and one transfer to the
key `refNumber` is reachable, and `none` is not `Paris`, not `Feedback` and not in
the contract index; a second transfer of 5 points to that key succeeds and logs
the amount 5, and the balance stored for the receiver is 5 before and 5 after:
nothing is credited. -/
theorem unknown_contract_credit_lost_under_counter_key :
    Reachable decimal afterCounterKeyTransfer ∧
    "none" ≠ TRAVEL_CONTRACT ∧ "none" ≠ FEEDBACK_CONTRACT ∧
    "none" ∉ indexOf afterCounterKeyTransfer ∧
    decimal.ParseFloat "5" = some 5 ∧
    (transferPoints decimal june2016 afterCounterKeyTransfer counterKeyTransferArgs).1
      = .ok (.bytes none) ∧
    (logOf (transferPoints decimal june2016 afterCounterKeyTransfer
        counterKeyTransferArgs).2).map (fun tx => tx.Amount) = [5, 5] ∧
    (accountOf afterCounterKeyTransfer "refNumber").Balance = 5 ∧
    (accountOf (transferPoints decimal june2016 afterCounterKeyTransfer
        counterKeyTransferArgs).2 "refNumber").Balance = 5 ∧
    (5 : ℚ) ≠ 5 + 5 := by
  refine ⟨Reachable.invoke june2016 "transferPoints" counterKeyTransferArgs
      (initState_reachable decimal),
    by decide, by decide, by decide, ?_, rfl, ?_, ?_, ?_, by norm_num⟩
  · with_unfolding_all decide
  · with_unfolding_all decide
  · with_unfolding_all decide
  · with_unfolding_all decide

end GscLab
